import Mathlib

/-!
# Point-of-sale backend: the sale-posting path

Shallow embedding of `src/backend/database.js` (schema, `seedData`, `run`, `get`), of
`src/backend/routes.js` (`setupRoutes`, `createSale`, `login`, `register`, `getSalesReport`,
the category and product handlers), of `src/backend/auth.js` (`authenticateToken`, `login`,
`register`) and of `getSalesReport` in `src/public/js/api.js`.

Modelling decisions
* A table is the list of its rows in insertion order. `AUTOINCREMENT` keys come from a
  per-table sequence counter kept in the store (`lastID = seq + 1`).
* `DECIMAL` columns and JavaScript numbers holding money are exact rationals (`ℚ`);
  `INTEGER` columns (stock, quantity) are `Int`, so non-positive quantities are representable.
* `CURRENT_TIMESTAMP` is read from a `clock` field of the store.
* A request body is a well-formed JSON body: `items` is an array of
  `{product_id, quantity}` objects with integer fields.
* Every `await this.db.get/run` may reject. The `n`-th database operation of one call
  rejects iff `fault n` holds; `noFault` is the run without storage failure.
* The database runs in autocommit mode: the source never opens a transaction, so each
  `run` that resolves is durable on its own.
-/

namespace POS

/-! ## Data model (database.js, `initializeTables`) -/

/-- Row of table `users`. -/
structure User where
  id : Nat
  email : String
  password : String
  name : String
  role : String
  deriving DecidableEq, Repr

/-- Row of table `categories`. -/
structure Category where
  id : Nat
  name : String
  description : Option String
  deriving DecidableEq, Repr

/-- Row of table `products`. -/
structure Product where
  id : Nat
  name : String
  description : Option String
  price : ℚ
  stock : Int
  category_id : Option Nat
  sku : Option String
  deriving DecidableEq, Repr

/-- Row of table `sales`. -/
structure Sale where
  id : Nat
  total_amount : ℚ
  payment_method : String
  user_id : Nat
  created_at : Nat
  deriving DecidableEq, Repr

/-- Row of table `sale_items`. -/
structure SaleItem where
  id : Nat
  sale_id : Nat
  product_id : Nat
  quantity : Int
  unit_price : ℚ
  total_price : ℚ
  deriving DecidableEq, Repr

/-- The database: five tables, their `AUTOINCREMENT` counters and the clock. -/
structure Store where
  users : List User
  categories : List Category
  products : List Product
  sales : List Sale
  sale_items : List SaleItem
  users_seq : Nat
  categories_seq : Nat
  products_seq : Nat
  sales_seq : Nat
  sale_items_seq : Nat
  clock : Nat
  deriving DecidableEq, Repr

/-- The database right after `CREATE TABLE IF NOT EXISTS` on a fresh file. -/
def Store.empty (clock : Nat) : Store :=
  { users := [], categories := [], products := [], sales := [], sale_items := [],
    users_seq := 0, categories_seq := 0, products_seq := 0, sales_seq := 0,
    sale_items_seq := 0, clock := clock }

/-! ## Statements issued through `Database.get` / `Database.run` -/

/-- Statement `SELECT * FROM products WHERE id = ?`. -/
def Store.getProduct (db : Store) (id : Nat) : Option Product :=
  db.products.find? (fun p => p.id == id)

/-- Statement `INSERT INTO users (email, password, name, role) VALUES (?, ?, ?, ?)`. -/
def Store.insertUser (db : Store) (email password name role : String) : Store × Nat :=
  let lastID := db.users_seq + 1
  ({ db with users := db.users ++ [⟨lastID, email, password, name, role⟩],
             users_seq := lastID }, lastID)

/-- Statement `INSERT INTO categories (name, description) VALUES (?, ?)`. -/
def Store.insertCategory (db : Store) (name : String) (description : Option String) :
    Store × Nat :=
  let lastID := db.categories_seq + 1
  ({ db with categories := db.categories ++ [⟨lastID, name, description⟩],
             categories_seq := lastID }, lastID)

/-- Statement `INSERT INTO products (name, description, price, stock, category_id, sku) VALUES (...)`. -/
def Store.insertProduct (db : Store) (name : String) (description : Option String) (price : ℚ)
    (stock : Int)
    (category_id : Option Nat) (sku : Option String) : Store × Nat :=
  let lastID := db.products_seq + 1
  ({ db with products := db.products ++ [⟨lastID, name, description, price, stock, category_id, sku⟩],
             products_seq := lastID }, lastID)

/-- Statement `INSERT INTO sales (total_amount, payment_method, user_id) VALUES (?, ?, ?)`;
the second component is `lastID`. -/
def Store.insertSale (db : Store) (total_amount : ℚ) (payment_method : String)
    (user_id : Nat) : Store × Nat :=
  let lastID := db.sales_seq + 1
  ({ db with sales := db.sales ++ [⟨lastID, total_amount, payment_method, user_id, db.clock⟩],
             sales_seq := lastID }, lastID)

/-- Statement `INSERT INTO sale_items (sale_id, product_id, quantity, unit_price, total_price)
VALUES (?, ?, ?, ?, ?)`. -/
def Store.insertSaleItem (db : Store) (sale_id product_id : Nat) (quantity : Int)
    (unit_price total_price : ℚ) : Store :=
  let lastID := db.sale_items_seq + 1
  { db with sale_items := db.sale_items ++
              [⟨lastID, sale_id, product_id, quantity, unit_price, total_price⟩],
            sale_items_seq := lastID }

/-- Statement `UPDATE products SET stock = stock - ? WHERE id = ?`. -/
def Store.decrementStock (db : Store) (quantity : Int) (id : Nat) : Store :=
  let products := db.products.map
    (fun p => if p.id == id then { p with stock := p.stock - quantity } else p)
  { db with products := products }

/-! ## `Routes.createSale` (routes.js 282-345) -/

/-- One element of `req.body.items`. -/
structure SaleRequestItem where
  product_id : Nat
  quantity : Int
  deriving DecidableEq, Repr

/-- What `createSale` reads from the request: `req.body.items`, `req.body.payment_method`
(absent when `none`) and `req.user.id`. -/
structure SaleRequest where
  items : List SaleRequestItem
  payment_method : Option String
  user_id : Nat
  deriving DecidableEq, Repr

/-- One element of the local array `saleItems`. -/
structure SaleLine where
  product_id : Nat
  quantity : Int
  unit_price : ℚ
  total_price : ℚ
  deriving DecidableEq, Repr

/-- The claims `generateToken` signs into a token (`id`, `email`, `name`, `role`), which are
also the fields of the `user` object in the auth responses. -/
structure UserInfo where
  id : Nat
  email : String
  name : String
  role : String
  deriving DecidableEq, Repr

/-- The object `AuthService.login` and `AuthService.register` return:
`{success: true, token, user}` or `{success: false, message}`. -/
inductive AuthResult where
  | success (token : String) (user : UserInfo)
  | failure (message : String)
  deriving DecidableEq, Repr

/-- One row of the sales report: a day, the number of sales of that day and their revenue. -/
structure ReportRow where
  date : String
  total_transactions : Nat
  total_revenue : ℚ
  deriving DecidableEq, Repr

/-- JSON body of a response. -/
inductive ResponseBody where
  | message (text : String)
  | sale (id : Nat) (total_amount : ℚ) (payment_method : String) (items : List SaleLine)
  | category (id : Nat) (name description : Option String)
  | product (id : Nat) (name description : Option String) (price : Option ℚ)
      (stock : Option Int) (category_id : Option Nat) (sku : Option String)
  | auth (result : AuthResult)
  | salesReport (rows : List ReportRow)
  deriving DecidableEq, Repr

/-- The response sent by `res.status(..).json(..)`. -/
structure Response where
  status : Nat
  body : ResponseBody
  deriving DecidableEq, Repr

/-- Outcome of the first `for` loop of `createSale`. -/
inductive Validation where
  | ok (total_amount : ℚ) (saleItems : List SaleLine)
  | rejected (response : Response)
  | threw
  deriving DecidableEq, Repr

/-- The run in which no database operation rejects. -/
def noFault : Nat → Bool := fun _ => false

/-- The run in which exactly the `n`-th database operation (counted from 0) rejects. -/
def faultAt (n : Nat) : Nat → Bool := fun k => k == n

/-- The validation loop (routes.js 291-311). `k` is the index of the next database
operation, `total_amount` and `saleItems` are the accumulators of the source. -/
def validateItems (db : Store) (fault : Nat → Bool) :
    Nat → List SaleRequestItem → ℚ → List SaleLine → Validation
  | _, [], total_amount, saleItems => .ok total_amount saleItems
  | k, item :: rest, total_amount, saleItems =>
    if fault k then .threw
    else
      match db.getProduct item.product_id with
      | none =>
        .rejected ⟨400, .message ("Product with ID " ++ toString item.product_id ++ " not found")⟩
      | some product =>
        if product.stock < item.quantity then
          .rejected ⟨400, .message ("Insufficient stock for " ++ product.name)⟩
        else
          let itemTotal := product.price * item.quantity
          validateItems db fault (k + 1) rest (total_amount + itemTotal)
            (saleItems ++ [⟨item.product_id, item.quantity, product.price, itemTotal⟩])

/-- The commit loop (routes.js 322-333): for each line, insert the `sale_items` row, then
decrement the stock. Returns `false` with the store reached when an operation rejects. -/
def commitItems (fault : Nat → Bool) (sale_id : Nat) :
    Nat → Store → List SaleLine → Bool × Store
  | _, db, [] => (true, db)
  | k, db, item :: rest =>
    if fault k then (false, db)
    else
      let db1 := db.insertSaleItem sale_id item.product_id item.quantity item.unit_price
        item.total_price
      if fault (k + 1) then (false, db1)
      else commitItems fault sale_id (k + 2) (db1.decrementStock item.quantity item.product_id) rest

/-- The body of the `catch` block. -/
def failedToCreateSale : Response := ⟨500, .message "Failed to create sale"⟩

/-- Method `Routes.createSale`: the response sent and the database afterwards. -/
def createSale (fault : Nat → Bool) (db : Store) (req : SaleRequest) : Response × Store :=
  let payment_method := req.payment_method.getD "cash"
  match validateItems db fault 0 req.items 0 [] with
  | .threw => (failedToCreateSale, db)
  | .rejected response => (response, db)
  | .ok total_amount saleItems =>
    if fault req.items.length then (failedToCreateSale, db)
    else
      let saleResult := db.insertSale total_amount payment_method req.user_id
      match commitItems fault saleResult.2 (req.items.length + 1) saleResult.1 saleItems with
      | (false, db2) => (failedToCreateSale, db2)
      | (true, db2) => (⟨201, .sale saleResult.2 total_amount payment_method saleItems⟩, db2)

/-! ## `Database.seedData` (database.js 90-172) -/

/-- The array `categories` of `seedData`: name, description. -/
def seedCategories : List (String × String) :=
  [("Electronics", "Electronic devices and accessories"),
   ("Clothing", "Apparel and fashion items"),
   ("Food & Beverages", "Food items and drinks"),
   ("Books", "Books and educational materials"),
   ("Home & Garden", "Home improvement and garden supplies")]

/-- One row of the array `products` of `seedData`. -/
structure SeedProduct where
  name : String
  description : String
  price : ℚ
  stock : Int
  category_id : Nat
  sku : String
  deriving DecidableEq, Repr

/-- The array `products` of `seedData`. -/
def seedProducts : List SeedProduct :=
  [⟨"Smartphone", "Latest Android smartphone", 299.99, 50, 1, "PHONE001"⟩,
   ⟨"Laptop", "High-performance laptop", 899.99, 25, 1, "LAPTOP001"⟩,
   ⟨"T-Shirt", "Cotton t-shirt", 19.99, 100, 2, "SHIRT001"⟩,
   ⟨"Jeans", "Denim jeans", 49.99, 75, 2, "JEANS001"⟩,
   ⟨"Coffee", "Premium coffee beans", 12.99, 200, 3, "COFFEE001"⟩,
   ⟨"Energy Drink", "Energy boost drink", 2.99, 150, 3, "ENERGY001"⟩,
   ⟨"Programming Book", "Learn JavaScript", 39.99, 30, 4, "BOOK001"⟩,
   ⟨"Garden Tools", "Basic garden tool set", 79.99, 20, 5, "TOOLS001"⟩]

/-- One element of `sale.items` in `sampleSales`. -/
structure SampleItem where
  product_id : Nat
  quantity : Int
  price : ℚ
  deriving DecidableEq, Repr

/-- One element of `sampleSales`. -/
structure SampleSale where
  total : ℚ
  items : List SampleItem
  deriving DecidableEq, Repr

/-- The array `sampleSales` of `seedData` (database.js 145-150). -/
def sampleSales : List SampleSale :=
  [⟨319.98, [⟨1, 1, 299.99⟩, ⟨5, 1, 12.99⟩]⟩,
   ⟨69.98, [⟨3, 2, 19.99⟩, ⟨4, 1, 49.99⟩]⟩,
   ⟨899.99, [⟨2, 1, 899.99⟩]⟩,
   ⟨42.98, [⟨7, 1, 39.99⟩, ⟨6, 1, 2.99⟩]⟩]

/-- The inner loop of the sample-sales seeding (database.js 158-169). -/
def seedSaleItems (saleId : Nat) : Store → List SampleItem → Store
  | db, [] => db
  | db, item :: rest =>
    let db1 := db.insertSaleItem saleId item.product_id item.quantity item.price
      (item.quantity * item.price)
    seedSaleItems saleId (db1.decrementStock item.quantity item.product_id) rest

/-- The outer loop of the sample-sales seeding (database.js 152-170). -/
def seedSales (userId : Nat) : Store → List SampleSale → Store
  | db, [] => db
  | db, sale :: rest =>
    let saleId := db.insertSale sale.total "cash" userId
    seedSales userId (seedSaleItems saleId.2 saleId.1 sale.items) rest

/-- Method `Database.seedData`, run without storage failure. `hashedPassword` is the
value of the `bcrypt.hash` call. -/
def seedData (hashedPassword : String) (db : Store) : Store :=
  let adminExists := db.users.find? (fun u => u.email == "admin@pos.com")
  let db1 :=
    if adminExists.isNone then
      (db.insertUser "admin@pos.com" hashedPassword "Administrator" "admin").1
    else db
  let categoriesExist := db1.categories.head?
  let db2 :=
    if categoriesExist.isNone then
      seedCategories.foldl (fun d c => (d.insertCategory c.1 (some c.2)).1) db1
    else db1
  let productsExist := db2.products.head?
  let db3 :=
    if productsExist.isNone then
      seedProducts.foldl
        (fun d p => (d.insertProduct p.name (some p.description) p.price p.stock
          (some p.category_id) (some p.sku)).1) db2
    else db2
  let salesExist := db3.sales.head?
  if salesExist.isNone then seedSales 1 db3 sampleSales else db3

/-! ## Vocabulary of the specification -/

/-- Price of product `id` as the lookup of `createSale` reads it (`0` when there is no row). -/
def Store.priceOf (db : Store) (id : Nat) : ℚ :=
  match db.getProduct id with
  | some p => p.price
  | none => 0

/-- Stock of product `id`, `none` when there is no such row. -/
def Store.stockOf (db : Store) (id : Nat) : Option Int :=
  (db.getProduct id).map (fun p => p.stock)

/-- A request line passes both checks of the validation loop on `db`. -/
def lineValid (db : Store) (item : SaleRequestItem) : Prop :=
  ∃ p, db.getProduct item.product_id = some p ∧ item.quantity ≤ p.stock

/-- The line item a valid request line gives rise to: unit price snapshot and line total. -/
def saleLine (db : Store) (item : SaleRequestItem) : SaleLine :=
  ⟨item.product_id, item.quantity, db.priceOf item.product_id,
    db.priceOf item.product_id * item.quantity⟩

/-- Sum of unit price times quantity over the lines of a request. -/
def requestTotal (db : Store) (items : List SaleRequestItem) : ℚ :=
  (items.map (fun item => db.priceOf item.product_id * item.quantity)).sum

/-- Total quantity a request asks of product `id` (all its lines together). -/
def requestedQuantity (items : List SaleRequestItem) (id : Nat) : Int :=
  ((items.filter (fun item => item.product_id == id)).map (fun item => item.quantity)).sum

/-- Total quantity of product `id` over a list of line items. -/
def lineQuantity (lines : List SaleLine) (id : Nat) : Int :=
  ((lines.filter (fun l => l.product_id == id)).map (fun l => l.quantity)).sum

/-- The `sale_items` rows written for `lines` under sale `sale_id`, the sequence
counter of the table standing at `seq`. -/
def saleItemRows (sale_id : Nat) : Nat → List SaleLine → List SaleItem
  | _, [] => []
  | seq, l :: ls =>
    ⟨seq + 1, sale_id, l.product_id, l.quantity, l.unit_price, l.total_price⟩ ::
      saleItemRows sale_id (seq + 1) ls

/-- The store with the `sale_items` rows of `inserted` appended and the stock of every
product lowered by what `decremented` takes of it. -/
def Store.afterLines (db : Store) (sale_id : Nat) (inserted decremented : List SaleLine) :
    Store :=
  let products := db.products.map
    (fun p => { p with stock := p.stock - lineQuantity decremented p.id })
  { db with sale_items := db.sale_items ++ saleItemRows sale_id db.sale_items_seq inserted,
            sale_items_seq := db.sale_items_seq + inserted.length,
            products := products }

/-- The insufficient-stock failure: status 400 with the message of routes.js 299. -/
def isInsufficientStock (r : Response) : Prop :=
  r.status = 400 ∧ ∃ name : String, r.body = .message ("Insufficient stock for " ++ name)

/-- The unknown-product failure naming `id`: status 400 with the message of routes.js 295. -/
def isUnknownProduct (id : Nat) (r : Response) : Prop :=
  r = ⟨400, .message ("Product with ID " ++ toString id ++ " not found")⟩

/-- Sum of the `total_price` of the `sale_items` rows of sale `sale_id`. -/
def Store.itemsTotal (db : Store) (sale_id : Nat) : ℚ :=
  ((db.sale_items.filter (fun r => r.sale_id == sale_id)).map (fun r => r.total_price)).sum

/-! ## Concrete stores and requests -/

/-- A store with the single product `P`: id 1, price 10, stock 5. -/
def oneProductStore : Store :=
  { Store.empty 0 with
      products := [⟨1, "P", none, 10, 5, none, none⟩], products_seq := 1 }

/-- The request body `{items: [{product_id, quantity}, ...]}` posted by principal 1 with no
`payment_method`. -/
def requestOf (items : List SaleRequestItem) : SaleRequest := ⟨items, none, 1⟩

/-- The database holding the `products` rows that `seedData` inserts into an empty database
(database.js 121-137), before any sale has touched the stock. -/
def seededProductsStore : Store :=
  seedProducts.foldl
    (fun d p => (d.insertProduct p.name (some p.description) p.price p.stock
      (some p.category_id) (some p.sku)).1) (Store.empty 0)

/-- A store with a single product that is also named `P`, under id 2, with stock 7. -/
def twinProductStore : Store :=
  { Store.empty 0 with
      products := [⟨2, "P", none, 10, 7, none, none⟩], products_seq := 2 }

/-! ## `AuthService.authenticateToken` (auth.js 104-121) and the route table (routes.js 15-50)

`jwt.verify` with the server secret is a parameter `verifyToken : String → Option UserInfo`
(`none` when `jwt.verify` throws, which `AuthService.verifyToken` turns into `null`). -/

/-- JavaScript `split` of a string at every single space, on the characters of the string. -/
def splitSpace : List Char → List String
  | [] => [""]
  | c :: cs =>
    if c = ' ' then "" :: splitSpace cs
    else
      match splitSpace cs with
      | [] => [String.singleton c]
      | seg :: segs => (String.singleton c ++ seg) :: segs

/-- The expression `authHeader && authHeader.split(..)[1]` that splits at spaces; `none`
stands for `undefined`.
An empty header is falsy and is itself the value of the conjunction. -/
def bearerToken (authHeader : Option String) : Option String :=
  match authHeader with
  | none => none
  | some h => if h = "" then some "" else (splitSpace h.data)[1]?

/-- What the middleware does: send a response, or set `req.user` and call `next()`. -/
inductive AuthOutcome where
  | respond (response : Response)
  | next (user : UserInfo)
  deriving DecidableEq, Repr

/-- Method `AuthService.authenticateToken`; `authHeader` is the
`authorization` entry of `req.headers`. -/
def authenticateToken (verifyToken : String → Option UserInfo) (authHeader : Option String) :
    AuthOutcome :=
  match bearerToken authHeader with
  | none => .respond ⟨401, .message "Access token required"⟩
  | some token =>
    if token = "" then .respond ⟨401, .message "Access token required"⟩
    else
      match verifyToken token with
      | none => .respond ⟨403, .message "Invalid or expired token"⟩
      | some decoded => .next decoded

/-- HTTP methods used by the router. -/
inductive Method where
  | GET | POST | PUT | DELETE
  deriving DecidableEq, Repr

/-- The handler methods of class `Routes`. -/
inductive Handler where
  | login | register | verifyToken | getDashboardStats
  | getCategories | createCategory | updateCategory | deleteCategory
  | getProducts | getProduct | createProduct | updateProduct | deleteProduct
  | getSales | createSale | getSale
  | getSalesReport | getProductsReport | exportCSV | exportXLSX
  deriving DecidableEq, Repr

/-- The functions registered in front of a handler. -/
inductive Middleware where
  | authenticateToken
  deriving DecidableEq, Repr

/-- One registration `this.router.METHOD(path, ...middleware, handler)`. -/
structure Route where
  method : Method
  path : String
  middleware : List Middleware
  handler : Handler
  deriving DecidableEq, Repr

/-- Method `Routes.setupRoutes`: the registrations in source order. -/
def setupRoutes : List Route :=
  [⟨.POST, "/api/auth/login", [], .login⟩,
   ⟨.POST, "/api/auth/register", [], .register⟩,
   ⟨.GET, "/api/auth/verify", [.authenticateToken], .verifyToken⟩,
   ⟨.GET, "/api/dashboard/stats", [.authenticateToken], .getDashboardStats⟩,
   ⟨.GET, "/api/categories", [.authenticateToken], .getCategories⟩,
   ⟨.POST, "/api/categories", [.authenticateToken], .createCategory⟩,
   ⟨.PUT, "/api/categories/:id", [.authenticateToken], .updateCategory⟩,
   ⟨.DELETE, "/api/categories/:id", [.authenticateToken], .deleteCategory⟩,
   ⟨.GET, "/api/products", [.authenticateToken], .getProducts⟩,
   ⟨.GET, "/api/products/:id", [.authenticateToken], .getProduct⟩,
   ⟨.POST, "/api/products", [.authenticateToken], .createProduct⟩,
   ⟨.PUT, "/api/products/:id", [.authenticateToken], .updateProduct⟩,
   ⟨.DELETE, "/api/products/:id", [.authenticateToken], .deleteProduct⟩,
   ⟨.GET, "/api/sales", [.authenticateToken], .getSales⟩,
   ⟨.POST, "/api/sales", [.authenticateToken], .createSale⟩,
   ⟨.GET, "/api/sales/:id", [.authenticateToken], .getSale⟩,
   ⟨.GET, "/api/reports/sales", [.authenticateToken], .getSalesReport⟩,
   ⟨.GET, "/api/reports/products", [.authenticateToken], .getProductsReport⟩,
   ⟨.GET, "/api/reports/export/csv", [.authenticateToken], .exportCSV⟩,
   ⟨.GET, "/api/reports/export/xlsx", [.authenticateToken], .exportXLSX⟩]

/-- Running the middleware in front of a handler: the response of the first one that does
not call `next()`, or the value of `req.user` when all have called it. -/
def runMiddleware (verifyToken : String → Option UserInfo) (authHeader : Option String) :
    List Middleware → Option UserInfo → Except Response (Option UserInfo)
  | [], user => .ok user
  | .authenticateToken :: rest, _ =>
    match authenticateToken verifyToken authHeader with
    | .respond response => .error response
    | .next user => runMiddleware verifyToken authHeader rest (some user)

/-- What becomes of a request matched by a route: a middleware answered it, or the handler
is invoked with the `req.user` the middleware left. -/
inductive Dispatch where
  | responded (response : Response)
  | invoked (handler : Handler) (user : Option UserInfo)
  deriving DecidableEq, Repr

/-- The express chain of one route on a request with the given `Authorization` header. -/
def Route.dispatch (verifyToken : String → Option UserInfo) (route : Route)
    (authHeader : Option String) : Dispatch :=
  match runMiddleware verifyToken authHeader route.middleware none with
  | .error response => .responded response
  | .ok user => .invoked route.handler user

/-- The JSON body of `POST /api/sales`: the two keys `createSale` reads and a `user_id` key
a client may add. -/
structure SaleBody where
  items : List SaleRequestItem
  payment_method : Option String
  user_id : Option Nat
  deriving DecidableEq, Repr

/-- The request `POST /api/sales` end to end: the chain registered at routes.js 42, then
`createSale` with `req.user` as the middleware set it. Reading `req.user.id` of an unset
`req.user` throws inside the `try` block. -/
def postSale (verifyToken : String → Option UserInfo) (fault : Nat → Bool) (db : Store)
    (authHeader : Option String) (body : SaleBody) : Response × Store :=
  match Route.dispatch verifyToken ⟨.POST, "/api/sales", [.authenticateToken], .createSale⟩
      authHeader with
  | .responded response => (response, db)
  | .invoked _ none => (failedToCreateSale, db)
  | .invoked _ (some user) => createSale fault db ⟨body.items, body.payment_method, user.id⟩

/-- A `jwt.verify` that accepts the single token `good`, issued to principal 7. -/
def sampleVerify : String → Option UserInfo :=
  fun token => if token = "good" then some ⟨7, "clerk@pos.com", "Clerk", "admin"⟩ else none

/-! ## `createSale` with the log of its database operations

The same method once more, now recording every statement it hands to `Database.get` or
`Database.run`. Operation number `n` of the call is the `n`-th entry of the log; it rejects
with error `e` iff `errors n = some e`. The `catch` block passes the error to
`console.error` and answers with a fixed body. -/

/-- A statement issued by `createSale`, with its parameters. -/
inductive DbOp where
  | selectProduct (id : Nat)
  | insertSale (total_amount : ℚ) (payment_method : String) (user_id : Nat)
  | insertSaleItem (sale_id product_id : Nat) (quantity : Int) (unit_price total_price : ℚ)
  | updateStock (quantity : Int) (id : Nat)
  deriving DecidableEq, Repr

/-- Everything observable of one call of `createSale`: the response, the database
afterwards, the statements issued in order, and what the `catch` block logged. -/
structure SaleRun where
  response : Response
  store : Store
  ops : List DbOp
  logged : Option String
  deriving DecidableEq, Repr

/-- The validation loop with its log: the outcome, the statements issued so far and the
error thrown, if any. -/
def validateItemsLog (db : Store) (errors : Nat → Option String) :
    List SaleRequestItem → ℚ → List SaleLine → List DbOp →
      Validation × List DbOp × Option String
  | [], total_amount, saleItems, ops => (.ok total_amount saleItems, ops, none)
  | item :: rest, total_amount, saleItems, ops =>
    let ops1 := ops ++ [.selectProduct item.product_id]
    match errors ops.length with
    | some error => (.threw, ops1, some error)
    | none =>
      match db.getProduct item.product_id with
      | none =>
        (.rejected ⟨400, .message ("Product with ID " ++ toString item.product_id ++
          " not found")⟩, ops1, none)
      | some product =>
        if product.stock < item.quantity then
          (.rejected ⟨400, .message ("Insufficient stock for " ++ product.name)⟩, ops1, none)
        else
          let itemTotal := product.price * item.quantity
          validateItemsLog db errors rest (total_amount + itemTotal)
            (saleItems ++ [⟨item.product_id, item.quantity, product.price, itemTotal⟩]) ops1

/-- The commit loop with its log. -/
def commitItemsLog (errors : Nat → Option String) (sale_id : Nat) :
    Store → List SaleLine → List DbOp → Bool × Store × List DbOp × Option String
  | db, [], ops => (true, db, ops, none)
  | db, item :: rest, ops =>
    let ops1 := ops ++ [.insertSaleItem sale_id item.product_id item.quantity item.unit_price
      item.total_price]
    match errors ops.length with
    | some error => (false, db, ops1, some error)
    | none =>
      let db1 := db.insertSaleItem sale_id item.product_id item.quantity item.unit_price
        item.total_price
      let ops2 := ops1 ++ [.updateStock item.quantity item.product_id]
      match errors ops1.length with
      | some error => (false, db1, ops2, some error)
      | none =>
        commitItemsLog errors sale_id (db1.decrementStock item.quantity item.product_id) rest
          ops2

/-- Method `Routes.createSale` with its log. -/
def createSaleLog (errors : Nat → Option String) (db : Store) (req : SaleRequest) : SaleRun :=
  let payment_method := req.payment_method.getD "cash"
  match validateItemsLog db errors req.items 0 [] [] with
  | (.threw, ops, error) => ⟨failedToCreateSale, db, ops, error⟩
  | (.rejected response, ops, _) => ⟨response, db, ops, none⟩
  | (.ok total_amount saleItems, ops, _) =>
    let ops1 := ops ++ [.insertSale total_amount payment_method req.user_id]
    match errors ops.length with
    | some error => ⟨failedToCreateSale, db, ops1, some error⟩
    | none =>
      let saleResult := db.insertSale total_amount payment_method req.user_id
      match commitItemsLog errors saleResult.2 saleResult.1 saleItems ops1 with
      | (false, db2, ops2, error) => ⟨failedToCreateSale, db2, ops2, error⟩
      | (true, db2, ops2, _) =>
        ⟨⟨201, .sale saleResult.2 total_amount payment_method saleItems⟩, db2, ops2, none⟩

/-- The run in which operation number 2 rejects with an input/output error. -/
def ioErrorAtTwo : Nat → Option String :=
  fun n => if n = 2 then some "SQLITE_IOERR: disk I/O error" else none

/-! ## Category and product handlers (routes.js 158-193, 230-265)

Each handler issues one statement. Besides a storage failure (`fault 0`), the statement
rejects when it breaks a constraint of the schema: `NOT NULL` on `categories.name`,
`products.name`, `products.price`, `products.stock`, and `UNIQUE` on `products.sku`. The
schema declares foreign keys, but the connection never switches their enforcement on, so
they reject nothing. A key absent from the JSON body is bound as `NULL` (`none`). -/

/-- The keys the category handlers read from `req.body`. -/
structure CategoryBody where
  name : Option String
  description : Option String
  deriving DecidableEq, Repr

/-- The keys the product handlers read from `req.body`. -/
structure ProductBody where
  name : Option String
  description : Option String
  price : Option ℚ
  stock : Option Int
  category_id : Option Nat
  sku : Option String
  deriving DecidableEq, Repr

/-- Some row other than row `id` already carries the non-null `sku`. -/
def Store.skuTaken (db : Store) (id : Option Nat) (sku : Option String) : Bool :=
  match sku with
  | none => false
  | some s => db.products.any (fun p => p.sku == some s && some p.id != id)

/-- Statement `INSERT INTO products (...) VALUES (?, ?, ?, ?, ?, ?)` with the values of a
request body; `none` when a constraint rejects it. -/
def Store.runInsertProduct (db : Store) (body : ProductBody) : Option (Store × Nat) :=
  match body.name, body.price, body.stock with
  | some name, some price, some stock =>
    if db.skuTaken none body.sku then none
    else some (db.insertProduct name body.description price stock body.category_id body.sku)
  | _, _, _ => none

/-- Statement `UPDATE products SET name = ?, description = ?, price = ?, stock = ?,
category_id = ?, sku = ?, updated_at = CURRENT_TIMESTAMP WHERE id = ?`; `none` when a
constraint rejects it. With no row of that id nothing is checked and nothing changes. -/
def Store.runUpdateProduct (db : Store) (id : Nat) (body : ProductBody) : Option Store :=
  if db.products.any (fun p => p.id == id) then
    match body.name, body.price, body.stock with
    | some name, some price, some stock =>
      if db.skuTaken (some id) body.sku then none
      else
        let products := db.products.map
          (fun p => if p.id == id then
            { p with name := name, description := body.description, price := price,
                     stock := stock, category_id := body.category_id, sku := body.sku }
          else p)
        some { db with products := products }
    | _, _, _ => none
  else some db

/-- Statement `DELETE FROM products WHERE id = ?`. -/
def Store.deleteProduct (db : Store) (id : Nat) : Store :=
  let products := db.products.filter (fun p => p.id != id)
  { db with products := products }

/-- Statement `UPDATE categories SET name = ?, description = ? WHERE id = ?`; `none` when
the `NOT NULL` constraint rejects it. -/
def Store.runUpdateCategory (db : Store) (id : Nat) (body : CategoryBody) : Option Store :=
  if db.categories.any (fun c => c.id == id) then
    match body.name with
    | some name =>
      let categories := db.categories.map
        (fun c => if c.id == id then { c with name := name, description := body.description }
          else c)
      some { db with categories := categories }
    | none => none
  else some db

/-- Statement `DELETE FROM categories WHERE id = ?`. -/
def Store.deleteCategory (db : Store) (id : Nat) : Store :=
  let categories := db.categories.filter (fun c => c.id != id)
  { db with categories := categories }

/-- Method `Routes.createCategory`. -/
def createCategory (fault : Nat → Bool) (db : Store) (body : CategoryBody) :
    Response × Store :=
  if fault 0 then (⟨500, .message "Failed to create category"⟩, db)
  else
    match body.name with
    | none => (⟨500, .message "Failed to create category"⟩, db)
    | some name =>
      let result := db.insertCategory name body.description
      (⟨201, .category result.2 body.name body.description⟩, result.1)

/-- Method `Routes.updateCategory`; `id` is `req.params.id`. -/
def updateCategory (fault : Nat → Bool) (db : Store) (id : Nat) (body : CategoryBody) :
    Response × Store :=
  if fault 0 then (⟨500, .message "Failed to update category"⟩, db)
  else
    match db.runUpdateCategory id body with
    | none => (⟨500, .message "Failed to update category"⟩, db)
    | some db1 => (⟨200, .category id body.name body.description⟩, db1)

/-- Method `Routes.deleteCategory`. -/
def deleteCategory (fault : Nat → Bool) (db : Store) (id : Nat) : Response × Store :=
  if fault 0 then (⟨500, .message "Failed to delete category"⟩, db)
  else (⟨200, .message "Category deleted successfully"⟩, db.deleteCategory id)

/-- Method `Routes.createProduct`. -/
def createProduct (fault : Nat → Bool) (db : Store) (body : ProductBody) :
    Response × Store :=
  if fault 0 then (⟨500, .message "Failed to create product"⟩, db)
  else
    match db.runInsertProduct body with
    | none => (⟨500, .message "Failed to create product"⟩, db)
    | some result =>
      (⟨201, .product result.2 body.name body.description body.price body.stock
        body.category_id body.sku⟩, result.1)

/-- Method `Routes.updateProduct`; `id` is `req.params.id`. -/
def updateProduct (fault : Nat → Bool) (db : Store) (id : Nat) (body : ProductBody) :
    Response × Store :=
  if fault 0 then (⟨500, .message "Failed to update product"⟩, db)
  else
    match db.runUpdateProduct id body with
    | none => (⟨500, .message "Failed to update product"⟩, db)
    | some db1 =>
      (⟨200, .product id body.name body.description body.price body.stock body.category_id
        body.sku⟩, db1)

/-- Method `Routes.deleteProduct`. -/
def deleteProduct (fault : Nat → Bool) (db : Store) (id : Nat) : Response × Store :=
  if fault 0 then (⟨500, .message "Failed to delete product"⟩, db)
  else (⟨200, .message "Product deleted successfully"⟩, db.deleteProduct id)

/-! ## Postings in flight at the same time

A handler runs without interruption from one `await` to the next; while it awaits a
database operation, other handlers may run. One step of a posting is therefore the code up
to and including its next database operation, followed by whatever runs before the next
`await`. Operations are applied to the database one at a time. Storage failures are left
out of this part. -/

/-- Where a posting stands between two database operations: in the validation loop with
the lines still to check, about to insert the `sale_items` row of the head of `rest`, about
to update the stock for `item`, or done with its response sent. -/
inductive SaleTask where
  | validating (rest : List SaleRequestItem) (total_amount : ℚ) (saleItems : List SaleLine)
  | inserting (sale_id : Nat) (total_amount : ℚ) (saleItems : List SaleLine)
      (item : SaleLine) (rest : List SaleLine)
  | updating (sale_id : Nat) (total_amount : ℚ) (saleItems : List SaleLine)
      (item : SaleLine) (rest : List SaleLine)
  | finished (response : Response)
  deriving DecidableEq, Repr

/-- A posting as the handler is entered. -/
def SaleTask.start (req : SaleRequest) : SaleTask := .validating req.items 0 []

/-- The head of the commit loop: the next line to write, or the 201 response when none is
left. -/
def SaleTask.commitNext (req : SaleRequest) (sale_id : Nat) (total_amount : ℚ)
    (saleItems : List SaleLine) : List SaleLine → SaleTask
  | [] => .finished ⟨201, .sale sale_id total_amount (req.payment_method.getD "cash") saleItems⟩
  | item :: rest => .inserting sale_id total_amount saleItems item rest

/-- One step of a posting of `req` on the database `db`: its next database operation. -/
def SaleTask.step (req : SaleRequest) (db : Store) : SaleTask → SaleTask × Store
  | .validating [] total_amount saleItems =>
    let saleResult := db.insertSale total_amount (req.payment_method.getD "cash") req.user_id
    (SaleTask.commitNext req saleResult.2 total_amount saleItems saleItems, saleResult.1)
  | .validating (item :: rest) total_amount saleItems =>
    match db.getProduct item.product_id with
    | none =>
      (.finished ⟨400, .message ("Product with ID " ++ toString item.product_id ++
        " not found")⟩, db)
    | some product =>
      if product.stock < item.quantity then
        (.finished ⟨400, .message ("Insufficient stock for " ++ product.name)⟩, db)
      else
        let itemTotal := product.price * item.quantity
        (.validating rest (total_amount + itemTotal)
          (saleItems ++ [⟨item.product_id, item.quantity, product.price, itemTotal⟩]), db)
  | .inserting sale_id total_amount saleItems item rest =>
    (.updating sale_id total_amount saleItems item rest,
      db.insertSaleItem sale_id item.product_id item.quantity item.unit_price item.total_price)
  | .updating sale_id total_amount saleItems item rest =>
    (SaleTask.commitNext req sale_id total_amount saleItems rest,
      db.decrementStock item.quantity item.product_id)
  | .finished response => (.finished response, db)

/-- A posting run on its own for `n` steps. -/
def SaleTask.run (req : SaleRequest) : Nat → SaleTask → Store → SaleTask × Store
  | 0, task, db => (task, db)
  | n + 1, task, db =>
    let next := task.step req db
    SaleTask.run req n next.1 next.2

/-- Two postings on one database under a schedule: `true` lets the first take its next
step, `false` the second. -/
def interleave (reqA reqB : SaleRequest) :
    List Bool → SaleTask × SaleTask × Store → SaleTask × SaleTask × Store
  | [], state => state
  | true :: schedule, (a, b, db) =>
    let next := a.step reqA db
    interleave reqA reqB schedule (next.1, b, next.2)
  | false :: schedule, (a, b, db) =>
    let next := b.step reqB db
    interleave reqA reqB schedule (a, next.1, next.2)

/-- The status of the response of a posting that is done. -/
def SaleTask.status : SaleTask → Option Nat
  | .finished response => some response.status
  | _ => none

/-- Both lookups first, then the three writes of the first posting, then those of the
second. -/
def lookupsFirst : List Bool := [true, false, true, true, true, false, false, false]

/-- The first posting from start to end, then the second. -/
def oneAfterTheOther : List Bool := [true, true, true, true, false, false, false, false]

/-! ## Registration (auth.js 66-102, routes.js 68-81)

`bcrypt.hash(password, 10)` is a parameter `hash`, and `jwt.sign` with the secret and
expiry of the server a parameter `sign`. A parameter `role` that is `undefined` is `none`. -/

/-- Method `AuthService.generateToken`: the payload handed to `jwt.sign`. -/
def AuthService.generateToken (sign : UserInfo → String) (user : UserInfo) : String :=
  sign ⟨user.id, user.email, user.name, user.role⟩

/-- Method `AuthService.register`; operation 0 is the lookup, operation 1 the insert. -/
def AuthService.register (hash : String → String) (sign : UserInfo → String)
    (fault : Nat → Bool) (db : Store) (email password name : String)
    (role : Option String) : AuthResult × Store :=
  let role := role.getD "admin"
  if fault 0 then (.failure "Registration failed", db)
  else
    match db.users.find? (fun u => u.email == email) with
    | some _ => (.failure "User already exists", db)
    | none =>
      let hashedPassword := hash password
      if fault 1 then (.failure "Registration failed", db)
      else
        let result := db.insertUser email hashedPassword name role
        let user : UserInfo := ⟨result.2, email, name, role⟩
        (.success (AuthService.generateToken sign user) user, result.1)

/-- The keys `Routes.register` reads from `req.body`. -/
structure RegisterBody where
  email : String
  password : String
  name : String
  role : Option String
  deriving DecidableEq, Repr

/-- Method `Routes.register`. -/
def Routes.register (hash : String → String) (sign : UserInfo → String)
    (fault : Nat → Bool) (db : Store) (body : RegisterBody) : Response × Store :=
  let result := AuthService.register hash sign fault db body.email body.password body.name
    body.role
  match result.1 with
  | .success _ _ => (⟨201, .auth result.1⟩, result.2)
  | .failure _ => (⟨400, .auth result.1⟩, result.2)

/-- A stand-in for `bcrypt.hash`. -/
def sampleHash : String → String := fun password => "hashed:" ++ password

/-- A stand-in for `jwt.sign`: the claims, readable. -/
def sampleSign : UserInfo → String :=
  fun user => toString user.id ++ "|" ++ user.email ++ "|" ++ user.name ++ "|" ++ user.role

/-! ## Login (auth.js 32-63, routes.js 53-66)

`bcrypt.compare(password, hash)` is a parameter `compare`. -/

/-- Statement `SELECT * FROM users WHERE email = ?`. -/
def Store.getUserByEmail (db : Store) (email : String) : Option User :=
  db.users.find? (fun u => u.email == email)

/-- Method `AuthService.login`; operation 0 is the lookup. -/
def AuthService.login (compare : String → String → Bool) (sign : UserInfo → String)
    (fault : Nat → Bool) (db : Store) (email password : String) : AuthResult :=
  if fault 0 then .failure "Login failed"
  else
    match db.getUserByEmail email with
    | none => .failure "Invalid credentials"
    | some user =>
      let isValidPassword := compare password user.password
      if !isValidPassword then .failure "Invalid credentials"
      else
        let token := AuthService.generateToken sign ⟨user.id, user.email, user.name, user.role⟩
        .success token ⟨user.id, user.email, user.name, user.role⟩

/-- Method `Routes.login`; `res.json` without `res.status` answers 200. -/
def Routes.login (compare : String → String → Bool) (sign : UserInfo → String)
    (fault : Nat → Bool) (db : Store) (email password : String) : Response :=
  let result := AuthService.login compare sign fault db email password
  match result with
  | .success _ _ => ⟨200, .auth result⟩
  | .failure _ => ⟨401, .auth result⟩

/-- The second of the segments the `Authorization` header falls into when split at spaces;
`none` when the header is absent or has a single segment. -/
def secondSegment (authHeader : Option String) : Option String :=
  authHeader.bind (fun h => (splitSpace h.data)[1]?)

/-- A stand-in for `bcrypt.compare`, matching `sampleHash`. -/
def sampleCompare : String → String → Bool :=
  fun password hashed => hashed == "hashed:" ++ password

/-- A database whose only user is Ann, with the password `secret`. -/
def annStore : Store :=
  { Store.empty 0 with
      users := [⟨1, "ann@pos.com", "hashed:secret", "Ann", "admin"⟩], users_seq := 1 }

/-! ## Sales report (routes.js 376-403, api.js 124-130)

`DATE(created_at)` is a parameter `dateOf` from the stored time to the text `YYYY-MM-DD`.
Texts are compared as SQLite compares them, character by character. -/

/-- Text order `a < b` of SQLite on the characters of two texts. -/
def textLt : List Char → List Char → Bool
  | _, [] => false
  | [], _ :: _ => true
  | a :: as, b :: bs => a.toNat < b.toNat || (a == b && textLt as bs)

/-- Text order `a <= b`. -/
def textLe (a b : String) : Bool := !textLt b.data a.data

/-- The condition `date BETWEEN start AND end`. -/
def dateBetween (start stop date : String) : Bool := textLe start date && textLe date stop

/-- One more sale of day `date` in a report kept in descending order of `date`. -/
def addToReport (date : String) (amount : ℚ) : List ReportRow → List ReportRow
  | [] => [⟨date, 1, amount⟩]
  | row :: rows =>
    if row.date = date then
      ⟨date, row.total_transactions + 1, row.total_revenue + amount⟩ :: rows
    else if textLt row.date.data date.data then ⟨date, 1, amount⟩ :: row :: rows
    else row :: addToReport date amount rows

/-- The query `SELECT DATE(s.created_at) as date, COUNT(s.id) as total_transactions,
SUM(s.total_amount) as total_revenue FROM sales s GROUP BY DATE(s.created_at)
ORDER BY date DESC` over the given rows of `sales`. -/
def reportRows (dateOf : Nat → String) (sales : List Sale) : List ReportRow :=
  sales.foldl (fun rows s => addToReport (dateOf s.created_at) s.total_amount rows) []

/-- JavaScript truthiness of a query parameter: present and not the empty string. -/
def truthy (value : Option String) : Bool :=
  match value with
  | none => false
  | some text => text != ""

/-- Method `Routes.getSalesReport`; the two arguments are `req.query.start_date` and
`req.query.end_date`. -/
def getSalesReport (dateOf : Nat → String) (fault : Nat → Bool) (db : Store)
    (start_date end_date : Option String) : Response :=
  let sales :=
    match start_date, end_date with
    | some start, some stop =>
      if truthy start_date && truthy end_date then
        db.sales.filter (fun s => dateBetween start stop (dateOf s.created_at))
      else db.sales
    | _, _ => db.sales
  if fault 0 then ⟨500, .message "Failed to generate sales report"⟩
  else ⟨200, .salesReport (reportRows dateOf sales)⟩

/-- Method `APIClient.getSalesReport`: the query parameters `start_date` and `end_date` it
puts on the request, each only when the argument is truthy. -/
def APIClient.getSalesReport (startDate endDate : Option String) :
    Option String × Option String :=
  (if truthy startDate then startDate else none, if truthy endDate then endDate else none)

/-- A clock that reads the stored time 1 as 2 May and every other time as 1 May. -/
def sampleDateOf : Nat → String :=
  fun time => if time = 1 then "2024-05-02" else "2024-05-01"

/-- A database with two sales on 1 May (times 0 and 2) and one on 2 May (time 1). -/
def threeSalesStore : Store :=
  { Store.empty 3 with
      sales := [⟨1, 10, "cash", 1, 0⟩, ⟨2, 20, "cash", 1, 1⟩, ⟨3, 5, "card", 1, 2⟩],
      sales_seq := 3 }

/-! ## The arithmetic of the handler

A JavaScript number is an IEEE-754 binary64 value. Every finite such value is a rational,
so money stays in `ℚ`; what the runtime adds to exact arithmetic is that every `*` and
every `+` rounds its result to the nearest binary64 value. The two operations `createSale`
uses are the fields of an `Arith`: `doubleArith` is the arithmetic of the runtime,
`exactArith` the arithmetic of exact decimals that `createSale` above is written with. -/

/-- The two arithmetic operations of `createSale`: `+` and `*` on numbers. -/
structure Arith where
  add : ℚ → ℚ → ℚ
  mul : ℚ → ℚ → ℚ

/-- Exact arithmetic. -/
def exactArith : Arith := ⟨fun a b => a + b, fun a b => a * b⟩

/-- The nearest integer, a tie going to the even one. -/
def roundHalfEven (q : ℚ) : ℤ :=
  let f := ⌊q⌋
  let r := q - f
  if r < 1 / 2 then f
  else if 1 / 2 < r then f + 1
  else if f % 2 = 0 then f else f + 1

/-- The binary64 value nearest to `x`, a tie going to the even significand: `x` is scaled
so that its integer part has 53 bits, rounded, and scaled back. Overflow to infinity and
subnormal values are not modelled; amounts of money are far from both. -/
def roundToDouble (x : ℚ) : ℚ :=
  if x = 0 then 0
  else
    let e : ℤ := Int.log 2 |x| - 52
    (roundHalfEven (x / 2 ^ e) : ℚ) * 2 ^ e

/-- The arithmetic of the JavaScript runtime: the exact result, rounded to binary64. -/
def doubleArith : Arith :=
  ⟨fun a b => roundToDouble (a + b), fun a b => roundToDouble (a * b)⟩

/-- The validation loop (routes.js 291-311) with the arithmetic as a parameter. -/
def validateItemsWith (arith : Arith) (db : Store) (fault : Nat → Bool) :
    Nat → List SaleRequestItem → ℚ → List SaleLine → Validation
  | _, [], total_amount, saleItems => .ok total_amount saleItems
  | k, item :: rest, total_amount, saleItems =>
    if fault k then .threw
    else
      match db.getProduct item.product_id with
      | none =>
        .rejected ⟨400, .message ("Product with ID " ++ toString item.product_id ++ " not found")⟩
      | some product =>
        if product.stock < item.quantity then
          .rejected ⟨400, .message ("Insufficient stock for " ++ product.name)⟩
        else
          let itemTotal := arith.mul product.price item.quantity
          validateItemsWith arith db fault (k + 1) rest (arith.add total_amount itemTotal)
            (saleItems ++ [⟨item.product_id, item.quantity, product.price, itemTotal⟩])

/-- Method `Routes.createSale` with the arithmetic as a parameter. -/
def createSaleWith (arith : Arith) (fault : Nat → Bool) (db : Store) (req : SaleRequest) :
    Response × Store :=
  let payment_method := req.payment_method.getD "cash"
  match validateItemsWith arith db fault 0 req.items 0 [] with
  | .threw => (failedToCreateSale, db)
  | .rejected response => (response, db)
  | .ok total_amount saleItems =>
    if fault req.items.length then (failedToCreateSale, db)
    else
      let saleResult := db.insertSale total_amount payment_method req.user_id
      match commitItems fault saleResult.2 (req.items.length + 1) saleResult.1 saleItems with
      | (false, db2) => (failedToCreateSale, db2)
      | (true, db2) => (⟨201, .sale saleResult.2 total_amount payment_method saleItems⟩, db2)

/-- The line item of a valid request line under the given arithmetic. -/
def saleLineWith (arith : Arith) (db : Store) (item : SaleRequestItem) : SaleLine :=
  ⟨item.product_id, item.quantity, db.priceOf item.product_id,
    arith.mul (db.priceOf item.product_id) item.quantity⟩

/-- The running total of the validation loop over a request, started at `start`: line by
line, the line total is added to what has been accumulated so far. -/
def runningTotal (arith : Arith) (db : Store) (start : ℚ) (items : List SaleRequestItem) : ℚ :=
  items.foldl
    (fun total item => arith.add total (arith.mul (db.priceOf item.product_id) item.quantity))
    start

/-- The seeded `products` table with every price as the runtime holds it: the binary64
value nearest to the decimal written in `seedData`. -/
def doublePriceStore : Store :=
  let products := seededProductsStore.products.map
    (fun p => { p with price := roundToDouble p.price })
  { seededProductsStore with products := products }

/-- Spec vocabulary: every line of the request names an existing product whose stock is at
least what the whole request asks of that product (all its lines together). -/
def stockCovers (db : Store) (items : List SaleRequestItem) : Prop :=
  ∀ item ∈ items, ∃ p, db.getProduct item.product_id = some p ∧
    requestedQuantity items item.product_id ≤ p.stock

/-- The character codes of a text. -/
def charCodes (text : String) : List Nat := text.data.map Char.toNat

/-- Text `a` comes strictly before text `b` in the lexicographic order of their character
codes. -/
def lexBefore (a b : String) : Prop := List.Lex (fun m n : Nat => m < n) (charCodes a) (charCodes b)

/-- The decimal digit character of `n % 10`. -/
def digitChar (n : Nat) : Char := Char.ofNat (48 + n % 10)

/-- The text `YYYY-MM-DD` of a calendar date, as `DATE()` writes it. -/
def isoDate (y m d : Nat) : String :=
  ⟨[digitChar (y / 1000), digitChar (y / 100), digitChar (y / 10), digitChar y, '-',
    digitChar (m / 10), digitChar m, '-', digitChar (d / 10), digitChar d]⟩

/-- Calendar order: the first date is not after the second. -/
def dateLe (y1 m1 d1 y2 m2 d2 : Nat) : Prop :=
  y1 < y2 ∨ (y1 = y2 ∧ (m1 < m2 ∨ (m1 = m2 ∧ d1 ≤ d2)))

/-! ## Loop lemmas -/

/-- When every line is valid and no lookup rejects, the validation loop ends with the running
total raised by the request total and one line item appended per request line. -/
theorem validateItems_of_valid (db : Store) (fault : Nat → Bool) (items : List SaleRequestItem) :
    ∀ (k : Nat) (total : ℚ) (acc : List SaleLine),
      (∀ item ∈ items, lineValid db item) →
      (∀ j, j < items.length → fault (k + j) = false) →
      validateItems db fault k items total acc
        = .ok (total + requestTotal db items) (acc ++ items.map (saleLine db)) := by
  induction items with
  | nil => intro k total acc _ _; simp [validateItems, requestTotal]
  | cons item rest ih =>
    intro k total acc hvalid hfault
    obtain ⟨p, hp, hle⟩ := hvalid item (List.mem_cons_self _ _)
    have h0 : fault k = false := by simpa using hfault 0 (by simp)
    have hrest : ∀ j, j < rest.length → fault (k + 1 + j) = false := by
      intro j hj
      have := hfault (j + 1) (by simpa using hj)
      rwa [show k + 1 + j = k + (j + 1) by omega]
    have hprice : db.priceOf item.product_id = p.price := by simp [Store.priceOf, hp]
    rw [validateItems]
    simp only [h0, hp, not_lt.mpr hle, Bool.false_eq_true, if_false]
    rw [ih (k + 1) _ _ (fun x hx => hvalid x (List.mem_cons_of_mem _ hx)) hrest]
    simp [requestTotal, saleLine, hprice, add_assoc]

/-- Unfolding of `lineQuantity` on a non-empty list. -/
theorem lineQuantity_cons (l : SaleLine) (ls : List SaleLine) (id : Nat) :
    lineQuantity (l :: ls) id
      = (if l.product_id == id then l.quantity else 0) + lineQuantity ls id := by
  unfold lineQuantity
  by_cases h : l.product_id == id <;> simp [List.filter_cons, h]

/-- Writing no line leaves the store as it is. -/
theorem afterLines_nil (db : Store) (sale_id : Nat) : db.afterLines sale_id [] [] = db := by
  cases db
  simp [Store.afterLines, saleItemRows, lineQuantity]

/-- The `sale_items` insert of one line, in terms of `afterLines`. -/
theorem afterLines_insert (db : Store) (sale_id : Nat) (l : SaleLine) :
    db.insertSaleItem sale_id l.product_id l.quantity l.unit_price l.total_price
      = db.afterLines sale_id [l] [] := by
  cases db
  simp [Store.afterLines, Store.insertSaleItem, saleItemRows, lineQuantity]

/-- One full round of the commit loop (insert, then decrement) followed by further line
writes is the line writes of the longer lists. -/
theorem afterLines_step (db : Store) (sale_id : Nat) (l : SaleLine) (ins dec : List SaleLine) :
    ((db.insertSaleItem sale_id l.product_id l.quantity l.unit_price
        l.total_price).decrementStock l.quantity l.product_id).afterLines sale_id ins dec
      = db.afterLines sale_id (l :: ins) (l :: dec) := by
  cases db
  simp only [Store.afterLines, Store.insertSaleItem, Store.decrementStock, saleItemRows,
    List.map_map, List.length_cons, List.append_assoc, List.singleton_append]
  congr 1
  · apply List.map_congr_left
    intro p _
    rw [lineQuantity_cons]
    by_cases h : p.id = l.product_id
    · simp only [Function.comp, h, beq_self_eq_true, if_true]
      congr 1
      ring
    · have h2 : ¬ l.product_id = p.id := fun e => h e.symm
      simp [Function.comp, h, h2]
  · omega

/-- When none of its operations rejects, the commit loop inserts every line and decrements
the stock for every line. -/
theorem commitItems_noFault (fault : Nat → Bool) (sale_id : Nat) (lines : List SaleLine) :
    ∀ (k : Nat) (db : Store),
      (∀ j, j < 2 * lines.length → fault (k + j) = false) →
      commitItems fault sale_id k db lines = (true, db.afterLines sale_id lines lines) := by
  induction lines with
  | nil => intro k db _; simp [commitItems, afterLines_nil]
  | cons l ls ih =>
    intro k db hfault
    have h0 : fault k = false := by simpa using hfault 0 (by simp)
    have h1 : fault (k + 1) = false := hfault 1 (by simp; omega)
    have hrest : ∀ j, j < 2 * ls.length → fault (k + 2 + j) = false := by
      intro j hj
      have := hfault (j + 2) (by simp; omega)
      rwa [show k + 2 + j = k + (j + 2) by omega]
    rw [commitItems]
    simp only [h0, h1, Bool.false_eq_true, if_false]
    rw [ih (k + 2) _ hrest, afterLines_step]

/-- When operation number `w` of the commit loop is the first to reject, the loop stops with
the rows of the first `(w + 1) / 2` lines inserted and the first `w / 2` decrements made. -/
theorem commitItems_fault (fault : Nat → Bool) (sale_id : Nat) (lines : List SaleLine) :
    ∀ (k w : Nat) (db : Store),
      w < 2 * lines.length →
      (∀ j, j < w → fault (k + j) = false) →
      fault (k + w) = true →
      commitItems fault sale_id k db lines
        = (false, db.afterLines sale_id (lines.take ((w + 1) / 2)) (lines.take (w / 2))) := by
  induction lines with
  | nil => intro k w db hw; simp at hw
  | cons l ls ih =>
    intro k w db hw hbefore hat
    rw [commitItems]
    match w, hw, hbefore, hat with
    | 0, _, _, hat =>
      have hat0 : fault k = true := by simpa using hat
      simp [hat0, afterLines_nil]
    | 1, _, hbefore, hat =>
      have h0 : fault k = false := by simpa using hbefore 0 (by omega)
      simp [h0, hat, afterLines_insert]
    | w + 2, hw, hbefore, hat =>
      have h0 : fault k = false := by simpa using hbefore 0 (by omega)
      have h1 : fault (k + 1) = false := hbefore 1 (by omega)
      have hrest : ∀ j, j < w → fault (k + 2 + j) = false := by
        intro j hj
        have := hbefore (j + 2) (by omega)
        rwa [show k + 2 + j = k + (j + 2) by omega]
      have hat2 : fault (k + 2 + w) = true := by
        rwa [show k + 2 + w = k + (w + 2) by omega]
      have hw2 : w < 2 * ls.length := by simp at hw; omega
      simp only [h0, h1, Bool.false_eq_true, if_false]
      rw [ih (k + 2) w _ hw2 hrest hat2, afterLines_step]
      have e1 : (w + 2 + 1) / 2 = (w + 1) / 2 + 1 := by omega
      have e2 : (w + 2) / 2 = w / 2 + 1 := by omega
      simp [e1, e2]

/-- The line items of a request take of each product what the request asks of it. -/
theorem lineQuantity_saleLine (db : Store) (items : List SaleRequestItem) (id : Nat) :
    lineQuantity (items.map (saleLine db)) id = requestedQuantity items id := by
  induction items with
  | nil => simp [lineQuantity, requestedQuantity]
  | cons item rest ih =>
    unfold lineQuantity requestedQuantity at *
    by_cases h : item.product_id = id <;> simp [List.filter_cons, saleLine, h, ih]

/-- A request asks nothing of a product that none of its lines names. -/
theorem requestedQuantity_absent (items : List SaleRequestItem) (id : Nat)
    (h : ∀ item ∈ items, item.product_id ≠ id) : requestedQuantity items id = 0 := by
  unfold requestedQuantity
  have : items.filter (fun item => item.product_id == id) = [] := by
    rw [List.filter_eq_nil_iff]
    intro item hmem
    simpa using h item hmem
  simp [this]

/-- Stock of a product after line writes: the stock before minus what the decremented lines
take of it. -/
theorem stockOf_afterLines (db : Store) (sale_id : Nat) (ins dec : List SaleLine) (id : Nat) :
    (db.afterLines sale_id ins dec).stockOf id
      = (db.stockOf id).map (fun s => s - lineQuantity dec id) := by
  unfold Store.stockOf Store.getProduct Store.afterLines
  simp only [List.find?_map, Option.map_map]
  induction db.products with
  | nil => simp
  | cons p ps ih =>
    by_cases h : p.id = id
    · simp [List.find?_cons, h]
    · simp [List.find?_cons, h]
      simpa using ih

/-- The result of `createSale` when every line is valid and none of its `3 n + 1` database
operations rejects. -/
theorem createSale_of_valid (db : Store) (req : SaleRequest) (fault : Nat → Bool)
    (hvalid : ∀ item ∈ req.items, lineValid db item)
    (hfault : ∀ j, j < 3 * req.items.length + 1 → fault j = false) :
    createSale fault db req
      = (⟨201, .sale (db.sales_seq + 1) (requestTotal db req.items)
            (req.payment_method.getD "cash") (req.items.map (saleLine db))⟩,
         (db.insertSale (requestTotal db req.items) (req.payment_method.getD "cash")
            req.user_id).1.afterLines (db.sales_seq + 1) (req.items.map (saleLine db))
            (req.items.map (saleLine db))) := by
  have hv := validateItems_of_valid db fault req.items 0 0 [] hvalid
    (fun j hj => by simpa using hfault j (by omega))
  have hc := commitItems_noFault fault (db.sales_seq + 1) (req.items.map (saleLine db))
    (req.items.length + 1)
    (db.insertSale (requestTotal db req.items) (req.payment_method.getD "cash") req.user_id).1
    (fun j hj => hfault _ (by simp at hj; omega))
  have hn : fault req.items.length = false := hfault _ (by omega)
  simp only [createSale, hv, zero_add, List.nil_append, hn, Bool.false_eq_true, if_false]
  simp only [Store.insertSale] at hc ⊢
  rw [hc]

/-- The result of `createSale` when every line is valid and the first operation to reject is
number `w` of the commit loop. -/
theorem createSale_of_commit_fault (db : Store) (req : SaleRequest) (fault : Nat → Bool)
    (w : Nat) (hvalid : ∀ item ∈ req.items, lineValid db item)
    (hw : w < 2 * req.items.length)
    (hbefore : ∀ j, j < req.items.length + 1 + w → fault j = false)
    (hat : fault (req.items.length + 1 + w) = true) :
    createSale fault db req
      = (failedToCreateSale,
         (db.insertSale (requestTotal db req.items) (req.payment_method.getD "cash")
            req.user_id).1.afterLines (db.sales_seq + 1)
            ((req.items.map (saleLine db)).take ((w + 1) / 2))
            ((req.items.map (saleLine db)).take (w / 2))) := by
  have hv := validateItems_of_valid db fault req.items 0 0 [] hvalid
    (fun j hj => by simpa using hbefore j (by omega))
  have hc := commitItems_fault fault (db.sales_seq + 1) (req.items.map (saleLine db))
    (req.items.length + 1) w
    (db.insertSale (requestTotal db req.items) (req.payment_method.getD "cash") req.user_id).1
    (by simpa using hw) (fun j hj => hbefore _ (by omega)) hat
  have hn : fault req.items.length = false := hbefore _ (by omega)
  simp only [createSale, hv, zero_add, List.nil_append, hn, Bool.false_eq_true, if_false]
  simp only [Store.insertSale] at hc ⊢
  rw [hc]

/-- The result of `createSale` when every line is valid and the `sales` insert rejects. -/
theorem createSale_of_insert_fault (db : Store) (req : SaleRequest) (fault : Nat → Bool)
    (hvalid : ∀ item ∈ req.items, lineValid db item)
    (hbefore : ∀ j, j < req.items.length → fault j = false)
    (hat : fault req.items.length = true) :
    createSale fault db req = (failedToCreateSale, db) := by
  have hv := validateItems_of_valid db fault req.items 0 0 [] hvalid
    (fun j hj => by simpa using hbefore j hj)
  simp only [createSale, hv, hat, if_true]

/-- A line asking more than the stock makes the validation loop reject with status 400, with
the insufficient-stock message when all lines before it name existing products. -/
theorem validateItems_insufficient (db : Store) (pre post : List SaleRequestItem)
    (item : SaleRequestItem) (p : Product)
    (hp : db.getProduct item.product_id = some p) (hlt : p.stock < item.quantity) :
    ∀ (k : Nat) (total : ℚ) (acc : List SaleLine),
      ∃ r, validateItems db noFault k (pre ++ item :: post) total acc = .rejected r ∧
        r.status = 400 ∧
        ((∀ x ∈ pre, (db.getProduct x.product_id).isSome) → isInsufficientStock r) := by
  induction pre with
  | nil =>
    intro k total acc
    refine ⟨⟨400, .message ("Insufficient stock for " ++ p.name)⟩, ?_, rfl, fun _ => ⟨rfl, p.name, rfl⟩⟩
    simp [validateItems, noFault, hp, hlt]
  | cons x pre ih =>
    intro k total acc
    rw [List.cons_append, validateItems]
    simp only [noFault, Bool.false_eq_true, if_false]
    cases hx : db.getProduct x.product_id with
    | none =>
      refine ⟨_, rfl, rfl, fun h => ?_⟩
      have := h x (List.mem_cons_self _ _)
      simp [hx] at this
    | some q =>
      by_cases hq : q.stock < x.quantity
      · simp only [hq, if_true]
        exact ⟨_, rfl, rfl, fun _ => ⟨rfl, q.name, rfl⟩⟩
      · simp only [hq, if_false]
        obtain ⟨r, hr, hs, hi⟩ := ih (k + 1) (total + q.price * x.quantity)
          (acc ++ [⟨x.product_id, x.quantity, q.price, q.price * x.quantity⟩])
        exact ⟨r, hr, hs, fun h => hi (fun y hy => h y (List.mem_cons_of_mem _ hy))⟩

/-- A line naming an unknown product makes the validation loop reject with status 400, with
the unknown-product message for that id when all lines before it are valid. -/
theorem validateItems_unknown (db : Store) (pre post : List SaleRequestItem)
    (item : SaleRequestItem) (hp : db.getProduct item.product_id = none) :
    ∀ (k : Nat) (total : ℚ) (acc : List SaleLine),
      ∃ r, validateItems db noFault k (pre ++ item :: post) total acc = .rejected r ∧
        r.status = 400 ∧
        ((∀ x ∈ pre, lineValid db x) → isUnknownProduct item.product_id r) := by
  induction pre with
  | nil =>
    intro k total acc
    refine ⟨_, ?_, rfl, fun _ => rfl⟩
    simp [validateItems, noFault, hp]
  | cons x pre ih =>
    intro k total acc
    rw [List.cons_append, validateItems]
    simp only [noFault, Bool.false_eq_true, if_false]
    cases hx : db.getProduct x.product_id with
    | none =>
      refine ⟨_, rfl, rfl, fun h => ?_⟩
      obtain ⟨q, hq, _⟩ := h x (List.mem_cons_self _ _)
      simp [hx] at hq
    | some q =>
      by_cases hq : q.stock < x.quantity
      · simp only [hq, if_true]
        refine ⟨_, rfl, rfl, fun h => ?_⟩
        obtain ⟨q2, hq2, hle⟩ := h x (List.mem_cons_self _ _)
        rw [hx] at hq2
        cases hq2
        omega
      · simp only [hq, if_false]
        obtain ⟨r, hr, hs, hi⟩ := ih (k + 1) (total + q.price * x.quantity)
          (acc ++ [⟨x.product_id, x.quantity, q.price, q.price * x.quantity⟩])
        exact ⟨r, hr, hs, fun h => hi (fun y hy => h y (List.mem_cons_of_mem _ hy))⟩

/-- When validation rejects, `createSale` sends that response and writes nothing. -/
theorem createSale_of_rejected (db : Store) (req : SaleRequest) (fault : Nat → Bool)
    (r : Response) (h : validateItems db fault 0 req.items 0 [] = .rejected r) :
    createSale fault db req = (r, db) := by
  simp only [createSale, h]

/-- The validation loop ends well only if every line is valid and no lookup rejected. -/
theorem validateItems_ok_inv (db : Store) (fault : Nat → Bool) (items : List SaleRequestItem) :
    ∀ (k : Nat) (total : ℚ) (acc : List SaleLine) (total2 : ℚ) (lines : List SaleLine),
      validateItems db fault k items total acc = .ok total2 lines →
      (∀ item ∈ items, lineValid db item) ∧ ∀ j, j < items.length → fault (k + j) = false := by
  induction items with
  | nil => intro k total acc total2 lines _; simp
  | cons x rest ih =>
    intro k total acc total2 lines h
    rw [validateItems] at h
    cases hf : fault k with
    | true => simp [hf] at h
    | false =>
      simp only [hf, Bool.false_eq_true, if_false] at h
      cases hx : db.getProduct x.product_id with
      | none => simp [hx] at h
      | some q =>
        simp only [hx] at h
        by_cases hq : q.stock < x.quantity
        · simp [hq] at h
        · simp only [hq, if_false] at h
          obtain ⟨hv, hj⟩ := ih _ _ _ _ _ h
          refine ⟨?_, ?_⟩
          · intro item hmem
            rcases List.mem_cons.mp hmem with rfl | hmem
            · exact ⟨q, hx, not_lt.mp hq⟩
            · exact hv item hmem
          · intro j hlt
            cases j with
            | zero => simpa using hf
            | succ j =>
              have := hj j (by simpa using hlt)
              rwa [show k + (j + 1) = k + 1 + j by omega]

/-- Every response of the validation loop has status 400. -/
theorem validateItems_rejected_status (db : Store) (fault : Nat → Bool)
    (items : List SaleRequestItem) :
    ∀ (k : Nat) (total : ℚ) (acc : List SaleLine) (r : Response),
      validateItems db fault k items total acc = .rejected r → r.status = 400 := by
  induction items with
  | nil => intro k total acc r h; simp [validateItems] at h
  | cons x rest ih =>
    intro k total acc r h
    rw [validateItems] at h
    cases hf : fault k with
    | true => simp [hf] at h
    | false =>
      simp only [hf, Bool.false_eq_true, if_false] at h
      cases hx : db.getProduct x.product_id with
      | none =>
        simp only [hx, Validation.rejected.injEq] at h
        rw [← h]
      | some q =>
        simp only [hx] at h
        by_cases hq : q.stock < x.quantity
        · simp only [hq, if_true, Validation.rejected.injEq] at h
          rw [← h]
        · simp only [hq, if_false] at h
          exact ih _ _ _ _ h

/-- The commit loop completes only if none of its operations rejected. -/
theorem commitItems_true_inv (fault : Nat → Bool) (sale_id : Nat) (lines : List SaleLine) :
    ∀ (k : Nat) (db db2 : Store),
      commitItems fault sale_id k db lines = (true, db2) →
      ∀ j, j < 2 * lines.length → fault (k + j) = false := by
  induction lines with
  | nil => intro k db db2 _ j hj; simp at hj
  | cons l ls ih =>
    intro k db db2 h j hj
    rw [commitItems] at h
    cases hf : fault k with
    | true => simp [hf] at h
    | false =>
      simp only [hf, Bool.false_eq_true, if_false] at h
      cases hf1 : fault (k + 1) with
      | true => simp [hf1] at h
      | false =>
        simp only [hf1, Bool.false_eq_true, if_false] at h
        match j, hj with
        | 0, _ => simpa using hf
        | 1, _ => exact hf1
        | j + 2, hj =>
          have := ih _ _ _ h j (by simp at hj; omega)
          rwa [show k + (j + 2) = k + 2 + j by omega]

/-- An answer 201 means every line was valid and none of the `3 n + 1` database operations
rejected. -/
theorem createSale_success_inv (db : Store) (req : SaleRequest) (fault : Nat → Bool)
    (h : (createSale fault db req).1.status = 201) :
    (∀ item ∈ req.items, lineValid db item) ∧
      ∀ j, j < 3 * req.items.length + 1 → fault j = false := by
  unfold createSale at h
  cases hv : validateItems db fault 0 req.items 0 [] with
  | threw => simp [hv, failedToCreateSale] at h
  | rejected r =>
    have := validateItems_rejected_status db fault req.items 0 0 [] r hv
    simp [hv, this] at h
  | ok total lines =>
    obtain ⟨hvalid, hfv⟩ := validateItems_ok_inv db fault req.items 0 0 [] total lines hv
    refine ⟨hvalid, ?_⟩
    simp only [hv] at h
    cases hn : fault req.items.length with
    | true => simp [hn, failedToCreateSale] at h
    | false =>
      simp only [hn, Bool.false_eq_true, if_false] at h
      have hlen : lines.length = req.items.length := by
        have := validateItems_of_valid db fault req.items 0 0 [] hvalid hfv
        rw [hv] at this
        simp only [Validation.ok.injEq, List.nil_append] at this
        rw [this.2, List.length_map]
      split at h
      · simp [failedToCreateSale] at h
      · rename_i db2 hc
        have hcf := commitItems_true_inv fault _ lines _ _ _ hc
        intro j hj
        by_cases h1 : j < req.items.length
        · simpa using hfv j h1
        · by_cases h2 : j = req.items.length
          · rw [h2]; exact hn
          · have := hcf (j - (req.items.length + 1)) (by omega)
            rwa [show req.items.length + 1 + (j - (req.items.length + 1)) = j by omega] at this

/-! ## Posting a valid request, in exact arithmetic -/

/-- In exact arithmetic: for a request with a non-empty item list in which every line has a
positive quantity and names an existing product whose stock is at least that quantity,
`createSale` (no storage failure) answers 201 with `total_amount` the sum of unit price
times quantity over the lines, stores a sale row with that total, lowers the stock of every
product by exactly the quantity requested of it, and leaves the stock of every product
outside the request as it was. -/
theorem createSale_valid_request (db : Store) (req : SaleRequest)
    (_hne : req.items ≠ [])
    (hvalid : ∀ item ∈ req.items, 0 < item.quantity ∧ lineValid db item) :
    (createSale noFault db req).1
        = ⟨201, .sale (db.sales_seq + 1) (requestTotal db req.items)
            (req.payment_method.getD "cash") (req.items.map (saleLine db))⟩ ∧
      (createSale noFault db req).2.sales
        = db.sales ++ [⟨db.sales_seq + 1, requestTotal db req.items,
            req.payment_method.getD "cash", req.user_id, db.clock⟩] ∧
      (createSale noFault db req).2.products
        = db.products.map
            (fun p => { p with stock := p.stock - requestedQuantity req.items p.id }) ∧
      (∀ id, (∀ item ∈ req.items, item.product_id ≠ id) →
        (createSale noFault db req).2.stockOf id = db.stockOf id) := by
  have h := createSale_of_valid db req noFault (fun item hm => (hvalid item hm).2)
    (fun _ _ => rfl)
  rw [h]
  refine ⟨rfl, rfl, ?_, ?_⟩
  · simp only [Store.afterLines, Store.insertSale, lineQuantity_saleLine]
  · intro id hid
    rw [stockOf_afterLines, lineQuantity_saleLine, requestedQuantity_absent _ _ hid]
    simp only [Store.stockOf, Store.getProduct, Store.insertSale, sub_zero, Option.map_map]
    rfl

/-- An instance on the one-product store: one unit price 10, three pieces requested. -/
theorem createSale_valid_request_witness :
    (createSale noFault oneProductStore (requestOf [⟨1, 3⟩])).1
        = ⟨201, .sale (oneProductStore.sales_seq + 1)
            (requestTotal oneProductStore (requestOf [⟨1, 3⟩]).items)
            ((requestOf [⟨1, 3⟩]).payment_method.getD "cash")
            ((requestOf [⟨1, 3⟩]).items.map (saleLine oneProductStore))⟩ ∧
      (createSale noFault oneProductStore (requestOf [⟨1, 3⟩])).2.sales
        = oneProductStore.sales ++ [⟨oneProductStore.sales_seq + 1,
            requestTotal oneProductStore (requestOf [⟨1, 3⟩]).items,
            (requestOf [⟨1, 3⟩]).payment_method.getD "cash", (requestOf [⟨1, 3⟩]).user_id,
            oneProductStore.clock⟩] ∧
      (createSale noFault oneProductStore (requestOf [⟨1, 3⟩])).2.products
        = oneProductStore.products.map
            (fun p => { p with
              stock := p.stock - requestedQuantity (requestOf [⟨1, 3⟩]).items p.id }) ∧
      (∀ id, (∀ item ∈ (requestOf [⟨1, 3⟩]).items, item.product_id ≠ id) →
        (createSale noFault oneProductStore (requestOf [⟨1, 3⟩])).2.stockOf id
          = oneProductStore.stockOf id) :=
  createSale_valid_request oneProductStore (requestOf [⟨1, 3⟩]) (by simp [requestOf])
    (by
      intro item hm
      have : item = ⟨1, 3⟩ := by simpa [requestOf] using hm
      subst this
      exact ⟨by decide, ⟨1, "P", none, 10, 5, none, none⟩, rfl, by decide⟩)

/-! ## C2: a line asking more than the stock -/

/-- A message starting with `Product with ID` is not the insufficient-stock message. -/
theorem not_insufficient_of_product_message (text : String) :
    ¬ isInsufficientStock ⟨400, .message ("Product with ID " ++ text)⟩ := by
  rintro ⟨_, name, h⟩
  simp only [ResponseBody.message.injEq] at h
  have hd := congrArg (fun s => s.data.head?) h
  simp at hd

/-- C2, counterexample. The request `[(99, 1), (1, 6)]` on the one-product store (stock 5)
contains a line asking more than the stock, yet the answer is the unknown-product error of
the line before it, not the insufficient-stock error. -/
theorem createSale_insufficient_after_unknown :
    (∃ item ∈ (requestOf [⟨99, 1⟩, ⟨1, 6⟩]).items, ∃ p,
        oneProductStore.getProduct item.product_id = some p ∧ p.stock < item.quantity) ∧
      (createSale noFault oneProductStore (requestOf [⟨99, 1⟩, ⟨1, 6⟩])).1
        = ⟨400, .message "Product with ID 99 not found"⟩ ∧
      ¬ isInsufficientStock (createSale noFault oneProductStore (requestOf [⟨99, 1⟩, ⟨1, 6⟩])).1 := by
  have hr : (createSale noFault oneProductStore (requestOf [⟨99, 1⟩, ⟨1, 6⟩])).1
      = ⟨400, .message "Product with ID 99 not found"⟩ := by decide
  refine ⟨⟨⟨1, 6⟩, by simp [requestOf], ⟨1, "P", none, 10, 5, none, none⟩, rfl, by decide⟩, hr, ?_⟩
  rw [hr]
  exact not_insufficient_of_product_message "99 not found"

/-- C2, amended. When a request contains a line whose product exists with stock below the
requested quantity, `createSale` answers 400 and leaves the store untouched; the answer is
the insufficient-stock error whenever every line before it names an existing product. -/
theorem createSale_insufficient_stock (db : Store) (req : SaleRequest)
    (pre post : List SaleRequestItem) (item : SaleRequestItem) (p : Product)
    (hitems : req.items = pre ++ item :: post)
    (hp : db.getProduct item.product_id = some p) (hlt : p.stock < item.quantity) :
    (createSale noFault db req).2 = db ∧
      (createSale noFault db req).1.status = 400 ∧
      ((∀ x ∈ pre, (db.getProduct x.product_id).isSome) →
        isInsufficientStock (createSale noFault db req).1) := by
  obtain ⟨r, hr, hs, hi⟩ := validateItems_insufficient db pre post item p hp hlt 0 0 []
  rw [← hitems] at hr
  rw [createSale_of_rejected db req noFault r hr]
  exact ⟨rfl, hs, hi⟩

/-- Witness of the amended C2: `[(1, 3), (1, 6)]` on the one-product store. -/
theorem createSale_insufficient_stock_witness :
    (createSale noFault oneProductStore (requestOf [⟨1, 3⟩, ⟨1, 6⟩])).2 = oneProductStore ∧
      (createSale noFault oneProductStore (requestOf [⟨1, 3⟩, ⟨1, 6⟩])).1.status = 400 ∧
      ((∀ x ∈ [(⟨1, 3⟩ : SaleRequestItem)], (oneProductStore.getProduct x.product_id).isSome) →
        isInsufficientStock (createSale noFault oneProductStore (requestOf [⟨1, 3⟩, ⟨1, 6⟩])).1) :=
  createSale_insufficient_stock oneProductStore (requestOf [⟨1, 3⟩, ⟨1, 6⟩]) [⟨1, 3⟩] []
    ⟨1, 6⟩ ⟨1, "P", none, 10, 5, none, none⟩ rfl rfl (by decide)

/-! ## C3: a line naming an unknown product -/

/-- C3, counterexample. The request `[(1, 6), (99, 1)]` on the one-product store references
the unknown product 99, yet the answer is the insufficient-stock error of the line before
it, not the unknown-product error. -/
theorem createSale_unknown_after_insufficient :
    (∃ item ∈ (requestOf [⟨1, 6⟩, ⟨99, 1⟩]).items,
        item.product_id = 99 ∧ oneProductStore.getProduct item.product_id = none) ∧
      (createSale noFault oneProductStore (requestOf [⟨1, 6⟩, ⟨99, 1⟩])).1
        = ⟨400, .message "Insufficient stock for P"⟩ ∧
      ¬ isUnknownProduct 99 (createSale noFault oneProductStore (requestOf [⟨1, 6⟩, ⟨99, 1⟩])).1 := by
  have hr : (createSale noFault oneProductStore (requestOf [⟨1, 6⟩, ⟨99, 1⟩])).1
      = ⟨400, .message "Insufficient stock for P"⟩ := by decide
  refine ⟨⟨⟨99, 1⟩, by simp [requestOf], rfl, rfl⟩, hr, ?_⟩
  rw [hr]
  unfold isUnknownProduct
  decide

/-- C3, amended. When a request contains a line whose product id has no row, `createSale`
answers 400 and makes no write; the answer is the unknown-product error naming that id
whenever every line before it passes validation (that id is then the first unknown one). -/
theorem createSale_unknown_product (db : Store) (req : SaleRequest)
    (pre post : List SaleRequestItem) (item : SaleRequestItem)
    (hitems : req.items = pre ++ item :: post)
    (hp : db.getProduct item.product_id = none) :
    (createSale noFault db req).2 = db ∧
      (createSale noFault db req).1.status = 400 ∧
      ((∀ x ∈ pre, lineValid db x) →
        isUnknownProduct item.product_id (createSale noFault db req).1) := by
  obtain ⟨r, hr, hs, hi⟩ := validateItems_unknown db pre post item hp 0 0 []
  rw [← hitems] at hr
  rw [createSale_of_rejected db req noFault r hr]
  exact ⟨rfl, hs, hi⟩

/-- Witness of the amended C3: `[(1, 3), (99, 1)]` on the one-product store. -/
theorem createSale_unknown_product_witness :
    (createSale noFault oneProductStore (requestOf [⟨1, 3⟩, ⟨99, 1⟩])).2 = oneProductStore ∧
      (createSale noFault oneProductStore (requestOf [⟨1, 3⟩, ⟨99, 1⟩])).1.status = 400 ∧
      ((∀ x ∈ [(⟨1, 3⟩ : SaleRequestItem)], lineValid oneProductStore x) →
        isUnknownProduct (⟨99, 1⟩ : SaleRequestItem).product_id
          (createSale noFault oneProductStore (requestOf [⟨1, 3⟩, ⟨99, 1⟩])).1) :=
  createSale_unknown_product oneProductStore (requestOf [⟨1, 3⟩, ⟨99, 1⟩]) [⟨1, 3⟩] []
    ⟨99, 1⟩ rfl rfl

/-! ## C4: a product id repeated within one request -/

/-- C4, evaluation at the failing input. On the one-product store (stock 5) the request
`[(1, 3), (1, 3)]` asks 6 of product 1 in total, yet `createSale` answers 201 and the stock
goes from 5 to -1: each line was checked on its own against the stock read before any
decrement. -/
theorem createSale_duplicate_lines_oversell :
    oneProductStore.stockOf 1 = some 5 ∧
      requestedQuantity (requestOf [⟨1, 3⟩, ⟨1, 3⟩]).items 1 = 6 ∧
      (createSale noFault oneProductStore (requestOf [⟨1, 3⟩, ⟨1, 3⟩])).1.status = 201 ∧
      (createSale noFault oneProductStore (requestOf [⟨1, 3⟩, ⟨1, 3⟩])).2.stockOf 1
        = some (-1) := by
  decide

/-! ## C5: a write that fails during the commit phase -/

/-- C5, counterexample. On the one-product store the request `[(1, 3)]` passes validation;
when the third database operation (the `sale_items` insert) rejects, the answer is 500 and
the `sales` row inserted just before stays in the store, which therefore differs from the
store before the call. -/
theorem createSale_failed_commit_keeps_sale :
    (∀ item ∈ (requestOf [⟨1, 3⟩]).items, ∃ p,
        oneProductStore.getProduct item.product_id = some p ∧ item.quantity ≤ p.stock) ∧
      (createSale (faultAt 2) oneProductStore (requestOf [⟨1, 3⟩])).1 = failedToCreateSale ∧
      oneProductStore.sales.length = 0 ∧
      (createSale (faultAt 2) oneProductStore (requestOf [⟨1, 3⟩])).2.sales.length = 1 ∧
      (createSale (faultAt 2) oneProductStore (requestOf [⟨1, 3⟩])).2 ≠ oneProductStore := by
  have hlen : (createSale (faultAt 2) oneProductStore (requestOf [⟨1, 3⟩])).2.sales.length = 1 := by
    decide
  refine ⟨?_, by decide, by decide, hlen, ?_⟩
  · intro item hm
    have : item = ⟨1, 3⟩ := by simpa [requestOf] using hm
    subst this
    exact ⟨⟨1, "P", none, 10, 5, none, none⟩, rfl, by decide⟩
  · intro h
    rw [h] at hlen
    exact absurd hlen (by decide)

/-- C5, amended. Let every line of the request pass validation and let write number `w` of
the commit phase be the first database operation to reject (`w = 0` the `sales` insert,
`w = 2 i + 1` the `sale_items` insert of line `i`, `w = 2 i + 2` its stock update). Then
`createSale` answers 500 `Failed to create sale` and rolls nothing back: for `w = 0` the
store is the store before the call, otherwise it keeps the new `sales` row, the
`sale_items` rows of the first `w / 2` lines and the stock decrements of the first
`(w - 1) / 2` lines. -/
theorem createSale_commit_failure (db : Store) (req : SaleRequest) (fault : Nat → Bool)
    (w : Nat) (hvalid : ∀ item ∈ req.items, lineValid db item)
    (hw : w ≤ 2 * req.items.length)
    (hbefore : ∀ j, j < req.items.length + w → fault j = false)
    (hat : fault (req.items.length + w) = true) :
    createSale fault db req
      = (failedToCreateSale,
         if w = 0 then db
         else
           (db.insertSale (requestTotal db req.items) (req.payment_method.getD "cash")
              req.user_id).1.afterLines (db.sales_seq + 1)
              ((req.items.map (saleLine db)).take (w / 2))
              ((req.items.map (saleLine db)).take ((w - 1) / 2))) := by
  cases w with
  | zero =>
    simp only [if_true]
    exact createSale_of_insert_fault db req fault hvalid (by simpa using hbefore)
      (by simpa using hat)
  | succ v =>
    simp only [Nat.succ_ne_zero, if_false, Nat.add_sub_cancel]
    exact createSale_of_commit_fault db req fault v hvalid (by omega)
      (fun j hj => hbefore j (by omega)) (by rwa [show req.items.length + 1 + v = req.items.length + (v + 1) by omega])

/-- Witness of the amended C5: the `sale_items` insert of the single line `(1, 3)` rejects. -/
theorem createSale_commit_failure_witness :
    createSale (faultAt 2) oneProductStore (requestOf [⟨1, 3⟩])
      = (failedToCreateSale,
         if 1 = 0 then oneProductStore
         else
           (oneProductStore.insertSale (requestTotal oneProductStore (requestOf [⟨1, 3⟩]).items)
              ((requestOf [⟨1, 3⟩]).payment_method.getD "cash")
              (requestOf [⟨1, 3⟩]).user_id).1.afterLines (oneProductStore.sales_seq + 1)
              (((requestOf [⟨1, 3⟩]).items.map (saleLine oneProductStore)).take (1 / 2))
              (((requestOf [⟨1, 3⟩]).items.map (saleLine oneProductStore)).take ((1 - 1) / 2))) :=
  createSale_commit_failure oneProductStore (requestOf [⟨1, 3⟩]) (faultAt 2) 1
    (by
      intro item hm
      have : item = ⟨1, 3⟩ := by simpa [requestOf] using hm
      subst this
      exact ⟨⟨1, "P", none, 10, 5, none, none⟩, rfl, by decide⟩)
    (by decide)
    (by
      intro j hj
      have hj2 : j < 2 := hj
      simp only [faultAt, beq_eq_false_iff_ne, ne_eq]
      omega)
    rfl

/-! ## C6: stock below zero -/

/-- C6, evaluation at the failing input. Every stock of the one-product store is
non-negative; after the single successful call `createSale` with items `[(1, 3), (1, 3)]`
the stock of product 1 is `-1`. -/
theorem createSale_stock_goes_negative :
    (∀ p ∈ oneProductStore.products, 0 ≤ p.stock) ∧
      (createSale noFault oneProductStore (requestOf [⟨1, 3⟩, ⟨1, 3⟩])).2.products.map
          (fun p => p.stock) = [-1] ∧
      ∃ p ∈ (createSale noFault oneProductStore (requestOf [⟨1, 3⟩, ⟨1, 3⟩])).2.products,
        p.stock < 0 := by
  decide

/-! ## The stock invariant when no product id is repeated -/

/-- Whatever operations reject, the commit loop leaves the store with the rows of a prefix
of the lines inserted and the stock decrements of a prefix of the lines applied. -/
theorem commitItems_store (fault : Nat → Bool) (sale_id : Nat) (lines : List SaleLine) :
    ∀ (k : Nat) (db : Store), ∃ a b,
      (commitItems fault sale_id k db lines).2
        = db.afterLines sale_id (lines.take a) (lines.take b) := by
  induction lines with
  | nil => intro k db; exact ⟨0, 0, by simp [commitItems, afterLines_nil]⟩
  | cons l ls ih =>
    intro k db
    rw [commitItems]
    cases hf : fault k with
    | true => exact ⟨0, 0, by simp [afterLines_nil]⟩
    | false =>
      cases hf1 : fault (k + 1) with
      | true => exact ⟨1, 0, by simp [afterLines_insert]⟩
      | false =>
        obtain ⟨a, b, h⟩ := ih (k + 2)
          ((db.insertSaleItem sale_id l.product_id l.quantity l.unit_price
            l.total_price).decrementStock l.quantity l.product_id)
        refine ⟨a + 1, b + 1, ?_⟩
        simp only [Bool.false_eq_true, if_false, List.take_succ_cons]
        rw [h, afterLines_step]

/-- The store after `createSale` is the store before, or every line passed validation and
the store holds the new sale row and the writes of a prefix of the lines. -/
theorem createSale_store_cases (db : Store) (req : SaleRequest) (fault : Nat → Bool) :
    (createSale fault db req).2 = db ∨
      ((∀ item ∈ req.items, lineValid db item) ∧ ∃ a b,
        (createSale fault db req).2
          = (db.insertSale (requestTotal db req.items) (req.payment_method.getD "cash")
              req.user_id).1.afterLines (db.sales_seq + 1)
              ((req.items.map (saleLine db)).take a) ((req.items.map (saleLine db)).take b)) := by
  unfold createSale
  cases hv : validateItems db fault 0 req.items 0 [] with
  | threw => exact Or.inl rfl
  | rejected r => exact Or.inl rfl
  | ok total lines =>
    obtain ⟨hvalid, hfv⟩ := validateItems_ok_inv db fault req.items 0 0 [] total lines hv
    have hexp := validateItems_of_valid db fault req.items 0 0 [] hvalid hfv
    rw [hv] at hexp
    simp only [Validation.ok.injEq, List.nil_append, zero_add] at hexp
    obtain ⟨rfl, rfl⟩ := hexp
    cases hn : fault req.items.length with
    | true => exact Or.inl rfl
    | false =>
      right
      refine ⟨hvalid, ?_⟩
      obtain ⟨a, b, h⟩ := commitItems_store fault (db.sales_seq + 1)
        (req.items.map (saleLine db)) (req.items.length + 1)
        (db.insertSale (requestTotal db req.items) (req.payment_method.getD "cash")
          req.user_id).1
      refine ⟨a, b, ?_⟩
      simp only [Bool.false_eq_true, if_false]
      rw [← h]
      simp only [Store.insertSale]
      split <;> rename_i heq <;> simp [heq]

/-- With distinct product ids, the quantity a list of lines takes of one product is zero or
the quantity of one of its lines on that product. -/
theorem lineQuantity_of_nodup (lines : List SaleLine) (id : Nat)
    (hnodup : (lines.map (fun l => l.product_id)).Nodup) :
    lineQuantity lines id = 0 ∨
      ∃ l ∈ lines, l.product_id = id ∧ lineQuantity lines id = l.quantity := by
  induction lines with
  | nil => left; simp [lineQuantity]
  | cons l ls ih =>
    simp only [List.map_cons, List.nodup_cons, List.mem_map, not_exists, not_and] at hnodup
    rw [lineQuantity_cons]
    by_cases h : l.product_id = id
    · right
      refine ⟨l, List.mem_cons_self _ _, h, ?_⟩
      have hnone : ls.filter (fun x => x.product_id == id) = [] := by
        rw [List.filter_eq_nil_iff]
        intro x hx
        have := hnodup.1 x hx
        simpa [h] using this
      simp [h, lineQuantity, hnone]
    · have hb : (l.product_id == id) = false := by simpa using h
      rw [hb]
      simp only [Bool.false_eq_true, if_false, zero_add]
      rcases ih hnodup.2 with h0 | ⟨x, hx, hid, hq⟩
      · exact Or.inl h0
      · exact Or.inr ⟨x, List.mem_cons_of_mem _ hx, hid, hq⟩

/-- With `id` a key of `products`, the lookup by the id of a row returns that row. -/
theorem getProduct_of_mem (db : Store) (p : Product)
    (hpk : (db.products.map (fun q => q.id)).Nodup) (hp : p ∈ db.products) :
    db.getProduct p.id = some p := by
  unfold Store.getProduct
  generalize db.products = ps at hpk hp
  induction ps with
  | nil => simp at hp
  | cons q qs ih =>
    simp only [List.map_cons, List.nodup_cons, List.mem_map, not_exists, not_and] at hpk
    rcases List.mem_cons.mp hp with rfl | hmem
    · simp [List.find?_cons]
    · have hne : ¬ q.id = p.id := fun e => hpk.1 p hmem e.symm
      have hb : (q.id == p.id) = false := by simpa using hne
      rw [List.find?_cons, hb]
      exact ih hpk.2 hmem

/-- What C6 asks does hold for requests that name each product at most once: if `id` is a
key of `products`, no stock is negative and the lines of the request have distinct product
ids, then after `createSale`, whatever its answer and whatever operation rejects, no stock
is negative. -/
theorem createSale_stock_nonneg_of_distinct (db : Store) (req : SaleRequest)
    (fault : Nat → Bool)
    (hpk : (db.products.map (fun q => q.id)).Nodup)
    (hdistinct : (req.items.map (fun item => item.product_id)).Nodup)
    (hnonneg : ∀ p ∈ db.products, 0 ≤ p.stock) :
    ∀ p ∈ (createSale fault db req).2.products, 0 ≤ p.stock := by
  rcases createSale_store_cases db req fault with h | ⟨hvalid, a, b, h⟩
  · rw [h]; exact hnonneg
  · rw [h]
    intro p hp
    simp only [Store.afterLines, Store.insertSale, List.mem_map] at hp
    obtain ⟨q, hq, rfl⟩ := hp
    have hsub : ((req.items.map (saleLine db)).take b).Sublist (req.items.map (saleLine db)) :=
      List.take_sublist _ _
    have hids : (req.items.map (saleLine db)).map (fun l => l.product_id)
        = req.items.map (fun item => item.product_id) := by
      simp [List.map_map, Function.comp, saleLine]
    have hnd : (((req.items.map (saleLine db)).take b).map (fun l => l.product_id)).Nodup :=
      List.Nodup.sublist (hsub.map _) (hids ▸ hdistinct)
    show 0 ≤ q.stock - lineQuantity ((req.items.map (saleLine db)).take b) q.id
    rcases lineQuantity_of_nodup _ q.id hnd with h0 | ⟨l, hl, hid, hqty⟩
    · rw [h0]; simpa using hnonneg q hq
    · obtain ⟨item, hitem, rfl⟩ := List.mem_map.mp (hsub.subset hl)
      obtain ⟨p2, hp2, hle⟩ := hvalid item hitem
      have hfound := getProduct_of_mem db q hpk hq
      have hid2 : item.product_id = q.id := hid
      rw [hid2, hfound] at hp2
      cases hp2
      rw [hqty]
      have : (saleLine db item).quantity = item.quantity := rfl
      omega

/-! ## C7: an empty item list -/

/-- C7, counterexample. The request with `items = []` on the one-product store is answered
201, not with an error, and a `sales` row is created. -/
theorem createSale_empty_items_posts :
    (requestOf []).items.length = 0 ∧
      (createSale noFault oneProductStore (requestOf [])).1
        = ⟨201, .sale 1 0 "cash" []⟩ ∧
      (createSale noFault oneProductStore (requestOf [])).2.sales
        = [⟨1, 0, "cash", 1, 0⟩] := by
  refine ⟨rfl, ?_, ?_⟩ <;>
    simp [createSale, validateItems, commitItems, noFault, requestOf, oneProductStore,
      Store.empty, Store.insertSale]

/-- C7, amended. For a request whose item list is empty, `createSale` (no storage failure)
answers 201 with `total_amount = 0` and no items; it inserts one `sales` row with total 0
and writes nothing else: no `sale_items` row, no stock change. -/
theorem createSale_empty_items (db : Store) (req : SaleRequest) (hempty : req.items = []) :
    (createSale noFault db req).1
        = ⟨201, .sale (db.sales_seq + 1) 0 (req.payment_method.getD "cash") []⟩ ∧
      (createSale noFault db req).2.sales
        = db.sales ++ [⟨db.sales_seq + 1, 0, req.payment_method.getD "cash", req.user_id,
            db.clock⟩] ∧
      (createSale noFault db req).2.sale_items = db.sale_items ∧
      (createSale noFault db req).2.products = db.products := by
  simp [createSale, hempty, validateItems, commitItems, noFault, Store.insertSale]

/-- Witness of the amended C7 on the one-product store. -/
theorem createSale_empty_items_witness :
    (createSale noFault oneProductStore (requestOf [])).1
        = ⟨201, .sale (oneProductStore.sales_seq + 1) 0
            ((requestOf []).payment_method.getD "cash") []⟩ ∧
      (createSale noFault oneProductStore (requestOf [])).2.sales
        = oneProductStore.sales ++ [⟨oneProductStore.sales_seq + 1, 0,
            (requestOf []).payment_method.getD "cash", (requestOf []).user_id,
            oneProductStore.clock⟩] ∧
      (createSale noFault oneProductStore (requestOf [])).2.sale_items
        = oneProductStore.sale_items ∧
      (createSale noFault oneProductStore (requestOf [])).2.products
        = oneProductStore.products :=
  createSale_empty_items oneProductStore (requestOf []) rfl

/-! ## C8: non-positive quantities -/

/-- Every request line has its row among the rows written for the request. -/
theorem saleItemRows_mem (db : Store) (sale_id : Nat) (item : SaleRequestItem)
    (items : List SaleRequestItem) (hmem : item ∈ items) :
    ∀ seq : Nat, ∃ row ∈ saleItemRows sale_id seq (items.map (saleLine db)),
      row.sale_id = sale_id ∧ row.product_id = item.product_id ∧
        row.quantity = item.quantity := by
  induction items with
  | nil => simp at hmem
  | cons x rest ih =>
    intro seq
    rcases List.mem_cons.mp hmem with rfl | h
    · exact ⟨_, List.mem_cons_self _ _, rfl, rfl, rfl⟩
    · obtain ⟨row, hrow, hprops⟩ := ih h (seq + 1)
      exact ⟨row, List.mem_cons_of_mem _ hrow, hprops⟩

/-- C8, counterexample. The request `[(1, -2)]` on the one-product store (stock 5) has a
line with quantity below zero, yet it is answered 201, a line item with quantity `-2` is
stored and the stock rises to 7. -/
theorem createSale_negative_quantity_posts :
    (∃ item ∈ (requestOf [⟨1, -2⟩]).items, item.quantity ≤ 0) ∧
      (createSale noFault oneProductStore (requestOf [⟨1, -2⟩])).1.status = 201 ∧
      (createSale noFault oneProductStore (requestOf [⟨1, -2⟩])).2.sale_items.map
          (fun row => row.quantity) = [-2] ∧
      oneProductStore.stockOf 1 = some 5 ∧
      (createSale noFault oneProductStore (requestOf [⟨1, -2⟩])).2.stockOf 1 = some 7 := by
  decide

/-- When the lines of a request name pairwise distinct products, what the request asks of the
product of a line is the quantity of that line. -/
theorem requestedQuantity_of_mem (items : List SaleRequestItem) (x : SaleRequestItem)
    (hmem : x ∈ items) (hdistinct : (items.map (fun item => item.product_id)).Nodup) :
    requestedQuantity items x.product_id = x.quantity := by
  induction items with
  | nil => simp at hmem
  | cons y rest ih =>
    simp only [List.map_cons, List.nodup_cons, List.mem_map, not_exists, not_and] at hdistinct
    obtain ⟨hy, hrest⟩ := hdistinct
    rcases List.mem_cons.mp hmem with rfl | hx
    · have hnone : rest.filter (fun item => item.product_id == x.product_id) = [] := by
        rw [List.filter_eq_nil_iff]
        intro z hz
        have := hy z hz
        simpa using this
      simp [requestedQuantity, List.filter_cons, hnone]
    · have hne : ¬ y.product_id = x.product_id := fun e => hy x hx e.symm
      have hb : (y.product_id == x.product_id) = false := by simpa using hne
      have := ih hx hrest
      unfold requestedQuantity at this ⊢
      rw [List.filter_cons, hb]
      exact this

/-- C8, amended. `createSale` does not look at the sign of a quantity. When the lines of a
request name pairwise distinct products, some line has quantity `≤ 0` and every line names
an existing product whose stock is at least the quantity of the line, the call (no storage
failure) answers 201, stores a line item of the new sale with that non-positive quantity,
and the stock of the product of every line becomes its previous stock minus the quantity
of that line (so a negative quantity raises the stock), while every product outside the
request keeps its stock. -/
theorem createSale_nonpositive_quantity (db : Store) (req : SaleRequest)
    (item : SaleRequestItem) (hmem : item ∈ req.items) (hq : item.quantity ≤ 0)
    (hdistinct : (req.items.map (fun x => x.product_id)).Nodup)
    (hvalid : ∀ x ∈ req.items, lineValid db x) :
    (createSale noFault db req).1.status = 201 ∧
      (∃ row ∈ (createSale noFault db req).2.sale_items,
        row.sale_id = db.sales_seq + 1 ∧ row.product_id = item.product_id ∧
          row.quantity = item.quantity ∧ row.quantity ≤ 0) ∧
      (∀ x ∈ req.items, (createSale noFault db req).2.stockOf x.product_id
        = (db.stockOf x.product_id).map (fun s => s - x.quantity)) ∧
      (∀ id, (∀ x ∈ req.items, x.product_id ≠ id) →
        (createSale noFault db req).2.stockOf id = db.stockOf id) := by
  rw [createSale_of_valid db req noFault hvalid (fun _ _ => rfl)]
  refine ⟨rfl, ?_, ?_, ?_⟩
  · obtain ⟨row, hrow, h1, h2, h3⟩ :=
      saleItemRows_mem db (db.sales_seq + 1) item req.items hmem db.sale_items_seq
    refine ⟨row, ?_, h1, h2, h3, h3 ▸ hq⟩
    simp only [Store.afterLines, Store.insertSale]
    exact List.mem_append_right _ hrow
  · intro x hx
    rw [stockOf_afterLines, lineQuantity_saleLine,
      requestedQuantity_of_mem req.items x hx hdistinct]
    rfl
  · intro id hid
    rw [stockOf_afterLines, lineQuantity_saleLine, requestedQuantity_absent _ _ hid]
    simp only [Store.stockOf, Store.getProduct, Store.insertSale, sub_zero, Option.map_map]
    rfl

/-- Witness of the amended C8: `[(1, -2)]` on the one-product store. -/
theorem createSale_nonpositive_quantity_witness :
    (createSale noFault oneProductStore (requestOf [⟨1, -2⟩])).1.status = 201 ∧
      (∃ row ∈ (createSale noFault oneProductStore (requestOf [⟨1, -2⟩])).2.sale_items,
        row.sale_id = oneProductStore.sales_seq + 1 ∧
          row.product_id = (⟨1, -2⟩ : SaleRequestItem).product_id ∧
          row.quantity = (⟨1, -2⟩ : SaleRequestItem).quantity ∧ row.quantity ≤ 0) ∧
      (∀ x ∈ (requestOf [⟨1, -2⟩]).items,
        (createSale noFault oneProductStore (requestOf [⟨1, -2⟩])).2.stockOf x.product_id
          = (oneProductStore.stockOf x.product_id).map (fun s => s - x.quantity)) ∧
      (∀ id, (∀ x ∈ (requestOf [⟨1, -2⟩]).items, x.product_id ≠ id) →
        (createSale noFault oneProductStore (requestOf [⟨1, -2⟩])).2.stockOf id
          = oneProductStore.stockOf id) :=
  createSale_nonpositive_quantity oneProductStore (requestOf [⟨1, -2⟩]) ⟨1, -2⟩
    (by simp [requestOf]) (by decide) (by decide)
    (by
      intro x hm
      have : x = ⟨1, -2⟩ := by simpa [requestOf] using hm
      subst this
      exact ⟨⟨1, "P", none, 10, 5, none, none⟩, rfl, by decide⟩)

/-! ## C9: sale totals against line totals -/

/-- C9, evaluation at the failing input. `seedData` on the empty database stores four
sales; paired with the sum of the `total_price` of its `sale_items` rows, the stored
`total_amount` of the first is 319.98 against 312.98 and of the second 69.98 against 89.97
(the third and fourth agree), so a stored sale differs from the sum of its line totals. -/
theorem seedData_sale_totals (hashedPassword : String) (clock : Nat) :
    (seedData hashedPassword (Store.empty clock)).sales.map
        (fun s => (s.id, s.total_amount,
          (seedData hashedPassword (Store.empty clock)).itemsTotal s.id))
      = [(1, 319.98, 312.98), (2, 69.98, 89.97), (3, 899.99, 899.99), (4, 42.98, 42.98)] ∧
    ∃ s ∈ (seedData hashedPassword (Store.empty clock)).sales,
      s.total_amount ≠ (seedData hashedPassword (Store.empty clock)).itemsTotal s.id := by
  refine ⟨?_, ⟨1, 319.98, "cash", 1, clock⟩, ?_, ?_⟩
  · simp [seedData, Store.empty, Store.insertUser, Store.insertCategory, Store.insertProduct,
      seedCategories, seedProducts, sampleSales, seedSales, seedSaleItems, Store.insertSale,
      Store.insertSaleItem, Store.decrementStock, Store.itemsTotal, List.filter_cons]
    norm_num
  · simp [seedData, Store.empty, Store.insertUser, Store.insertCategory, Store.insertProduct,
      seedCategories, seedProducts, sampleSales, seedSales, seedSaleItems, Store.insertSale,
      Store.insertSaleItem, Store.decrementStock]
  · simp [seedData, Store.empty, Store.insertUser, Store.insertCategory, Store.insertProduct,
      seedCategories, seedProducts, sampleSales, seedSales, seedSaleItems, Store.insertSale,
      Store.insertSaleItem, Store.decrementStock, Store.itemsTotal, List.filter_cons]
    norm_num

/-- The part of C9 that holds: when no `sale_items` row already carries the id the new sale
will get, a successful `createSale` stores a sale whose `total_amount` is the sum of the
`total_price` of its line items. -/
theorem createSale_total_eq_itemsTotal (db : Store) (req : SaleRequest) (fault : Nat → Bool)
    (hfresh : ∀ row ∈ db.sale_items, row.sale_id ≠ db.sales_seq + 1)
    (hok : (createSale fault db req).1.status = 201) :
    ∃ s ∈ (createSale fault db req).2.sales,
      s.id = db.sales_seq + 1 ∧
        s.total_amount = (createSale fault db req).2.itemsTotal s.id := by
  obtain ⟨hvalid, hfault⟩ := createSale_success_inv db req fault hok
  rw [createSale_of_valid db req fault hvalid hfault]
  refine ⟨⟨db.sales_seq + 1, requestTotal db req.items, req.payment_method.getD "cash",
    req.user_id, db.clock⟩, ?_, rfl, ?_⟩
  · simp [Store.afterLines, Store.insertSale]
  · have hold : db.sale_items.filter (fun r => r.sale_id == db.sales_seq + 1) = [] := by
      rw [List.filter_eq_nil_iff]
      intro row hrow
      simpa using hfresh row hrow
    have hnew : ∀ (items : List SaleRequestItem) (seq : Nat),
        (((saleItemRows (db.sales_seq + 1) seq (items.map (saleLine db))).filter
          (fun r => r.sale_id == db.sales_seq + 1)).map (fun r => r.total_price)).sum
          = requestTotal db items := by
      intro items
      induction items with
      | nil => intro seq; simp [saleItemRows, requestTotal]
      | cons x rest ih =>
        intro seq
        have := ih (seq + 1)
        simp only [requestTotal] at this ⊢
        simp [saleItemRows, List.filter_cons, saleLine, this]
    simp only [Store.itemsTotal, Store.afterLines, Store.insertSale, List.filter_append, hold,
      List.nil_append, hnew]

/-! ## Unit price snapshot and line total, in exact arithmetic -/

/-- Every row written for a list of line items copies one of them. -/
theorem saleItemRows_forall (sale_id : Nat) (lines : List SaleLine) :
    ∀ seq : Nat, ∀ row ∈ saleItemRows sale_id seq lines, ∃ l ∈ lines,
      row.product_id = l.product_id ∧ row.quantity = l.quantity ∧
        row.unit_price = l.unit_price ∧ row.total_price = l.total_price := by
  induction lines with
  | nil => intro seq row h; simp [saleItemRows] at h
  | cons l ls ih =>
    intro seq row h
    simp only [saleItemRows, List.mem_cons] at h
    rcases h with rfl | h
    · exact ⟨l, List.mem_cons_self _ _, rfl, rfl, rfl, rfl⟩
    · obtain ⟨l2, hl2, hp⟩ := ih (seq + 1) row h
      exact ⟨l2, List.mem_cons_of_mem _ hl2, hp⟩

/-- The line item of a valid request line carries the price of its product and the product of
quantity and unit price. -/
theorem saleLine_snapshot (db : Store) (items : List SaleRequestItem)
    (hvalid : ∀ item ∈ items, lineValid db item) :
    ∀ l ∈ items.map (saleLine db), ∃ p, db.getProduct l.product_id = some p ∧
      l.unit_price = p.price ∧ l.total_price = l.quantity * l.unit_price := by
  intro l hl
  obtain ⟨item, hitem, rfl⟩ := List.mem_map.mp hl
  obtain ⟨p, hp, _⟩ := hvalid item hitem
  refine ⟨p, hp, ?_, ?_⟩
  · simp [saleLine, Store.priceOf, hp]
  · simp [saleLine, mul_comm]

/-- In exact arithmetic: whenever `createSale` answers 201 (under any pattern of storage
failures), the returned items are the request lines in order, each with `unit_price` the
price of its product as the lookup on the store read it and
`total_price = quantity * unit_price`; the `sale_items` rows appended to the store carry the
same values. -/
theorem createSale_line_snapshot (db : Store) (req : SaleRequest) (fault : Nat → Bool)
    (hok : (createSale fault db req).1.status = 201) :
    (createSale fault db req).1.body
        = .sale (db.sales_seq + 1) (requestTotal db req.items)
            (req.payment_method.getD "cash") (req.items.map (saleLine db)) ∧
      (createSale fault db req).2.sale_items
        = db.sale_items ++ saleItemRows (db.sales_seq + 1) db.sale_items_seq
            (req.items.map (saleLine db)) ∧
      (∀ l ∈ req.items.map (saleLine db), ∃ p, db.getProduct l.product_id = some p ∧
        l.unit_price = p.price ∧ l.total_price = l.quantity * l.unit_price) ∧
      (∀ row ∈ saleItemRows (db.sales_seq + 1) db.sale_items_seq
          (req.items.map (saleLine db)),
        ∃ p, db.getProduct row.product_id = some p ∧
          row.unit_price = p.price ∧ row.total_price = row.quantity * row.unit_price) := by
  obtain ⟨hvalid, hfault⟩ := createSale_success_inv db req fault hok
  rw [createSale_of_valid db req fault hvalid hfault]
  refine ⟨rfl, rfl, saleLine_snapshot db req.items hvalid, ?_⟩
  intro row hrow
  obtain ⟨l, hl, h1, h2, h3, h4⟩ := saleItemRows_forall _ _ _ row hrow
  obtain ⟨p, hp, hu, ht⟩ := saleLine_snapshot db req.items hvalid l hl
  exact ⟨p, h1 ▸ hp, h3 ▸ hu, by rw [h4, h2, h3]; exact ht⟩

/-- An instance: the request `[(1, 3)]` on the one-product store is answered 201. -/
theorem createSale_line_snapshot_witness :
    (createSale noFault oneProductStore (requestOf [⟨1, 3⟩])).1.body
        = .sale (oneProductStore.sales_seq + 1)
            (requestTotal oneProductStore (requestOf [⟨1, 3⟩]).items)
            ((requestOf [⟨1, 3⟩]).payment_method.getD "cash")
            ((requestOf [⟨1, 3⟩]).items.map (saleLine oneProductStore)) ∧
      (createSale noFault oneProductStore (requestOf [⟨1, 3⟩])).2.sale_items
        = oneProductStore.sale_items ++ saleItemRows (oneProductStore.sales_seq + 1)
            oneProductStore.sale_items_seq
            ((requestOf [⟨1, 3⟩]).items.map (saleLine oneProductStore)) ∧
      (∀ l ∈ (requestOf [⟨1, 3⟩]).items.map (saleLine oneProductStore),
        ∃ p, oneProductStore.getProduct l.product_id = some p ∧
          l.unit_price = p.price ∧ l.total_price = l.quantity * l.unit_price) ∧
      (∀ row ∈ saleItemRows (oneProductStore.sales_seq + 1) oneProductStore.sale_items_seq
          ((requestOf [⟨1, 3⟩]).items.map (saleLine oneProductStore)),
        ∃ p, oneProductStore.getProduct row.product_id = some p ∧
          row.unit_price = p.price ∧ row.total_price = row.quantity * row.unit_price) :=
  createSale_line_snapshot oneProductStore (requestOf [⟨1, 3⟩]) noFault (by decide)

/-! ## C11: rows written and response of a successful posting -/

/-- The rows written for a list of lines are as many as the lines and all carry the id of
the sale. -/
theorem saleItemRows_length_sale_id (sale_id : Nat) (lines : List SaleLine) :
    ∀ seq : Nat, (saleItemRows sale_id seq lines).length = lines.length ∧
      ∀ row ∈ saleItemRows sale_id seq lines, row.sale_id = sale_id := by
  induction lines with
  | nil => intro seq; simp [saleItemRows]
  | cons l ls ih =>
    intro seq
    obtain ⟨hlen, hall⟩ := ih (seq + 1)
    refine ⟨by simp [saleItemRows, hlen], ?_⟩
    intro row hrow
    simp only [saleItemRows, List.mem_cons] at hrow
    rcases hrow with rfl | hrow
    · rfl
    · exact hall row hrow

/-- C11. Whenever `createSale` answers 201 for a request with `n` lines, the `sales` table
has grown by exactly one row, whose id is the new sequence value, the `sale_items` table has
grown by exactly `n` rows that all reference that id, and the response carries that id, the
total stored on the row and `n` items that repeat, in request order, the `product_id` and
`quantity` of each request line. -/
theorem createSale_rows_and_response (db : Store) (req : SaleRequest) (fault : Nat → Bool)
    (hok : (createSale fault db req).1.status = 201) :
    (createSale fault db req).2.sales
        = db.sales ++ [⟨db.sales_seq + 1, requestTotal db req.items,
            req.payment_method.getD "cash", req.user_id, db.clock⟩] ∧
      ∃ rows lines,
        (createSale fault db req).2.sale_items = db.sale_items ++ rows ∧
        rows.length = req.items.length ∧
        (∀ row ∈ rows, row.sale_id = db.sales_seq + 1) ∧
        (createSale fault db req).1.body
          = .sale (db.sales_seq + 1) (requestTotal db req.items)
              (req.payment_method.getD "cash") lines ∧
        lines.map (fun l => (l.product_id, l.quantity))
          = req.items.map (fun item => (item.product_id, item.quantity)) := by
  obtain ⟨hvalid, hfault⟩ := createSale_success_inv db req fault hok
  rw [createSale_of_valid db req fault hvalid hfault]
  obtain ⟨hlen, hall⟩ := saleItemRows_length_sale_id (db.sales_seq + 1)
    (req.items.map (saleLine db)) db.sale_items_seq
  refine ⟨rfl, _, req.items.map (saleLine db), rfl, ?_, hall, rfl, ?_⟩
  · exact hlen.trans (List.length_map _ _)
  · simp [List.map_map, Function.comp, saleLine]

/-- Witness of C11: the request `[(1, 3)]` on the one-product store is answered 201. -/
theorem createSale_rows_and_response_witness :
    (createSale noFault oneProductStore (requestOf [⟨1, 3⟩])).2.sales
        = oneProductStore.sales ++ [⟨oneProductStore.sales_seq + 1,
            requestTotal oneProductStore (requestOf [⟨1, 3⟩]).items,
            (requestOf [⟨1, 3⟩]).payment_method.getD "cash", (requestOf [⟨1, 3⟩]).user_id,
            oneProductStore.clock⟩] ∧
      ∃ rows lines,
        (createSale noFault oneProductStore (requestOf [⟨1, 3⟩])).2.sale_items
          = oneProductStore.sale_items ++ rows ∧
        rows.length = (requestOf [⟨1, 3⟩]).items.length ∧
        (∀ row ∈ rows, row.sale_id = oneProductStore.sales_seq + 1) ∧
        (createSale noFault oneProductStore (requestOf [⟨1, 3⟩])).1.body
          = .sale (oneProductStore.sales_seq + 1)
              (requestTotal oneProductStore (requestOf [⟨1, 3⟩]).items)
              ((requestOf [⟨1, 3⟩]).payment_method.getD "cash") lines ∧
        lines.map (fun l => (l.product_id, l.quantity))
          = (requestOf [⟨1, 3⟩]).items.map (fun item => (item.product_id, item.quantity)) :=
  createSale_rows_and_response oneProductStore (requestOf [⟨1, 3⟩]) noFault (by decide)

/-! ## C12: a failing request posted twice -/

/-- A request with a line that is not valid is rejected by the validation loop. -/
theorem validateItems_of_invalid (db : Store) (items : List SaleRequestItem)
    (hbad : ∃ item ∈ items, ¬ lineValid db item) :
    ∃ r, validateItems db noFault 0 items 0 [] = .rejected r ∧ r.status = 400 := by
  obtain ⟨item, hmem, hinv⟩ := hbad
  obtain ⟨pre, post, rfl⟩ := List.append_of_mem hmem
  cases hp : db.getProduct item.product_id with
  | none =>
    obtain ⟨r, hr, hs, _⟩ := validateItems_unknown db pre post item hp 0 0 []
    exact ⟨r, hr, hs⟩
  | some p =>
    have hlt : p.stock < item.quantity := by
      by_contra hge
      exact hinv ⟨p, hp, not_lt.mp hge⟩
    obtain ⟨r, hr, hs, _⟩ := validateItems_insufficient db pre post item p hp hlt 0 0 []
    exact ⟨r, hr, hs⟩

/-- C12. When a request fails validation on a store (some line names an unknown product or
asks more than the stock), `createSale` answers with a 400 error and leaves the store as it
was; posting the same request again on the resulting store gives the same response and again
the same store. -/
theorem createSale_failure_idempotent (db : Store) (req : SaleRequest)
    (hbad : ∃ item ∈ req.items, ¬ lineValid db item) :
    (createSale noFault db req).1.status = 400 ∧
      (createSale noFault db req).2 = db ∧
      createSale noFault (createSale noFault db req).2 req = createSale noFault db req ∧
      (createSale noFault (createSale noFault db req).2 req).2 = db := by
  obtain ⟨r, hr, hs⟩ := validateItems_of_invalid db req.items hbad
  have h := createSale_of_rejected db req noFault r hr
  rw [h]
  exact ⟨hs, rfl, h, congrArg Prod.snd h⟩

/-- Witness of C12: `[(1, 6)]` asks more than the stock 5 of the one-product store. -/
theorem createSale_failure_idempotent_witness :
    (createSale noFault oneProductStore (requestOf [⟨1, 6⟩])).1.status = 400 ∧
      (createSale noFault oneProductStore (requestOf [⟨1, 6⟩])).2 = oneProductStore ∧
      createSale noFault (createSale noFault oneProductStore (requestOf [⟨1, 6⟩])).2
          (requestOf [⟨1, 6⟩])
        = createSale noFault oneProductStore (requestOf [⟨1, 6⟩]) ∧
      (createSale noFault (createSale noFault oneProductStore (requestOf [⟨1, 6⟩])).2
          (requestOf [⟨1, 6⟩])).2 = oneProductStore :=
  createSale_failure_idempotent oneProductStore (requestOf [⟨1, 6⟩])
    ⟨⟨1, 6⟩, by simp [requestOf], by
      rintro ⟨p, hp, hle⟩
      have : p = ⟨1, "P", none, 10, 5, none, none⟩ := by
        have h2 : oneProductStore.getProduct 1 = some ⟨1, "P", none, 10, 5, none, none⟩ := rfl
        rw [h2] at hp
        exact (Option.some.inj hp).symm
      subst this
      exact absurd hle (by decide)⟩

/-! ## C13: the worked example -/

/-- C13. On the seeded `products` table, product 1 has price 299.99 and stock 50 and
product 5 has price 12.99 and stock 200; the request `[(1, 1), (5, 1)]` is answered 201 with
`total_amount = 312.98` and leaves the two stocks at 49 and 199. -/
theorem createSale_worked_example :
    seededProductsStore.priceOf 1 = 299.99 ∧ seededProductsStore.stockOf 1 = some 50 ∧
      seededProductsStore.priceOf 5 = 12.99 ∧ seededProductsStore.stockOf 5 = some 200 ∧
      (createSale noFault seededProductsStore (requestOf [⟨1, 1⟩, ⟨5, 1⟩])).1
        = ⟨201, .sale 1 312.98 "cash" [⟨1, 1, 299.99, 299.99⟩, ⟨5, 1, 12.99, 12.99⟩]⟩ ∧
      (createSale noFault seededProductsStore (requestOf [⟨1, 1⟩, ⟨5, 1⟩])).2.stockOf 1
        = some 49 ∧
      (createSale noFault seededProductsStore (requestOf [⟨1, 1⟩, ⟨5, 1⟩])).2.stockOf 5
        = some 199 ∧
      (createSale noFault seededProductsStore (requestOf [⟨1, 1⟩, ⟨5, 1⟩])).2.sales
        = [⟨1, 312.98, "cash", 1, 0⟩] := by
  refine ⟨?_, ?_, ?_, ?_, ?_, ?_, ?_, ?_⟩ <;>
    simp [createSale, validateItems, commitItems, noFault, requestOf, seededProductsStore,
      seedProducts, Store.empty, Store.insertProduct, Store.insertSale, Store.insertSaleItem,
      Store.decrementStock, Store.getProduct, Store.priceOf, Store.stockOf] <;>
    norm_num

/-! ## C14: what the validation errors tell the caller -/

/-- Valid lines at the head of a request only advance the accumulators of the validation
loop. -/
theorem validateItems_append_valid (db : Store) (pre rest : List SaleRequestItem)
    (hvalid : ∀ x ∈ pre, lineValid db x) :
    ∀ (k : Nat) (total : ℚ) (acc : List SaleLine),
      validateItems db noFault k (pre ++ rest) total acc
        = validateItems db noFault (k + pre.length) rest (total + requestTotal db pre)
            (acc ++ pre.map (saleLine db)) := by
  induction pre with
  | nil => intro k total acc; simp [requestTotal]
  | cons x pre ih =>
    intro k total acc
    obtain ⟨p, hp, hle⟩ := hvalid x (List.mem_cons_self _ _)
    have hprice : db.priceOf x.product_id = p.price := by simp [Store.priceOf, hp]
    rw [List.cons_append, validateItems]
    simp only [noFault, hp, not_lt.mpr hle, Bool.false_eq_true, if_false]
    have hih := ih (fun y hy => hvalid y (List.mem_cons_of_mem _ hy)) (k + 1)
      (total + p.price * x.quantity)
      (acc ++ [⟨x.product_id, x.quantity, p.price, p.price * x.quantity⟩])
    simp only [noFault] at hih
    rw [hih]
    simp [requestTotal, saleLine, hprice, add_assoc, Nat.add_assoc, Nat.add_comm 1]

/-- C14, counterexample. Product 1 of the one-product store (stock 5) asked 6 times and
product 2 of the twin store (stock 7) asked 9 times are both refused with the very same
response, `Insufficient stock for P`: the response determines neither the product id nor
the requested quantity nor the available stock. -/
theorem createSale_insufficient_message_same :
    (createSale noFault oneProductStore (requestOf [⟨1, 6⟩])).1
        = ⟨400, .message "Insufficient stock for P"⟩ ∧
      (createSale noFault twinProductStore (requestOf [⟨2, 9⟩])).1
        = (createSale noFault oneProductStore (requestOf [⟨1, 6⟩])).1 ∧
      oneProductStore.stockOf 1 = some 5 ∧ twinProductStore.stockOf 2 = some 7 ∧
      (1 : Nat) ≠ 2 ∧ (6 : Int) ≠ 9 ∧ (5 : Int) ≠ 7 := by
  decide

/-- C14, amended. Let the lines before `item` be valid. If the product of `item` exists with
stock below the requested quantity, the response is 400 with the message
`Insufficient stock for` followed by the name of that product, and nothing else; if the
product id of `item` has no row, the response is 400 with the message `Product with ID`,
the id, `not found`. -/
theorem createSale_validation_messages (db : Store) (req : SaleRequest)
    (pre post : List SaleRequestItem) (item : SaleRequestItem)
    (hitems : req.items = pre ++ item :: post)
    (hpre : ∀ x ∈ pre, lineValid db x) :
    (∀ p, db.getProduct item.product_id = some p → p.stock < item.quantity →
        (createSale noFault db req).1
          = ⟨400, .message ("Insufficient stock for " ++ p.name)⟩) ∧
      (db.getProduct item.product_id = none →
        (createSale noFault db req).1
          = ⟨400, .message ("Product with ID " ++ toString item.product_id ++ " not found")⟩) := by
  have happ := validateItems_append_valid db pre (item :: post) hpre 0 0 []
  rw [← hitems] at happ
  refine ⟨fun p hp hlt => ?_, fun hp => ?_⟩
  · have hr : validateItems db noFault 0 req.items 0 []
        = .rejected ⟨400, .message ("Insufficient stock for " ++ p.name)⟩ := by
      rw [happ, validateItems]
      simp [noFault, hp, hlt]
    rw [createSale_of_rejected db req noFault _ hr]
  · have hr : validateItems db noFault 0 req.items 0 []
        = .rejected ⟨400, .message ("Product with ID " ++ toString item.product_id ++ " not found")⟩ := by
      rw [happ, validateItems]
      simp [noFault, hp]
    rw [createSale_of_rejected db req noFault _ hr]

/-- Witness of the amended C14: `[(1, 3), (1, 6)]` on the one-product store. -/
theorem createSale_validation_messages_witness :
    (∀ p, oneProductStore.getProduct (⟨1, 6⟩ : SaleRequestItem).product_id = some p →
        p.stock < (⟨1, 6⟩ : SaleRequestItem).quantity →
        (createSale noFault oneProductStore (requestOf [⟨1, 3⟩, ⟨1, 6⟩])).1
          = ⟨400, .message ("Insufficient stock for " ++ p.name)⟩) ∧
      (oneProductStore.getProduct (⟨1, 6⟩ : SaleRequestItem).product_id = none →
        (createSale noFault oneProductStore (requestOf [⟨1, 3⟩, ⟨1, 6⟩])).1
          = ⟨400, .message ("Product with ID " ++
              toString (⟨1, 6⟩ : SaleRequestItem).product_id ++ " not found")⟩) :=
  createSale_validation_messages oneProductStore (requestOf [⟨1, 3⟩, ⟨1, 6⟩]) [⟨1, 3⟩] []
    ⟨1, 6⟩ rfl (by
      intro x hm
      have : x = ⟨1, 3⟩ := by simpa using hm
      subst this
      exact ⟨⟨1, "P", none, 10, 5, none, none⟩, rfl, by decide⟩)

/-! ## C15: which routes are behind `authenticateToken` -/

/-- When `authenticateToken` calls `next()`, the header carried a non-empty token that
`verifyToken` accepted, and `req.user` is the decoded payload. -/
theorem authenticateToken_next (verifyToken : String → Option UserInfo)
    (authHeader : Option String) (user : UserInfo)
    (h : authenticateToken verifyToken authHeader = .next user) :
    ∃ token, bearerToken authHeader = some token ∧ token ≠ "" ∧
      verifyToken token = some user := by
  unfold authenticateToken at h
  cases hb : bearerToken authHeader with
  | none => simp [hb] at h
  | some token =>
    simp only [hb] at h
    by_cases ht : token = ""
    · simp [ht] at h
    · simp only [ht, if_false] at h
      cases hv : verifyToken token with
      | none => simp [hv] at h
      | some decoded =>
        simp only [hv, AuthOutcome.next.injEq] at h
        exact ⟨token, rfl, ht, h ▸ hv⟩

/-- Every registration other than login and register has `authenticateToken` in front. -/
theorem setupRoutes_middleware :
    ∀ route ∈ setupRoutes, route.handler ≠ .login → route.handler ≠ .register →
      route.middleware = [.authenticateToken] := by
  decide

/-- C15, counterexample. `POST /api/auth/register` is registered in `setupRoutes` with no
middleware: on a request without `Authorization` header its handler is invoked with no
`req.user`, although no token was accepted. -/
theorem register_route_not_gated :
    (⟨.POST, "/api/auth/register", [], .register⟩ : Route) ∈ setupRoutes ∧
      Route.dispatch (fun _ => none) ⟨.POST, "/api/auth/register", [], .register⟩ none
        = .invoked .register none ∧
      authenticateToken (fun _ => none) none
        = .respond ⟨401, .message "Access token required"⟩ := by
  decide

/-- C15, amended. For every POST, PUT or DELETE route registered in `setupRoutes` other than
the two auth entry points `login` and `register`, the handler is invoked only when
`authenticateToken` has accepted a token: the `Authorization` header has a non-empty second
segment that `verifyToken` decodes, and `req.user` is the decoded payload. -/
theorem setupRoutes_mutating_gated (verifyToken : String → Option UserInfo) (route : Route)
    (authHeader : Option String) (handler : Handler) (user : Option UserInfo)
    (hmem : route ∈ setupRoutes) (_hmut : route.method ≠ .GET)
    (hlogin : route.handler ≠ .login) (hregister : route.handler ≠ .register)
    (hrun : route.dispatch verifyToken authHeader = .invoked handler user) :
    handler = route.handler ∧
      ∃ token decoded, bearerToken authHeader = some token ∧ token ≠ "" ∧
        verifyToken token = some decoded ∧ user = some decoded := by
  have hmw := setupRoutes_middleware route hmem hlogin hregister
  unfold Route.dispatch at hrun
  rw [hmw] at hrun
  simp only [runMiddleware] at hrun
  cases ha : authenticateToken verifyToken authHeader with
  | respond r => simp [ha] at hrun
  | next decoded =>
    simp only [ha, Dispatch.invoked.injEq] at hrun
    obtain ⟨token, hb, hne, hv⟩ := authenticateToken_next verifyToken authHeader decoded ha
    exact ⟨hrun.1.symm, token, decoded, hb, hne, hv, hrun.2.symm⟩

/-- Witness of the amended C15: `POST /api/sales` with the header `Bearer good`. -/
theorem setupRoutes_mutating_gated_witness :
    Handler.createSale
        = (⟨.POST, "/api/sales", [.authenticateToken], .createSale⟩ : Route).handler ∧
      ∃ token decoded, bearerToken (some "Bearer good") = some token ∧ token ≠ "" ∧
        sampleVerify token = some decoded ∧
        some (⟨7, "clerk@pos.com", "Clerk", "admin"⟩ : UserInfo) = some decoded :=
  setupRoutes_mutating_gated sampleVerify ⟨.POST, "/api/sales", [.authenticateToken], .createSale⟩
    (some "Bearer good") .createSale (some ⟨7, "clerk@pos.com", "Clerk", "admin"⟩)
    (by decide) (by decide) (by decide) (by decide) (by decide)

/-! ## C16: the user reference of a sale -/

/-- C16. Whenever `POST /api/sales` is answered 201, the request carried a token that
`verifyToken` decoded, the one `sales` row added has `user_id` equal to the `id` of the
decoded payload, and the outcome is the same whatever `user_id` the body carries. -/
theorem postSale_user_reference (verifyToken : String → Option UserInfo)
    (fault : Nat → Bool) (db : Store) (authHeader : Option String) (body : SaleBody)
    (hok : (postSale verifyToken fault db authHeader body).1.status = 201) :
    (∃ token decoded, bearerToken authHeader = some token ∧
        verifyToken token = some decoded ∧
        (postSale verifyToken fault db authHeader body).2.sales
          = db.sales ++ [⟨db.sales_seq + 1, requestTotal db body.items,
              body.payment_method.getD "cash", decoded.id, db.clock⟩]) ∧
      ∀ uid, postSale verifyToken fault db authHeader { body with user_id := uid }
        = postSale verifyToken fault db authHeader body := by
  refine ⟨?_, fun uid => rfl⟩
  unfold postSale Route.dispatch at hok ⊢
  simp only [runMiddleware] at hok ⊢
  cases ha : authenticateToken verifyToken authHeader with
  | respond r =>
    exfalso
    simp only [ha] at hok
    unfold authenticateToken at ha
    cases hb : bearerToken authHeader with
    | none => simp only [hb, AuthOutcome.respond.injEq] at ha; rw [← ha] at hok; simp at hok
    | some token =>
      simp only [hb] at ha
      by_cases ht : token = ""
      · simp only [ht, if_true, AuthOutcome.respond.injEq] at ha; rw [← ha] at hok; simp at hok
      · simp only [ht, if_false] at ha
        cases hv : verifyToken token with
        | none => simp only [hv, AuthOutcome.respond.injEq] at ha; rw [← ha] at hok; simp at hok
        | some decoded => simp [hv] at ha
  | next decoded =>
    simp only [ha] at hok ⊢
    obtain ⟨token, hb, _, hv⟩ := authenticateToken_next verifyToken authHeader decoded ha
    obtain ⟨hvalid, hfault⟩ := createSale_success_inv db _ fault hok
    refine ⟨token, decoded, hb, hv, ?_⟩
    rw [createSale_of_valid db _ fault hvalid hfault]
    rfl

/-- Witness of C16: principal 7 posts `[(1, 3)]` with `user_id: 99` in the body. -/
theorem postSale_user_reference_witness :
    (∃ token decoded, bearerToken (some "Bearer good") = some token ∧
        sampleVerify token = some decoded ∧
        (postSale sampleVerify noFault oneProductStore (some "Bearer good")
            ⟨[⟨1, 3⟩], none, some 99⟩).2.sales
          = oneProductStore.sales ++ [⟨oneProductStore.sales_seq + 1,
              requestTotal oneProductStore (⟨[⟨1, 3⟩], none, some 99⟩ : SaleBody).items,
              (⟨[⟨1, 3⟩], none, some 99⟩ : SaleBody).payment_method.getD "cash", decoded.id,
              oneProductStore.clock⟩]) ∧
      ∀ uid, postSale sampleVerify noFault oneProductStore (some "Bearer good")
          { (⟨[⟨1, 3⟩], none, some 99⟩ : SaleBody) with user_id := uid }
        = postSale sampleVerify noFault oneProductStore (some "Bearer good")
            ⟨[⟨1, 3⟩], none, some 99⟩ :=
  postSale_user_reference sampleVerify noFault oneProductStore (some "Bearer good")
    ⟨[⟨1, 3⟩], none, some 99⟩ (by decide)

/-! ## C17: storage failures -/

/-- The logging validation loop computes what the validation loop computes. -/
theorem validateItemsLog_fst (db : Store) (errors : Nat → Option String)
    (items : List SaleRequestItem) :
    ∀ (total : ℚ) (acc : List SaleLine) (ops : List DbOp),
      (validateItemsLog db errors items total acc ops).1
        = validateItems db (fun k => (errors k).isSome) ops.length items total acc := by
  induction items with
  | nil => intro total acc ops; rfl
  | cons item rest ih =>
    intro total acc ops
    rw [validateItemsLog, validateItems]
    cases he : errors ops.length with
    | some e => simp [he]
    | none =>
      simp only [he, Option.isSome_none, Bool.false_eq_true, if_false]
      cases hp : db.getProduct item.product_id with
      | none => rfl
      | some p =>
        by_cases hlt : p.stock < item.quantity
        · simp [hlt]
        · simp only [hlt, if_false]
          rw [ih]
          simp

/-- The logging commit loop computes what the commit loop computes. -/
theorem commitItemsLog_fst (errors : Nat → Option String) (sale_id : Nat)
    (lines : List SaleLine) :
    ∀ (db : Store) (ops : List DbOp),
      ((commitItemsLog errors sale_id db lines ops).1,
          (commitItemsLog errors sale_id db lines ops).2.1)
        = commitItems (fun k => (errors k).isSome) sale_id ops.length db lines := by
  induction lines with
  | nil => intro db ops; rfl
  | cons l ls ih =>
    intro db ops
    rw [commitItemsLog, commitItems]
    cases he : errors ops.length with
    | some e => simp [he]
    | none =>
      simp only [he, Option.isSome_none, Bool.false_eq_true, if_false, List.length_append,
        List.length_singleton]
      cases he1 : errors (ops.length + 1) with
      | some e => simp [he1]
      | none =>
        simp only [he1, Option.isSome_none, Bool.false_eq_true, if_false]
        rw [ih]
        simp [Nat.add_assoc]

/-- In the log of the validation loop a rejected operation is the last entry, the loop
threw, and the error thrown is the error of that operation. -/
theorem validateItemsLog_failure (db : Store) (errors : Nat → Option String)
    (items : List SaleRequestItem) :
    ∀ (total : ℚ) (acc : List SaleLine) (ops : List DbOp),
      (∀ i, i < ops.length → errors i = none) →
      ∀ i, i < (validateItemsLog db errors items total acc ops).2.1.length →
        (errors i).isSome →
        i + 1 = (validateItemsLog db errors items total acc ops).2.1.length ∧
          (validateItemsLog db errors items total acc ops).1 = .threw ∧
          (validateItemsLog db errors items total acc ops).2.2 = errors i := by
  induction items with
  | nil =>
    intro total acc ops hpre i hi he
    simp only [validateItemsLog] at hi
    simp [hpre i hi] at he
  | cons item rest ih =>
    intro total acc ops hpre i hi he
    rw [validateItemsLog] at hi ⊢
    have hstep : ∀ j, j < (ops ++ [DbOp.selectProduct item.product_id]).length →
        (errors j).isSome → j = ops.length := by
      intro j hj hje
      simp only [List.length_append, List.length_singleton] at hj
      by_contra hne
      have : j < ops.length := by omega
      simp [hpre j this] at hje
    cases hn : errors ops.length with
    | some e =>
      simp only [hn] at hi ⊢
      have := hstep i hi he
      subst this
      simp [hn]
    | none =>
      simp only [hn] at hi ⊢
      have hpre1 : ∀ j, j < (ops ++ [DbOp.selectProduct item.product_id]).length →
          errors j = none := by
        intro j hj
        cases hje : errors j with
        | none => rfl
        | some e =>
          have := hstep j hj (by simp [hje])
          rw [this, hn] at hje
          exact absurd hje (by simp)
      cases hp : db.getProduct item.product_id with
      | none =>
        simp only [hp] at hi
        simp [hpre1 i hi] at he
      | some p =>
        simp only [hp] at hi ⊢
        by_cases hlt : p.stock < item.quantity
        · simp only [hlt, if_true] at hi
          simp [hpre1 i hi] at he
        · simp only [hlt, if_false] at hi ⊢
          exact ih _ _ _ hpre1 i hi he

/-- In the log of the commit loop a rejected operation is the last entry, the loop did not
complete, and the error thrown is the error of that operation. -/
theorem commitItemsLog_failure (errors : Nat → Option String) (sale_id : Nat)
    (lines : List SaleLine) :
    ∀ (db : Store) (ops : List DbOp),
      (∀ i, i < ops.length → errors i = none) →
      ∀ i, i < (commitItemsLog errors sale_id db lines ops).2.2.1.length →
        (errors i).isSome →
        i + 1 = (commitItemsLog errors sale_id db lines ops).2.2.1.length ∧
          (commitItemsLog errors sale_id db lines ops).1 = false ∧
          (commitItemsLog errors sale_id db lines ops).2.2.2 = errors i := by
  induction lines with
  | nil =>
    intro db ops hpre i hi he
    simp only [commitItemsLog] at hi
    simp [hpre i hi] at he
  | cons l ls ih =>
    intro db ops hpre i hi he
    rw [commitItemsLog] at hi ⊢
    cases hn : errors ops.length with
    | some e =>
      simp only [hn, List.length_append, List.length_singleton] at hi ⊢
      have hio : i = ops.length := by
        by_contra hne
        have : i < ops.length := by omega
        simp [hpre i this] at he
      subst hio
      simp [hn]
    | none =>
      simp only [hn] at hi ⊢
      have hpre1 : ∀ j, j < ops.length + 1 → errors j = none := by
        intro j hj
        by_cases hjo : j = ops.length
        · rw [hjo]; exact hn
        · exact hpre j (by omega)
      have hlen : (ops ++ [DbOp.insertSaleItem sale_id l.product_id l.quantity
          l.unit_price l.total_price]).length = ops.length + 1 := by simp
      rw [hlen] at hi ⊢
      cases hn1 : errors (ops.length + 1) with
      | some e =>
        simp only [hn1, List.length_append, List.length_singleton] at hi ⊢
        have hio : i = ops.length + 1 := by
          by_contra hne
          have : i < ops.length + 1 := by omega
          simp [hpre1 i this] at he
        subst hio
        simp [hn1]
      | none =>
        simp only [hn1] at hi ⊢
        refine ih _ _ ?_ i hi he
        intro j hj
        simp only [List.length_append, List.length_singleton] at hj
        by_cases hjo : j = ops.length + 1
        · rw [hjo]; exact hn1
        · exact hpre1 j (by omega)
/-- When the logging validation loop ends well it has issued one lookup per line. -/
theorem validateItemsLog_ok_length (db : Store) (errors : Nat → Option String)
    (items : List SaleRequestItem) :
    ∀ (total : ℚ) (acc : List SaleLine) (ops : List DbOp) (total2 : ℚ)
      (lines : List SaleLine),
      (validateItemsLog db errors items total acc ops).1 = .ok total2 lines →
      (validateItemsLog db errors items total acc ops).2.1.length
        = ops.length + items.length := by
  induction items with
  | nil => intro total acc ops total2 lines _; simp [validateItemsLog]
  | cons item rest ih =>
    intro total acc ops total2 lines h
    rw [validateItemsLog] at h ⊢
    cases hn : errors ops.length with
    | some e => simp [hn] at h
    | none =>
      simp only [hn] at h ⊢
      cases hp : db.getProduct item.product_id with
      | none => simp [hp] at h
      | some p =>
        simp only [hp] at h ⊢
        by_cases hlt : p.stock < item.quantity
        · simp [hlt] at h
        · simp only [hlt, if_false] at h ⊢
          rw [ih _ _ _ _ _ h]
          simp [Nat.add_assoc, Nat.add_comm 1]

/-- The logging `createSale` answers and writes exactly as `createSale` does when the
operations that reject are those with an error. -/
theorem createSaleLog_eq_createSale (errors : Nat → Option String) (db : Store)
    (req : SaleRequest) :
    ((createSaleLog errors db req).response, (createSaleLog errors db req).store)
      = createSale (fun k => (errors k).isSome) db req := by
  unfold createSaleLog createSale
  have hv := validateItemsLog_fst db errors req.items 0 [] []
  have hl := validateItemsLog_ok_length db errors req.items 0 [] []
  rcases hr : validateItemsLog db errors req.items 0 [] [] with ⟨v, ops, err⟩
  rw [hr] at hv hl
  simp only [List.length_nil] at hv hl
  rw [← hv]
  cases v with
  | threw => rfl
  | rejected r => rfl
  | ok total lines =>
    have hlen : ops.length = req.items.length := by
      simpa using hl total lines rfl
    simp only [hlen]
    cases hn : errors req.items.length with
    | some e => simp
    | none =>
      simp only [Option.isSome_none, Bool.false_eq_true, if_false]
      have hc := commitItemsLog_fst errors (db.sales_seq + 1) lines
        (db.insertSale total (req.payment_method.getD "cash") req.user_id).1
        (ops ++ [DbOp.insertSale total (req.payment_method.getD "cash") req.user_id])
      simp only [List.length_append, List.length_singleton, hlen] at hc
      simp only [Store.insertSale] at hc ⊢
      rw [← hc]
      rcases hcl : commitItemsLog errors (db.sales_seq + 1)
          { db with
            sales := db.sales ++ [⟨db.sales_seq + 1, total, req.payment_method.getD "cash",
              req.user_id, db.clock⟩],
            sales_seq := db.sales_seq + 1 } lines
          (ops ++ [DbOp.insertSale total (req.payment_method.getD "cash") req.user_id])
        with ⟨b, db2, ops2, err2⟩
      cases b <;> rfl

/-- C17. In the log of one call of `createSale`, an operation that rejected is the last
entry: it was issued once and nothing was issued after it (no retry). The response is then
status 500 with the fixed message `Failed to create sale`, whatever the error, which only
goes to `console.error`. -/
theorem createSaleLog_storage_failure (errors : Nat → Option String) (db : Store)
    (req : SaleRequest) (i : Nat)
    (hi : i < (createSaleLog errors db req).ops.length) (herr : (errors i).isSome) :
    (createSaleLog errors db req).response = ⟨500, .message "Failed to create sale"⟩ ∧
      i + 1 = (createSaleLog errors db req).ops.length ∧
      (createSaleLog errors db req).logged = errors i := by
  unfold createSaleLog at hi ⊢
  have hvf := validateItemsLog_failure db errors req.items 0 [] [] (by simp)
  have hl := validateItemsLog_ok_length db errors req.items 0 [] []
  rcases hr : validateItemsLog db errors req.items 0 [] [] with ⟨v, ops, err⟩
  rw [hr] at hvf hl
  simp only [hr] at hi ⊢
  simp only [List.length_nil, zero_add] at hl
  cases v with
  | threw =>
    simp only at hi ⊢
    obtain ⟨h1, _, h3⟩ := hvf i hi herr
    exact ⟨rfl, h1, h3⟩
  | rejected r =>
    simp only at hi
    obtain ⟨_, h2, _⟩ := hvf i hi herr
    simp at h2
  | ok total lines =>
    simp only at hi ⊢
    have hpre : ∀ j, j < ops.length → errors j = none := by
      intro j hj
      cases hje : errors j with
      | none => rfl
      | some e =>
        obtain ⟨_, h2, _⟩ := hvf j hj (by simp [hje])
        simp at h2
    cases hn : errors ops.length with
    | some e =>
      simp only [hn, List.length_append, List.length_singleton] at hi ⊢
      have hio : i = ops.length := by
        by_contra hne
        have : i < ops.length := by omega
        simp [hpre i this] at herr
      subst hio
      exact ⟨rfl, rfl, hn.symm⟩
    | none =>
      simp only [hn] at hi ⊢
      have hpre1 : ∀ j,
          j < (ops ++ [DbOp.insertSale total (req.payment_method.getD "cash")
            req.user_id]).length → errors j = none := by
        intro j hj
        simp only [List.length_append, List.length_singleton] at hj
        by_cases hjo : j = ops.length
        · rw [hjo]; exact hn
        · exact hpre j (by omega)
      have hcf := commitItemsLog_failure errors
        (db.insertSale total (req.payment_method.getD "cash") req.user_id).2 lines
        (db.insertSale total (req.payment_method.getD "cash") req.user_id).1
        (ops ++ [DbOp.insertSale total (req.payment_method.getD "cash") req.user_id])
        hpre1 i
      rcases hcl : commitItemsLog errors
          (db.insertSale total (req.payment_method.getD "cash") req.user_id).2
          (db.insertSale total (req.payment_method.getD "cash") req.user_id).1 lines
          (ops ++ [DbOp.insertSale total (req.payment_method.getD "cash") req.user_id])
        with ⟨b, db2, ops2, err2⟩
      rw [hcl] at hcf
      simp only [hcl] at hi ⊢
      cases b with
      | false =>
        simp only at hi ⊢
        obtain ⟨h1, _, h3⟩ := hcf hi herr
        exact ⟨rfl, h1, h3⟩
      | true =>
        simp only at hi
        obtain ⟨_, h2, _⟩ := hcf hi herr
        simp at h2

/-- Witness of C17: on the one-product store the `sale_items` insert of `[(1, 3)]` rejects
with an input/output error. -/
theorem createSaleLog_storage_failure_witness :
    (createSaleLog ioErrorAtTwo oneProductStore (requestOf [⟨1, 3⟩])).response
        = ⟨500, .message "Failed to create sale"⟩ ∧
      2 + 1 = (createSaleLog ioErrorAtTwo oneProductStore (requestOf [⟨1, 3⟩])).ops.length ∧
      (createSaleLog ioErrorAtTwo oneProductStore (requestOf [⟨1, 3⟩])).logged
        = ioErrorAtTwo 2 :=
  createSaleLog_storage_failure ioErrorAtTwo oneProductStore (requestOf [⟨1, 3⟩]) 2
    (by decide) (by decide)

/-! ## C18: history is not touched by product and category edits -/

/-- The product `UPDATE` changes neither `sale_items` nor `sales`. -/
theorem runUpdateProduct_frame (db db1 : Store) (id : Nat) (body : ProductBody)
    (h : db.runUpdateProduct id body = some db1) :
    db1.sale_items = db.sale_items ∧ db1.sales = db.sales := by
  unfold Store.runUpdateProduct at h
  by_cases hany : db.products.any (fun p => p.id == id) = true
  · simp only [hany, if_true] at h
    cases hn : body.name <;> cases hp : body.price <;> cases hs : body.stock <;>
      simp only [hn, hp, hs] at h <;> try contradiction
    by_cases hsku : db.skuTaken (some id) body.sku = true
    · simp [hsku] at h
    · simp only [hsku, Bool.false_eq_true, if_false, Option.some.injEq] at h
      subst h
      exact ⟨rfl, rfl⟩
  · simp only [hany, Bool.false_eq_true, if_false, Option.some.injEq] at h
    subst h
    exact ⟨rfl, rfl⟩

/-- The product `INSERT` changes neither `sale_items` nor `sales`. -/
theorem runInsertProduct_frame (db : Store) (body : ProductBody) (result : Store × Nat)
    (h : db.runInsertProduct body = some result) :
    result.1.sale_items = db.sale_items ∧ result.1.sales = db.sales := by
  unfold Store.runInsertProduct at h
  cases hn : body.name <;> cases hp : body.price <;> cases hs : body.stock <;>
    simp only [hn, hp, hs] at h <;> try contradiction
  by_cases hsku : db.skuTaken none body.sku = true
  · simp [hsku] at h
  · simp only [hsku, Bool.false_eq_true, if_false, Option.some.injEq] at h
    subst h
    exact ⟨rfl, rfl⟩

/-- The category `UPDATE` changes neither `sale_items` nor `sales`. -/
theorem runUpdateCategory_frame (db db1 : Store) (id : Nat) (body : CategoryBody)
    (h : db.runUpdateCategory id body = some db1) :
    db1.sale_items = db.sale_items ∧ db1.sales = db.sales := by
  unfold Store.runUpdateCategory at h
  by_cases hany : db.categories.any (fun c => c.id == id) = true
  · simp only [hany, if_true] at h
    cases hn : body.name <;> simp only [hn] at h <;> try contradiction
    simp only [Option.some.injEq] at h
    subst h
    exact ⟨rfl, rfl⟩
  · simp only [hany, Bool.false_eq_true, if_false, Option.some.injEq] at h
    subst h
    exact ⟨rfl, rfl⟩

/-- C18. Each of the six category and product handlers, `updateProduct` included, leaves
the `sale_items` table and the `sales` table exactly as they were, whatever the request and
whether or not the statement rejects: the `unit_price` and `total_price` of every stored
line item survive any later change of a product. -/
theorem crud_preserves_sales (fault : Nat → Bool) (db : Store) (id : Nat)
    (cbody : CategoryBody) (pbody : ProductBody) :
    ((updateProduct fault db id pbody).2.sale_items = db.sale_items ∧
        (updateProduct fault db id pbody).2.sales = db.sales) ∧
      ((createProduct fault db pbody).2.sale_items = db.sale_items ∧
        (createProduct fault db pbody).2.sales = db.sales) ∧
      ((deleteProduct fault db id).2.sale_items = db.sale_items ∧
        (deleteProduct fault db id).2.sales = db.sales) ∧
      ((createCategory fault db cbody).2.sale_items = db.sale_items ∧
        (createCategory fault db cbody).2.sales = db.sales) ∧
      ((updateCategory fault db id cbody).2.sale_items = db.sale_items ∧
        (updateCategory fault db id cbody).2.sales = db.sales) ∧
      ((deleteCategory fault db id).2.sale_items = db.sale_items ∧
        (deleteCategory fault db id).2.sales = db.sales) := by
  refine ⟨?_, ?_, ?_, ?_, ?_, ?_⟩
  · unfold updateProduct
    cases fault 0
    · cases hr : db.runUpdateProduct id pbody with
      | none => exact ⟨rfl, rfl⟩
      | some db1 => exact runUpdateProduct_frame db db1 id pbody hr
    · exact ⟨rfl, rfl⟩
  · unfold createProduct
    cases fault 0
    · cases hr : db.runInsertProduct pbody with
      | none => exact ⟨rfl, rfl⟩
      | some result => exact runInsertProduct_frame db pbody result hr
    · exact ⟨rfl, rfl⟩
  · unfold deleteProduct
    cases fault 0 <;> exact ⟨rfl, rfl⟩
  · unfold createCategory
    cases fault 0
    · cases cbody.name <;> exact ⟨rfl, rfl⟩
    · exact ⟨rfl, rfl⟩
  · unfold updateCategory
    cases fault 0
    · cases hr : db.runUpdateCategory id cbody with
      | none => exact ⟨rfl, rfl⟩
      | some db1 => exact runUpdateCategory_frame db db1 id cbody hr
    · exact ⟨rfl, rfl⟩
  · unfold deleteCategory
    cases fault 0 <;> exact ⟨rfl, rfl⟩

/-! ## C19: two postings for the whole stock -/

/-- C19, evaluation at the failing input. Two postings each ask the whole stock 5 of
product 1. When both lookups run before either stock update, both postings are answered 201
and the stock ends at `-5`. -/
theorem interleave_both_succeed :
    oneProductStore.stockOf 1 = some 5 ∧
      (interleave (requestOf [⟨1, 5⟩]) (requestOf [⟨1, 5⟩]) lookupsFirst
          (SaleTask.start (requestOf [⟨1, 5⟩]), SaleTask.start (requestOf [⟨1, 5⟩]),
            oneProductStore)).1.status = some 201 ∧
      (interleave (requestOf [⟨1, 5⟩]) (requestOf [⟨1, 5⟩]) lookupsFirst
          (SaleTask.start (requestOf [⟨1, 5⟩]), SaleTask.start (requestOf [⟨1, 5⟩]),
            oneProductStore)).2.1.status = some 201 ∧
      (interleave (requestOf [⟨1, 5⟩]) (requestOf [⟨1, 5⟩]) lookupsFirst
          (SaleTask.start (requestOf [⟨1, 5⟩]), SaleTask.start (requestOf [⟨1, 5⟩]),
            oneProductStore)).2.2.stockOf 1 = some (-5) := by
  decide

/-- The same two postings one after the other: the first is answered 201, the second 400,
and the stock ends at 0. -/
theorem interleave_one_after_the_other :
    (interleave (requestOf [⟨1, 5⟩]) (requestOf [⟨1, 5⟩]) oneAfterTheOther
          (SaleTask.start (requestOf [⟨1, 5⟩]), SaleTask.start (requestOf [⟨1, 5⟩]),
            oneProductStore)).1.status = some 201 ∧
      (interleave (requestOf [⟨1, 5⟩]) (requestOf [⟨1, 5⟩]) oneAfterTheOther
          (SaleTask.start (requestOf [⟨1, 5⟩]), SaleTask.start (requestOf [⟨1, 5⟩]),
            oneProductStore)).2.1
        = .finished ⟨400, .message "Insufficient stock for P"⟩ ∧
      (interleave (requestOf [⟨1, 5⟩]) (requestOf [⟨1, 5⟩]) oneAfterTheOther
          (SaleTask.start (requestOf [⟨1, 5⟩]), SaleTask.start (requestOf [⟨1, 5⟩]),
            oneProductStore)).2.2.stockOf 1 = some 0 := by
  decide
/-- A posting that is done stays as it is. -/
theorem SaleTask.run_finished (req : SaleRequest) (response : Response) :
    ∀ (n : Nat) (db : Store),
      SaleTask.run req n (.finished response) db = (.finished response, db) := by
  intro n
  induction n with
  | zero => intro db; rfl
  | succ n ih => intro db; simp only [SaleTask.run, SaleTask.step]; exact ih db

/-- Running `m + n` steps is running `m` steps and then `n` more. -/
theorem SaleTask.run_add (req : SaleRequest) (m n : Nat) :
    ∀ (task : SaleTask) (db : Store),
      SaleTask.run req (m + n) task db
        = SaleTask.run req n (SaleTask.run req m task db).1 (SaleTask.run req m task db).2 := by
  induction m with
  | zero => intro task db; simp [SaleTask.run]
  | succ m ih =>
    intro task db
    rw [show m + 1 + n = (m + n) + 1 by omega]
    simp only [SaleTask.run]
    exact ih _ _

/-- Run on its own, the validation part of a posting does what the validation loop does:
it ends with the same rejection, or reaches the `sales` insert with the same accumulators. -/
theorem SaleTask.run_validating (req : SaleRequest) (db : Store)
    (items : List SaleRequestItem) :
    ∀ (k : Nat) (total : ℚ) (acc : List SaleLine),
      (∀ r, validateItems db noFault k items total acc = .rejected r →
        ∀ n, items.length ≤ n →
          SaleTask.run req n (.validating items total acc) db = (.finished r, db)) ∧
      (∀ total2 lines, validateItems db noFault k items total acc = .ok total2 lines →
        SaleTask.run req items.length (.validating items total acc) db
          = (.validating [] total2 lines, db)) ∧
      validateItems db noFault k items total acc ≠ .threw := by
  induction items with
  | nil =>
    intro k total acc
    refine ⟨fun r h => ?_, fun total2 lines h => ?_, ?_⟩
    · simp [validateItems] at h
    · simp only [validateItems, Validation.ok.injEq] at h
      obtain ⟨rfl, rfl⟩ := h
      rfl
    · simp [validateItems]
  | cons item rest ih =>
    intro k total acc
    rw [validateItems]
    simp only [noFault, Bool.false_eq_true, if_false]
    cases hp : db.getProduct item.product_id with
    | none =>
      refine ⟨fun r h n hn => ?_, fun total2 lines h => ?_, by simp⟩
      · simp only [Validation.rejected.injEq] at h
        subst h
        obtain ⟨m, rfl⟩ : ∃ m, n = m + 1 := ⟨n - 1, by simp at hn; omega⟩
        simp only [SaleTask.run, SaleTask.step, hp]
        exact SaleTask.run_finished req _ m db
      · simp at h
    | some p =>
      by_cases hlt : p.stock < item.quantity
      · simp only [hlt, if_true]
        refine ⟨fun r h n hn => ?_, fun total2 lines h => ?_, by simp⟩
        · simp only [Validation.rejected.injEq] at h
          subst h
          obtain ⟨m, rfl⟩ : ∃ m, n = m + 1 := ⟨n - 1, by simp at hn; omega⟩
          simp only [SaleTask.run, SaleTask.step, hp, hlt, if_true]
          exact SaleTask.run_finished req _ m db
        · simp at h
      · simp only [hlt, if_false]
        obtain ⟨ih1, ih2, ih3⟩ := ih (k + 1) (total + p.price * item.quantity)
          (acc ++ [⟨item.product_id, item.quantity, p.price, p.price * item.quantity⟩])
        simp only [noFault] at ih1 ih2 ih3
        refine ⟨fun r h n hn => ?_, fun total2 lines h => ?_, ih3⟩
        · obtain ⟨m, rfl⟩ : ∃ m, n = m + 1 := ⟨n - 1, by simp at hn; omega⟩
          simp only [SaleTask.run, SaleTask.step, hp, hlt, if_false]
          exact ih1 r h m (by simp at hn; omega)
        · simp only [List.length_cons, SaleTask.run, SaleTask.step, hp, hlt, if_false]
          exact ih2 total2 lines h

/-- Run on its own, the commit part of a posting applies the writes of the commit loop and
ends with the 201 response. -/
theorem SaleTask.run_commit (req : SaleRequest) (sale_id : Nat) (total : ℚ)
    (saleItems lines : List SaleLine) :
    ∀ (k : Nat) (db : Store),
      SaleTask.run req (2 * lines.length)
          (SaleTask.commitNext req sale_id total saleItems lines) db
        = (.finished ⟨201, .sale sale_id total (req.payment_method.getD "cash") saleItems⟩,
            (commitItems noFault sale_id k db lines).2) := by
  induction lines with
  | nil => intro k db; rfl
  | cons l ls ih =>
    intro k db
    rw [show 2 * (l :: ls).length = 2 * ls.length + 1 + 1 by simp; omega]
    simp only [SaleTask.run, SaleTask.commitNext, SaleTask.step, commitItems, noFault,
      Bool.false_eq_true, if_false]
    exact ih (k + 2) _

/-- A posting run on its own through its `3 n + 1` steps answers and writes exactly as
`createSale` does without storage failure. -/
theorem SaleTask.run_eq_createSale (db : Store) (req : SaleRequest) :
    SaleTask.run req (3 * req.items.length + 1) (SaleTask.start req) db
      = (.finished (createSale noFault db req).1, (createSale noFault db req).2) := by
  obtain ⟨h1, h2, h3⟩ := SaleTask.run_validating req db req.items 0 0 []
  unfold createSale SaleTask.start
  cases hv : validateItems db noFault 0 req.items 0 [] with
  | threw => exact absurd hv h3
  | rejected r => exact h1 r hv _ (by omega)
  | ok total lines =>
    obtain ⟨hvalid, hfv⟩ := validateItems_ok_inv db noFault req.items 0 0 [] total lines hv
    have hexp := validateItems_of_valid db noFault req.items 0 0 [] hvalid hfv
    rw [hv] at hexp
    simp only [Validation.ok.injEq, List.nil_append] at hexp
    have hlen : lines.length = req.items.length := by rw [hexp.2, List.length_map]
    have hc := commitItems_noFault noFault (db.insertSale total
      (req.payment_method.getD "cash") req.user_id).2 lines (req.items.length + 1)
      (db.insertSale total (req.payment_method.getD "cash") req.user_id).1 (fun _ _ => rfl)
    rw [show 3 * req.items.length + 1 = req.items.length + (1 + 2 * lines.length) by omega,
      SaleTask.run_add, h2 total lines hv, SaleTask.run_add]
    simp only [SaleTask.run, SaleTask.step]
    rw [SaleTask.run_commit req _ total lines lines (req.items.length + 1)]
    simp only [noFault, Bool.false_eq_true, if_false, hc]

/-! ## C20: the role of a newly registered user -/

/-- C20. Whenever `POST /api/auth/register` with a body that has no `role` key is answered
201, the body is a success whose `user` object has role `admin`, the token is the signature
of the claims of that user, role `admin` included, and the one row added to `users` has
role `admin`. -/
theorem register_default_role (hash : String → String) (sign : UserInfo → String)
    (fault : Nat → Bool) (db : Store) (body : RegisterBody)
    (hrole : body.role = none)
    (hok : (Routes.register hash sign fault db body).1.status = 201) :
    (Routes.register hash sign fault db body).1.body
        = .auth (.success (sign ⟨db.users_seq + 1, body.email, body.name, "admin"⟩)
            ⟨db.users_seq + 1, body.email, body.name, "admin"⟩) ∧
      (Routes.register hash sign fault db body).2.users
        = db.users ++ [⟨db.users_seq + 1, body.email, hash body.password, body.name,
            "admin"⟩] := by
  unfold Routes.register AuthService.register at hok ⊢
  simp only [hrole, Option.getD_none] at hok ⊢
  cases h0 : fault 0 with
  | true => simp [h0] at hok
  | false =>
    simp only [h0, Bool.false_eq_true, if_false] at hok ⊢
    cases hf : db.users.find? (fun u => u.email == body.email) with
    | some u => simp [hf] at hok
    | none =>
      simp only [hf] at hok ⊢
      cases h1 : fault 1 with
      | true => simp [h1] at hok
      | false =>
        simp only [h1, Bool.false_eq_true, if_false]
        exact ⟨rfl, rfl⟩

/-- Witness of C20: a first registration on the empty database, without `role`. -/
theorem register_default_role_witness :
    (Routes.register sampleHash sampleSign noFault (Store.empty 0)
          ⟨"ann@pos.com", "secret", "Ann", none⟩).1.body
        = .auth (.success (sampleSign ⟨(Store.empty 0).users_seq + 1,
              (⟨"ann@pos.com", "secret", "Ann", none⟩ : RegisterBody).email,
              (⟨"ann@pos.com", "secret", "Ann", none⟩ : RegisterBody).name, "admin"⟩)
            ⟨(Store.empty 0).users_seq + 1,
              (⟨"ann@pos.com", "secret", "Ann", none⟩ : RegisterBody).email,
              (⟨"ann@pos.com", "secret", "Ann", none⟩ : RegisterBody).name, "admin"⟩) ∧
      (Routes.register sampleHash sampleSign noFault (Store.empty 0)
          ⟨"ann@pos.com", "secret", "Ann", none⟩).2.users
        = (Store.empty 0).users ++ [⟨(Store.empty 0).users_seq + 1,
            (⟨"ann@pos.com", "secret", "Ann", none⟩ : RegisterBody).email,
            sampleHash (⟨"ann@pos.com", "secret", "Ann", none⟩ : RegisterBody).password,
            (⟨"ann@pos.com", "secret", "Ann", none⟩ : RegisterBody).name, "admin"⟩] :=
  register_default_role sampleHash sampleSign noFault (Store.empty 0)
    ⟨"ann@pos.com", "secret", "Ann", none⟩ rfl (by decide)

/-! ## C21: the three ways of `authenticateToken` -/

/-- The token the middleware reads is the second segment of the header, except that an
empty header gives the empty token. -/
theorem bearerToken_eq (authHeader : Option String) :
    bearerToken authHeader = secondSegment authHeader ∨
      (authHeader = some "" ∧ bearerToken authHeader = some "" ∧
        secondSegment authHeader = none) := by
  cases authHeader with
  | none => left; rfl
  | some h =>
    by_cases hh : h = ""
    · right
      subst hh
      exact ⟨rfl, by decide, by decide⟩
    · left
      simp [bearerToken, secondSegment, hh]

/-- C21. With the token taken to be the second space-separated segment of the
`Authorization` header, `authenticateToken` does exactly one of three things: when the header
is absent or has no non-empty second segment it responds 401 (and does not call `next`);
otherwise, when `verifyToken` returns `null`, it responds 403 (and does not call `next`);
otherwise it calls `next` with `req.user` set to the decoded payload, sending no response. -/
theorem authenticateToken_three_ways (verifyToken : String → Option UserInfo)
    (authHeader : Option String) :
    ((secondSegment authHeader = none ∨ secondSegment authHeader = some "") →
        authenticateToken verifyToken authHeader
          = .respond ⟨401, .message "Access token required"⟩) ∧
      (∀ token, secondSegment authHeader = some token → token ≠ "" →
        verifyToken token = none →
        authenticateToken verifyToken authHeader
          = .respond ⟨403, .message "Invalid or expired token"⟩) ∧
      (∀ token decoded, secondSegment authHeader = some token → token ≠ "" →
        verifyToken token = some decoded →
        authenticateToken verifyToken authHeader = .next decoded) := by
  unfold authenticateToken
  rcases bearerToken_eq authHeader with h | ⟨_, hb, hs⟩
  · rw [h]
    refine ⟨?_, ?_, ?_⟩
    · rintro (hn | he)
      · simp [hn]
      · simp [he]
    · intro token ht hne hv
      simp [ht, hne, hv]
    · intro token decoded ht hne hv
      simp [ht, hne, hv]
  · rw [hb, hs]
    refine ⟨fun _ => by simp, ?_, ?_⟩
    · intro token ht; simp at ht
    · intro token decoded ht; simp at ht

/-! ## C22: registration checks for an existing user -/

/-- The lookup by email finds a row exactly when some row carries that email. -/
theorem getUserByEmail_isSome (db : Store) (email : String) :
    (db.getUserByEmail email).isSome ↔ ∃ u ∈ db.users, u.email = email := by
  simp [Store.getUserByEmail, List.find?_isSome]

/-- C22. Let the lookup of `register` not reject. For an email that already has a `users`
row the result is the failure `User already exists`, the database is untouched and no token
is issued. For an email with no row, and the insert not rejecting, exactly one row is added
to `users` and the result is a success whose user carries the id of that new row. -/
theorem register_existing_check (hash : String → String) (sign : UserInfo → String)
    (fault : Nat → Bool) (db : Store) (email password name : String) (role : Option String)
    (hread : fault 0 = false) :
    ((∃ u ∈ db.users, u.email = email) →
        AuthService.register hash sign fault db email password name role
          = (.failure "User already exists", db)) ∧
      ((∀ u ∈ db.users, u.email ≠ email) → fault 1 = false →
        (AuthService.register hash sign fault db email password name role).1
          = .success (sign ⟨db.users_seq + 1, email, name, role.getD "admin"⟩)
              ⟨db.users_seq + 1, email, name, role.getD "admin"⟩ ∧
        (AuthService.register hash sign fault db email password name role).2.users
          = db.users ++ [⟨db.users_seq + 1, email, hash password, name,
              role.getD "admin"⟩] ∧
        (AuthService.register hash sign fault db email password name role).2.users_seq
          = db.users_seq + 1) := by
  unfold AuthService.register
  simp only [hread, Bool.false_eq_true, if_false]
  refine ⟨fun hex => ?_, fun hnone hwrite => ?_⟩
  · have hs := (getUserByEmail_isSome db email).mpr hex
    unfold Store.getUserByEmail at hs
    cases hf : db.users.find? (fun u => u.email == email) with
    | none => simp [hf] at hs
    | some u => rfl
  · have hf : db.users.find? (fun u => u.email == email) = none := by
      rw [List.find?_eq_none]
      intro u hu
      simpa using hnone u hu
    simp only [hf, hwrite, Bool.false_eq_true, if_false]
    exact ⟨rfl, rfl, rfl⟩

/-- Witness of C22: on the database whose only user is Ann, registering Ann again fails
and registering Bob adds one row with the next id. -/
theorem register_existing_check_witness :
    AuthService.register sampleHash sampleSign noFault annStore "ann@pos.com" "pw" "Ann" none
        = (.failure "User already exists", annStore) ∧
      (AuthService.register sampleHash sampleSign noFault annStore "bob@pos.com" "pw" "Bob"
          none).1
        = .success (sampleSign ⟨annStore.users_seq + 1, "bob@pos.com", "Bob",
              (none : Option String).getD "admin"⟩)
            ⟨annStore.users_seq + 1, "bob@pos.com", "Bob",
              (none : Option String).getD "admin"⟩ ∧
      (AuthService.register sampleHash sampleSign noFault annStore "bob@pos.com" "pw" "Bob"
          none).2.users
        = annStore.users ++ [⟨annStore.users_seq + 1, "bob@pos.com", sampleHash "pw", "Bob",
            (none : Option String).getD "admin"⟩] :=
  ⟨(register_existing_check sampleHash sampleSign noFault annStore "ann@pos.com" "pw" "Ann"
      none rfl).1 ⟨⟨1, "ann@pos.com", "hashed:secret", "Ann", "admin"⟩, by decide, rfl⟩,
    ((register_existing_check sampleHash sampleSign noFault annStore "bob@pos.com" "pw" "Bob"
      none rfl).2 (by decide) rfl).1,
    ((register_existing_check sampleHash sampleSign noFault annStore "bob@pos.com" "pw" "Bob"
      none rfl).2 (by decide) rfl).2.1⟩

/-! ## C23: login -/

/-- C23. Let the lookup of `login` not reject. Login succeeds exactly when a `users` row with
the given email is found and `bcrypt.compare` accepts the password against the hash stored
on it. An unknown email and a wrong password give the same failure `Invalid credentials`.
A success carries the token signed over `id`, `email`, `name`, `role` of the row and a user
object with these four fields; two databases whose rows for the email agree on the four
fields give the same success, whatever hashes they store. -/
theorem login_characterisation (compare : String → String → Bool) (sign : UserInfo → String)
    (fault : Nat → Bool) (db : Store) (email password : String)
    (hread : fault 0 = false) :
    ((∃ token user, AuthService.login compare sign fault db email password
          = .success token user) ↔
        ∃ u, db.getUserByEmail email = some u ∧ compare password u.password = true) ∧
      (db.getUserByEmail email = none →
        AuthService.login compare sign fault db email password
          = .failure "Invalid credentials") ∧
      (∀ u, db.getUserByEmail email = some u → compare password u.password = false →
        AuthService.login compare sign fault db email password
          = .failure "Invalid credentials") ∧
      (∀ u, db.getUserByEmail email = some u → compare password u.password = true →
        AuthService.login compare sign fault db email password
          = .success (sign ⟨u.id, u.email, u.name, u.role⟩)
              ⟨u.id, u.email, u.name, u.role⟩) ∧
      (∀ db2 u u2, db.getUserByEmail email = some u → db2.getUserByEmail email = some u2 →
        u2.id = u.id → u2.email = u.email → u2.name = u.name → u2.role = u.role →
        compare password u.password = true → compare password u2.password = true →
        AuthService.login compare sign fault db2 email password
          = AuthService.login compare sign fault db email password) := by
  have hnone : db.getUserByEmail email = none →
      AuthService.login compare sign fault db email password
        = .failure "Invalid credentials" := by
    intro h
    simp [AuthService.login, hread, h]
  have hbad : ∀ u, db.getUserByEmail email = some u → compare password u.password = false →
      AuthService.login compare sign fault db email password
        = .failure "Invalid credentials" := by
    intro u h hc
    simp [AuthService.login, hread, h, hc]
  have hgood : ∀ (d : Store) (u : User), d.getUserByEmail email = some u →
      compare password u.password = true →
      AuthService.login compare sign fault d email password
        = .success (sign ⟨u.id, u.email, u.name, u.role⟩)
            ⟨u.id, u.email, u.name, u.role⟩ := by
    intro d u h hc
    simp [AuthService.login, AuthService.generateToken, hread, h, hc]
  refine ⟨⟨?_, ?_⟩, hnone, hbad, hgood db, ?_⟩
  · rintro ⟨token, user, hs⟩
    cases hu : db.getUserByEmail email with
    | none => rw [hnone hu] at hs; simp at hs
    | some u =>
      cases hc : compare password u.password with
      | false => rw [hbad u hu hc] at hs; simp at hs
      | true => exact ⟨u, rfl, hc⟩
  · rintro ⟨u, hu, hc⟩
    exact ⟨_, _, hgood db u hu hc⟩
  · intro db2 u u2 hu hu2 h1 h2 h3 h4 hc hc2
    rw [hgood db u hu hc, hgood db2 u2 hu2 hc2, h1, h2, h3, h4]

/-- Witness of C23: logins on the database whose only user is Ann. -/
theorem login_characterisation_witness :
    (AuthService.login sampleCompare sampleSign noFault annStore "ann@pos.com" "secret"
        = .success (sampleSign ⟨1, "ann@pos.com", "Ann", "admin"⟩)
            ⟨1, "ann@pos.com", "Ann", "admin"⟩) ∧
      (AuthService.login sampleCompare sampleSign noFault annStore "ann@pos.com" "wrong"
        = .failure "Invalid credentials") ∧
      (AuthService.login sampleCompare sampleSign noFault annStore "bob@pos.com" "secret"
        = .failure "Invalid credentials") :=
  ⟨(login_characterisation sampleCompare sampleSign noFault annStore "ann@pos.com" "secret"
      rfl).2.2.2.1 ⟨1, "ann@pos.com", "hashed:secret", "Ann", "admin"⟩ (by decide) (by decide),
    (login_characterisation sampleCompare sampleSign noFault annStore "ann@pos.com" "wrong"
      rfl).2.2.1 ⟨1, "ann@pos.com", "hashed:secret", "Ann", "admin"⟩ (by decide) (by decide),
    (login_characterisation sampleCompare sampleSign noFault annStore "bob@pos.com" "secret"
      rfl).2.1 (by decide)⟩

/-! ## C24: the date filter of the sales report -/

/-- No text is below itself, so `BETWEEN` includes both of its bounds. -/
theorem textLt_irrefl (a : List Char) : textLt a a = false := by
  induction a with
  | nil => rfl
  | cons c cs ih => simp [textLt, ih]

/-- Adding a sale to a report raises the number of transactions it counts by one. -/
theorem addToReport_count (date : String) (amount : ℚ) (rows : List ReportRow) :
    ((addToReport date amount rows).map (fun r => r.total_transactions)).sum
      = (rows.map (fun r => r.total_transactions)).sum + 1 := by
  induction rows with
  | nil => simp [addToReport]
  | cons row rows ih =>
    unfold addToReport
    split
    · simp; omega
    · split
      · simp; omega
      · simp [ih]; omega

/-- The report over a list of sales counts each of them once. -/
theorem reportRows_count (dateOf : Nat → String) (sales : List Sale) :
    ((reportRows dateOf sales).map (fun r => r.total_transactions)).sum = sales.length := by
  unfold reportRows
  suffices h : ∀ (init : List ReportRow),
      ((sales.foldl (fun rows s => addToReport (dateOf s.created_at) s.total_amount rows)
        init).map (fun r => r.total_transactions)).sum
        = (init.map (fun r => r.total_transactions)).sum + sales.length by
    simpa using h []
  induction sales with
  | nil => intro init; simp
  | cons s rest ih =>
    intro init
    simp only [List.foldl_cons, List.length_cons]
    rw [ih, addToReport_count]
    omega

/-- The lexicographic order on two non-empty lists: the heads decide, or are equal and the
tails decide. -/
theorem lex_cons_cons (m n : Nat) (l1 l2 : List Nat) :
    List.Lex (fun m n : Nat => m < n) (m :: l1) (n :: l2) ↔
      m < n ∨ (m = n ∧ List.Lex (fun m n : Nat => m < n) l1 l2) := by
  constructor
  · intro h
    cases h with
    | rel h => exact Or.inl h
    | cons h => exact Or.inr ⟨rfl, h⟩
  · rintro (h | ⟨rfl, h⟩)
    · exact List.Lex.rel h
    · exact List.Lex.cons h

/-- Two characters with the same code are the same character. -/
theorem char_eq_of_toNat_eq (a b : Char) (h : a.toNat = b.toNat) : a = b := by
  rw [← Char.ofNat_toNat a, ← Char.ofNat_toNat b, h]

/-- The comparison of the model is the lexicographic order of character codes. -/
theorem textLt_iff_lex (a : List Char) :
    ∀ b : List Char, textLt a b = true ↔
      List.Lex (fun m n : Nat => m < n) (a.map Char.toNat) (b.map Char.toNat) := by
  induction a with
  | nil =>
    intro b
    cases b with
    | nil => simp [textLt, List.Lex.not_nil_right]
    | cons c cs => simp [textLt, List.Lex.nil]
  | cons x xs ih =>
    intro b
    cases b with
    | nil => simp [textLt, List.Lex.not_nil_right]
    | cons c cs =>
      simp only [textLt, List.map_cons, Bool.or_eq_true, Bool.and_eq_true, decide_eq_true_eq,
        beq_iff_eq, ih cs, lex_cons_cons]
      constructor
      · rintro (h | ⟨rfl, h⟩)
        · exact Or.inl h
        · exact Or.inr ⟨rfl, h⟩
      · rintro (h | ⟨heq, h⟩)
        · exact Or.inl h
        · exact Or.inr ⟨char_eq_of_toNat_eq x c heq, h⟩

/-- The order `a <= b` of the model: `b` does not come strictly before `a`. -/
theorem textLe_iff (a b : String) : textLe a b = true ↔ ¬ lexBefore b a := by
  unfold textLe lexBefore charCodes
  rw [← textLt_iff_lex]
  simp

/-- The code of a digit character. -/
theorem digitChar_toNat (n : Nat) : (digitChar n).toNat = 48 + n % 10 := by
  unfold digitChar
  have h : n % 10 < 10 := Nat.mod_lt _ (by norm_num)
  interval_cases (n % 10) <;> rfl

/-- A number below 10000 is given by its four decimal digits, one below 100 by its two. -/
theorem decimal_digits (n : Nat) :
    (n < 10000 → n = 1000 * (n / 1000 % 10) + 100 * (n / 100 % 10) + 10 * (n / 10 % 10)
      + n % 10) ∧
      (n < 100 → n = 10 * (n / 10 % 10) + n % 10) := by
  constructor <;> intro h <;> omega

/-- On texts `YYYY-MM-DD` the order of the model is the order of the calendar. -/
theorem textLe_isoDate (y1 m1 d1 y2 m2 d2 : Nat) (hy1 : y1 < 10000) (hy2 : y2 < 10000)
    (hm1 : m1 < 100) (hm2 : m2 < 100) (hd1 : d1 < 100) (hd2 : d2 < 100) :
    textLe (isoDate y1 m1 d1) (isoDate y2 m2 d2) = true ↔ dateLe y1 m1 d1 y2 m2 d2 := by
  rw [textLe_iff]
  unfold lexBefore charCodes isoDate dateLe
  simp only [List.map_cons, List.map_nil, lex_cons_cons, digitChar_toNat,
    List.Lex.not_nil_right, and_false, or_false, lt_self_iff_false, true_and, false_or]
  have ey1 := (decimal_digits y1).1 hy1
  have ey2 := (decimal_digits y2).1 hy2
  have em1 := (decimal_digits m1).2 hm1
  have em2 := (decimal_digits m2).2 hm2
  have ed1 := (decimal_digits d1).2 hd1
  have ed2 := (decimal_digits d2).2 hd2
  have b1 : y1 / 1000 % 10 < 10 := Nat.mod_lt _ (by norm_num)
  have b2 : y1 / 100 % 10 < 10 := Nat.mod_lt _ (by norm_num)
  have b3 : y1 / 10 % 10 < 10 := Nat.mod_lt _ (by norm_num)
  have b4 : y1 % 10 < 10 := Nat.mod_lt _ (by norm_num)
  have b5 : y2 / 1000 % 10 < 10 := Nat.mod_lt _ (by norm_num)
  have b6 : y2 / 100 % 10 < 10 := Nat.mod_lt _ (by norm_num)
  have b7 : y2 / 10 % 10 < 10 := Nat.mod_lt _ (by norm_num)
  have b8 : y2 % 10 < 10 := Nat.mod_lt _ (by norm_num)
  have c1 : m1 / 10 % 10 < 10 := Nat.mod_lt _ (by norm_num)
  have c2 : m1 % 10 < 10 := Nat.mod_lt _ (by norm_num)
  have c3 : m2 / 10 % 10 < 10 := Nat.mod_lt _ (by norm_num)
  have c4 : m2 % 10 < 10 := Nat.mod_lt _ (by norm_num)
  have e1 : d1 / 10 % 10 < 10 := Nat.mod_lt _ (by norm_num)
  have e2 : d1 % 10 < 10 := Nat.mod_lt _ (by norm_num)
  have e3 : d2 / 10 % 10 < 10 := Nat.mod_lt _ (by norm_num)
  have e4 : d2 % 10 < 10 := Nat.mod_lt _ (by norm_num)
  generalize y1 / 1000 % 10 = p1 at *
  generalize y1 / 100 % 10 = p2 at *
  generalize y1 / 10 % 10 = p3 at *
  generalize y1 % 10 = p4 at *
  generalize y2 / 1000 % 10 = q1 at *
  generalize y2 / 100 % 10 = q2 at *
  generalize y2 / 10 % 10 = q3 at *
  generalize y2 % 10 = q4 at *
  generalize m1 / 10 % 10 = r1 at *
  generalize m1 % 10 = r2 at *
  generalize m2 / 10 % 10 = s1 at *
  generalize m2 % 10 = s2 at *
  generalize d1 / 10 % 10 = t1 at *
  generalize d1 % 10 = t2 at *
  generalize d2 / 10 % 10 = u1 at *
  generalize d2 % 10 = u2 at *
  subst ey1 ey2 em1 em2 ed1 ed2
  omega

/-- The text of a calendar date is not empty. -/
theorem isoDate_ne_empty (y m d : Nat) : isoDate y m d ≠ "" := by
  intro h
  have := congrArg String.length h
  simp [isoDate, String.length] at this

/-- C24. Let the query of `getSalesReport` not reject. The handler filters by date only when
both `start_date` and `end_date` are given and non-empty. When one of them is absent or
empty the report is the one over all `sales` rows, every row counted once; the client sends
just one parameter when it is called with just one date. When both are given the report is
over exactly the sales whose date is between the two in the order of texts: the date does
not come before `start_date` and `end_date` does not come before the date, so both bounds
are included. For dates and bounds written `YYYY-MM-DD` that is the order of the calendar. -/
theorem getSalesReport_filter (dateOf : Nat → String) (fault : Nat → Bool) (db : Store)
    (start_date end_date : Option String) (hread : fault 0 = false) :
    ((truthy start_date = false ∨ truthy end_date = false) →
        getSalesReport dateOf fault db start_date end_date
            = getSalesReport dateOf fault db none none ∧
          getSalesReport dateOf fault db start_date end_date
            = ⟨200, .salesReport (reportRows dateOf db.sales)⟩ ∧
          ((reportRows dateOf db.sales).map (fun r => r.total_transactions)).sum
            = db.sales.length) ∧
      ((truthy start_date = true ∧ truthy end_date = false →
          APIClient.getSalesReport start_date end_date = (start_date, none)) ∧
        (truthy start_date = false ∧ truthy end_date = true →
          APIClient.getSalesReport start_date end_date = (none, end_date))) ∧
      (∀ start stop, start_date = some start → end_date = some stop →
        start ≠ "" → stop ≠ "" →
        getSalesReport dateOf fault db start_date end_date
            = ⟨200, .salesReport (reportRows dateOf
                (db.sales.filter
                  (fun s => dateBetween start stop (dateOf s.created_at))))⟩ ∧
          (∀ s, s ∈ db.sales.filter (fun s => dateBetween start stop (dateOf s.created_at)) ↔
            s ∈ db.sales ∧ ¬ lexBefore (dateOf s.created_at) start ∧
              ¬ lexBefore stop (dateOf s.created_at)) ∧
          (∀ s, dateOf s.created_at = start ∨ dateOf s.created_at = stop →
            ¬ lexBefore stop start →
            (s ∈ db.sales.filter (fun s => dateBetween start stop (dateOf s.created_at)) ↔
              s ∈ db.sales))) ∧
      (∀ ys ms ds ye me de, ys < 10000 → ms < 100 → ds < 100 → ye < 10000 → me < 100 →
        de < 100 → start_date = some (isoDate ys ms ds) → end_date = some (isoDate ye me de) →
        getSalesReport dateOf fault db start_date end_date
            = ⟨200, .salesReport (reportRows dateOf
                (db.sales.filter (fun s => dateBetween (isoDate ys ms ds) (isoDate ye me de)
                  (dateOf s.created_at))))⟩ ∧
          ∀ s y m d, y < 10000 → m < 100 → d < 100 → dateOf s.created_at = isoDate y m d →
            (s ∈ db.sales.filter (fun s => dateBetween (isoDate ys ms ds) (isoDate ye me de)
                (dateOf s.created_at)) ↔
              s ∈ db.sales ∧ dateLe ys ms ds y m d ∧ dateLe y m d ye me de)) := by
  have hboth : ∀ start stop, start ≠ "" → stop ≠ "" →
      getSalesReport dateOf fault db (some start) (some stop)
        = ⟨200, .salesReport (reportRows dateOf
            (db.sales.filter (fun s => dateBetween start stop (dateOf s.created_at))))⟩ := by
    intro start stop hs he
    simp [getSalesReport, truthy, hs, he, hread]
  have hnone : getSalesReport dateOf fault db none none
      = ⟨200, .salesReport (reportRows dateOf db.sales)⟩ := by
    simp [getSalesReport, hread]
  have hone : (truthy start_date = false ∨ truthy end_date = false) →
      getSalesReport dateOf fault db start_date end_date
        = getSalesReport dateOf fault db none none := by
    intro h
    unfold getSalesReport
    cases start_date with
    | none => rfl
    | some start =>
      cases end_date with
      | none => rfl
      | some stop =>
        have hb : (truthy (some start) && truthy (some stop)) = false := by
          rcases h with h | h <;> simp [h]
        simp only [hb, Bool.false_eq_true, if_false]
  have hmem : ∀ (start stop : String) (s : Sale),
      s ∈ db.sales.filter (fun s => dateBetween start stop (dateOf s.created_at)) ↔
        s ∈ db.sales ∧ ¬ lexBefore (dateOf s.created_at) start ∧
          ¬ lexBefore stop (dateOf s.created_at) := by
    intro start stop s
    rw [List.mem_filter, dateBetween, Bool.and_eq_true, textLe_iff, textLe_iff]
  have hirr : ∀ a : String, ¬ lexBefore a a := by
    intro a h
    have := (textLt_iff_lex a.data a.data).mpr h
    rw [textLt_irrefl] at this
    exact absurd this (by simp)
  refine ⟨fun h => ⟨hone h, (hone h).trans hnone, reportRows_count dateOf db.sales⟩,
    ⟨?_, ?_⟩, ?_, ?_⟩
  · rintro ⟨h1, h2⟩
    simp [APIClient.getSalesReport, h1, h2]
  · rintro ⟨h1, h2⟩
    simp [APIClient.getSalesReport, h1, h2]
  · intro start stop hs he hsne hene
    subst hs he
    refine ⟨hboth start stop hsne hene, hmem start stop, ?_⟩
    intro s hdate hord
    rw [hmem]
    constructor
    · exact fun h => h.1
    · intro h
      rcases hdate with hd | hd
      · rw [hd]; exact ⟨h, hirr start, hord⟩
      · rw [hd]; exact ⟨h, hord, hirr stop⟩
  · intro ys ms ds ye me de hys hms hds hye hme hde hs he
    subst hs he
    refine ⟨hboth _ _ (isoDate_ne_empty _ _ _) (isoDate_ne_empty _ _ _), ?_⟩
    intro s y m d hy hm hd hdate
    rw [List.mem_filter, dateBetween, Bool.and_eq_true, hdate,
      textLe_isoDate ys ms ds y m d hys hy hms hm hds hd,
      textLe_isoDate y m d ye me de hy hye hm hme hd hde]

/-- Witness of C24 on the database with three sales, two on 1 May and one on 2 May: with
the start date only the report covers all three; with both dates set to 2 May it covers the
one sale of that day; with the bounds in the wrong order it covers none. -/
theorem getSalesReport_filter_witness :
    getSalesReport sampleDateOf noFault threeSalesStore (some "2024-05-02") none
        = ⟨200, .salesReport [⟨"2024-05-02", 1, 20⟩, ⟨"2024-05-01", 2, 15⟩]⟩ ∧
      getSalesReport sampleDateOf noFault threeSalesStore (some "2024-05-02")
          (some "2024-05-02")
        = ⟨200, .salesReport [⟨"2024-05-02", 1, 20⟩]⟩ ∧
      getSalesReport sampleDateOf noFault threeSalesStore (some "2030-01-01")
          (some "2000-01-01")
        = ⟨200, .salesReport []⟩ :=
  ⟨((getSalesReport_filter sampleDateOf noFault threeSalesStore (some "2024-05-02") none
      rfl).1 (Or.inr rfl)).2.1.trans (by
        simp [threeSalesStore, Store.empty, reportRows, addToReport, sampleDateOf, textLt]
        norm_num),
    ((getSalesReport_filter sampleDateOf noFault threeSalesStore (some "2024-05-02")
      (some "2024-05-02") rfl).2.2.1 "2024-05-02" "2024-05-02" rfl rfl (by decide)
      (by decide)).1.trans (by
        simp [threeSalesStore, Store.empty, reportRows, addToReport, sampleDateOf, dateBetween,
          textLe, textLt]),
    ((getSalesReport_filter sampleDateOf noFault threeSalesStore (some "2030-01-01")
      (some "2000-01-01") rfl).2.2.1 "2030-01-01" "2000-01-01" rfl rfl (by decide)
      (by decide)).1.trans (by
        simp [threeSalesStore, Store.empty, reportRows, addToReport, sampleDateOf, dateBetween,
          textLe, textLt])⟩

/-- The report on the database with three sales, without dates, with the start date only,
and with both dates set to 2 May. -/
theorem getSalesReport_examples :
    getSalesReport sampleDateOf noFault threeSalesStore none none
        = ⟨200, .salesReport [⟨"2024-05-02", 1, 20⟩, ⟨"2024-05-01", 2, 15⟩]⟩ ∧
      getSalesReport sampleDateOf noFault threeSalesStore (some "2024-05-02") none
        = ⟨200, .salesReport [⟨"2024-05-02", 1, 20⟩, ⟨"2024-05-01", 2, 15⟩]⟩ ∧
      getSalesReport sampleDateOf noFault threeSalesStore (some "2024-05-02")
          (some "2024-05-02")
        = ⟨200, .salesReport [⟨"2024-05-02", 1, 20⟩]⟩ := by
  refine ⟨?_, ?_, ?_⟩ <;>
    simp [getSalesReport, noFault, threeSalesStore, Store.empty, reportRows, addToReport,
      sampleDateOf, truthy, dateBetween, textLe, textLt] <;>
    norm_num

/-! ## C25: seeding twice -/

/-- When the four lookups of `seedData` all find a row, none of its branches is taken and
the database is returned as it is: no statement that writes is issued. -/
theorem seedData_of_seeded (hashedPassword : String) (db : Store)
    (hadmin : (db.users.find? (fun u => u.email == "admin@pos.com")).isSome = true)
    (hcategories : db.categories ≠ []) (hproducts : db.products ≠ [])
    (hsales : db.sales ≠ []) :
    seedData hashedPassword db = db := by
  have h1 : (db.users.find? (fun u => u.email == "admin@pos.com")).isNone = false := by
    cases h : db.users.find? (fun u => u.email == "admin@pos.com") with
    | none => simp [h] at hadmin
    | some u => rfl
  have h2 : db.categories.head?.isNone = false := by
    cases h : db.categories with
    | nil => exact absurd h hcategories
    | cons c cs => rfl
  have h3 : db.products.head?.isNone = false := by
    cases h : db.products with
    | nil => exact absurd h hproducts
    | cons c cs => rfl
  have h4 : db.sales.head?.isNone = false := by
    cases h : db.sales with
    | nil => exact absurd h hsales
    | cons c cs => rfl
  simp only [seedData, h1, h2, h3, h4, Bool.false_eq_true, if_false]

/-- The database `seedData` makes of an empty one: its tables and counters. -/
theorem seedData_empty (hashedPassword : String) (clock : Nat) :
    (seedData hashedPassword (Store.empty clock)).users
        = [⟨1, "admin@pos.com", hashedPassword, "Administrator", "admin"⟩] ∧
      (seedData hashedPassword (Store.empty clock)).categories.map (fun c => (c.id, c.name))
        = [(1, "Electronics"), (2, "Clothing"), (3, "Food & Beverages"), (4, "Books"),
            (5, "Home & Garden")] ∧
      (seedData hashedPassword (Store.empty clock)).products.map
          (fun p => (p.id, p.sku, p.stock))
        = [(1, some "PHONE001", 49), (2, some "LAPTOP001", 24), (3, some "SHIRT001", 98),
            (4, some "JEANS001", 74), (5, some "COFFEE001", 199), (6, some "ENERGY001", 149),
            (7, some "BOOK001", 29), (8, some "TOOLS001", 20)] ∧
      (seedData hashedPassword (Store.empty clock)).sales.map (fun s => (s.id, s.user_id))
        = [(1, 1), (2, 1), (3, 1), (4, 1)] ∧
      (seedData hashedPassword (Store.empty clock)).sale_items.map
          (fun r => (r.id, r.sale_id, r.product_id, r.quantity))
        = [(1, 1, 1, 1), (2, 1, 5, 1), (3, 2, 3, 2), (4, 2, 4, 1), (5, 3, 2, 1),
            (6, 4, 7, 1), (7, 4, 6, 1)] := by
  refine ⟨?_, ?_, ?_, ?_, ?_⟩ <;>
    simp [seedData, Store.empty, Store.insertUser, Store.insertCategory, Store.insertProduct,
      seedCategories, seedProducts, sampleSales, seedSales, seedSaleItems, Store.insertSale,
      Store.insertSaleItem, Store.decrementStock]

/-- C25. Run on an empty database, `seedData` inserts the admin user, 5 categories,
8 products and 4 sample sales with their 7 line items, and lowers the stock of the products
sold, leaving every stock non-negative. Run again on the result, whatever hash `bcrypt`
would return this time, it takes none of its four branches and returns the database as it
is: the store after two runs equals the store after one. -/
theorem seedData_idempotent (hashedPassword hashedAgain : String) (clock : Nat) :
    (seedData hashedPassword (Store.empty clock)).users.length = 1 ∧
      (seedData hashedPassword (Store.empty clock)).categories.length = 5 ∧
      (seedData hashedPassword (Store.empty clock)).products.length = 8 ∧
      (seedData hashedPassword (Store.empty clock)).sales.length = 4 ∧
      (seedData hashedPassword (Store.empty clock)).sale_items.length = 7 ∧
      (seedData hashedPassword (Store.empty clock)).products.map (fun p => p.stock)
        = [49, 24, 98, 74, 199, 149, 29, 20] ∧
      (∀ p ∈ (seedData hashedPassword (Store.empty clock)).products, 0 ≤ p.stock) ∧
      seedData hashedAgain (seedData hashedPassword (Store.empty clock))
        = seedData hashedPassword (Store.empty clock) := by
  obtain ⟨hu, hc, hp, hs, hi⟩ := seedData_empty hashedPassword clock
  have hlen : ∀ {α β : Type} (f : α → β) (l : List α) (m : List β),
      l.map f = m → l.length = m.length := by
    intro α β f l m h
    rw [← h, List.length_map]
  have hstock : (seedData hashedPassword (Store.empty clock)).products.map (fun p => p.stock)
      = [49, 24, 98, 74, 199, 149, 29, 20] := by
    have := congrArg (List.map (fun t : Nat × Option String × Int => t.2.2)) hp
    simpa [List.map_map, Function.comp] using this
  refine ⟨by rw [hu]; rfl, hlen _ _ _ hc, hlen _ _ _ hp, hlen _ _ _ hs, hlen _ _ _ hi, hstock,
    ?_, ?_⟩
  · intro p hmem
    have hm : p.stock ∈ (seedData hashedPassword (Store.empty clock)).products.map
        (fun p => p.stock) := List.mem_map.mpr ⟨p, hmem, rfl⟩
    rw [hstock] at hm
    simp only [List.mem_cons, List.mem_singleton, List.not_mem_nil, or_false] at hm
    omega
  · apply seedData_of_seeded
    · rw [hu]; rfl
    · intro h
      have := hlen _ _ _ hc
      rw [h] at this
      simp at this
    · intro h
      have := hlen _ _ _ hp
      rw [h] at this
      simp at this
    · intro h
      have := hlen _ _ _ hs
      rw [h] at this
      simp at this

/-! ## Rounding to binary64 -/

/-- A rational less than one half away from an integer rounds to it. -/
theorem roundHalfEven_of_near (q : ℚ) (n : ℤ) (h : |q - n| < 1 / 2) : roundHalfEven q = n := by
  rw [abs_lt] at h
  obtain ⟨h1, h2⟩ := h
  unfold roundHalfEven
  by_cases hle : (n : ℚ) ≤ q
  · have hf : ⌊q⌋ = n := by
      rw [Int.floor_eq_iff]
      constructor
      · exact hle
      · linarith
    simp only [hf]
    rw [if_pos (by linarith)]
  · have hf : ⌊q⌋ = n - 1 := by
      rw [Int.floor_eq_iff]
      push_cast
      constructor <;> linarith
    simp only [hf]
    push_cast
    rw [if_neg (by linarith), if_pos (by linarith)]
    ring

/-- A rational half way between `n` and `n + 1`, with `n` even, rounds to `n`. -/
theorem roundHalfEven_of_tie_even (q : ℚ) (n : ℤ) (h : q = n + 1 / 2) (heven : n % 2 = 0) :
    roundHalfEven q = n := by
  unfold roundHalfEven
  have hf : ⌊q⌋ = n := by
    rw [Int.floor_eq_iff]
    constructor <;> linarith
  simp only [hf]
  rw [if_neg (by linarith), if_neg (by linarith), if_pos heven]

/-- Rounding a positive rational of binade `e + 52` to binary64. -/
theorem roundToDouble_of_binade (x : ℚ) (e n : ℤ) (hlo : (2 : ℚ) ^ (e + 52) ≤ x)
    (hhi : x < (2 : ℚ) ^ (e + 53)) (hn : roundHalfEven (x / 2 ^ e) = n) :
    roundToDouble x = n * 2 ^ e := by
  have hpos : 0 < x := lt_of_lt_of_le (by positivity) hlo
  have hlog : Int.log 2 |x| = e + 52 := by
    rw [abs_of_pos hpos]
    apply le_antisymm
    · have := (Int.lt_zpow_iff_log_lt (b := 2) (by norm_num) (x := e + 53) hpos).mp
        (by exact_mod_cast hhi)
      omega
    · exact (Int.zpow_le_iff_le_log (b := 2) (by norm_num) hpos).mp (by exact_mod_cast hlo)
  unfold roundToDouble
  rw [if_neg (ne_of_gt hpos)]
  simp only [hlog, add_sub_cancel_right, hn]

/-! ## `createSale` under any arithmetic -/

/-- The validation loop takes the same path under every arithmetic: it rejects with the
same response, throws at the same operation, and when it ends well it has accumulated the
running total and the line items of that arithmetic. -/
theorem validateItemsWith_sim (arith : Arith) (db : Store) (fault : Nat → Bool)
    (items : List SaleRequestItem) :
    ∀ (k : Nat) (total : ℚ) (acc : List SaleLine) (total2 : ℚ) (acc2 : List SaleLine),
      (∀ r, validateItems db fault k items total2 acc2 = .rejected r →
        validateItemsWith arith db fault k items total acc = .rejected r) ∧
      (validateItems db fault k items total2 acc2 = .threw →
        validateItemsWith arith db fault k items total acc = .threw) ∧
      (∀ T L, validateItems db fault k items total2 acc2 = .ok T L →
        validateItemsWith arith db fault k items total acc
          = .ok (runningTotal arith db total items)
              (acc ++ items.map (saleLineWith arith db))) := by
  induction items with
  | nil =>
    intro k total acc total2 acc2
    refine ⟨fun r h => ?_, fun h => ?_, fun T L _ => ?_⟩
    · simp [validateItems] at h
    · simp [validateItems] at h
    · simp [validateItemsWith, runningTotal]
  | cons item rest ih =>
    intro k total acc total2 acc2
    rw [validateItems, validateItemsWith]
    cases hf : fault k with
    | true => simp
    | false =>
      simp only [Bool.false_eq_true, if_false]
      cases hp : db.getProduct item.product_id with
      | none => simp
      | some p =>
        have hprice : db.priceOf item.product_id = p.price := by simp [Store.priceOf, hp]
        by_cases hlt : p.stock < item.quantity
        · simp [hlt]
        · simp only [hlt, if_false]
          obtain ⟨h1, h2, h3⟩ := ih (k + 1) (arith.add total (arith.mul p.price item.quantity))
            (acc ++ [⟨item.product_id, item.quantity, p.price,
              arith.mul p.price item.quantity⟩])
            (total2 + p.price * item.quantity)
            (acc2 ++ [⟨item.product_id, item.quantity, p.price, p.price * item.quantity⟩])
          refine ⟨h1, h2, fun T L h => ?_⟩
          rw [h3 T L h]
          simp [runningTotal, saleLineWith, hprice]

/-- Under exact arithmetic the running total is the sum of the line totals. -/
theorem runningTotal_exact (db : Store) (items : List SaleRequestItem) :
    ∀ start : ℚ, runningTotal exactArith db start items = start + requestTotal db items := by
  induction items with
  | nil => intro start; simp [runningTotal, requestTotal]
  | cons item rest ih =>
    intro start
    have h := ih (start + db.priceOf item.product_id * item.quantity)
    simp only [runningTotal, requestTotal, exactArith, List.foldl_cons, List.map_cons,
      List.sum_cons] at h ⊢
    rw [h]
    ring

/-- With exact arithmetic `createSaleWith` is `createSale`. -/
theorem createSaleWith_exact (fault : Nat → Bool) (db : Store) (req : SaleRequest) :
    createSaleWith exactArith fault db req = createSale fault db req := by
  have hv : ∀ (items : List SaleRequestItem) (k : Nat) (total : ℚ) (acc : List SaleLine),
      validateItemsWith exactArith db fault k items total acc
        = validateItems db fault k items total acc := by
    intro items
    induction items with
    | nil => intro k total acc; rfl
    | cons item rest ih =>
      intro k total acc
      rw [validateItemsWith, validateItems]
      have ih2 := ih
      simp only [exactArith] at ih2
      simp only [exactArith, ih2]
  unfold createSaleWith createSale
  rw [hv]

/-- The line items of a request take of each product what the request asks of it, under
every arithmetic. -/
theorem lineQuantity_saleLineWith (arith : Arith) (db : Store) (items : List SaleRequestItem)
    (id : Nat) :
    lineQuantity (items.map (saleLineWith arith db)) id = requestedQuantity items id := by
  induction items with
  | nil => simp [lineQuantity, requestedQuantity]
  | cons item rest ih =>
    unfold lineQuantity requestedQuantity at *
    by_cases h : item.product_id = id <;> simp [List.filter_cons, saleLineWith, h, ih]

/-- The result of `createSaleWith` when every line is valid and none of its `3 n + 1`
database operations rejects. -/
theorem createSaleWith_of_valid (arith : Arith) (db : Store) (req : SaleRequest)
    (fault : Nat → Bool) (hvalid : ∀ item ∈ req.items, lineValid db item)
    (hfault : ∀ j, j < 3 * req.items.length + 1 → fault j = false) :
    createSaleWith arith fault db req
      = (⟨201, .sale (db.sales_seq + 1) (runningTotal arith db 0 req.items)
            (req.payment_method.getD "cash") (req.items.map (saleLineWith arith db))⟩,
         (db.insertSale (runningTotal arith db 0 req.items) (req.payment_method.getD "cash")
            req.user_id).1.afterLines (db.sales_seq + 1)
            (req.items.map (saleLineWith arith db))
            (req.items.map (saleLineWith arith db))) := by
  have hex := validateItems_of_valid db fault req.items 0 0 [] hvalid
    (fun j hj => by simpa using hfault j (by omega))
  have hv := (validateItemsWith_sim arith db fault req.items 0 0 [] 0 []).2.2 _ _ hex
  have hc := commitItems_noFault fault (db.sales_seq + 1)
    (req.items.map (saleLineWith arith db)) (req.items.length + 1)
    (db.insertSale (runningTotal arith db 0 req.items) (req.payment_method.getD "cash")
      req.user_id).1
    (fun j hj => hfault _ (by simp at hj; omega))
  have hn : fault req.items.length = false := hfault _ (by omega)
  simp only [createSaleWith, hv, List.nil_append, hn, Bool.false_eq_true, if_false]
  simp only [Store.insertSale] at hc ⊢
  rw [hc]

/-- Under every arithmetic, an answer 201 means every line was valid and none of the
`3 n + 1` database operations rejected. -/
theorem createSaleWith_success_inv (arith : Arith) (db : Store) (req : SaleRequest)
    (fault : Nat → Bool) (h : (createSaleWith arith fault db req).1.status = 201) :
    (∀ item ∈ req.items, lineValid db item) ∧
      ∀ j, j < 3 * req.items.length + 1 → fault j = false := by
  obtain ⟨h1, h2, h3⟩ := validateItemsWith_sim arith db fault req.items 0 0 [] 0 []
  unfold createSaleWith at h
  cases hv : validateItems db fault 0 req.items 0 [] with
  | threw => simp [h2 hv, failedToCreateSale] at h
  | rejected r =>
    have := validateItems_rejected_status db fault req.items 0 0 [] r hv
    simp [h1 r hv, this] at h
  | ok total lines =>
    obtain ⟨hvalid, hfv⟩ := validateItems_ok_inv db fault req.items 0 0 [] total lines hv
    refine ⟨hvalid, ?_⟩
    simp only [h3 total lines hv, List.nil_append] at h
    cases hn : fault req.items.length with
    | true => simp [hn, failedToCreateSale] at h
    | false =>
      simp only [hn, Bool.false_eq_true, if_false] at h
      split at h
      · simp [failedToCreateSale] at h
      · rename_i db2 hc
        have hcf := commitItems_true_inv fault _ _ _ _ _ hc
        simp only [List.length_map] at hcf
        intro j hj
        by_cases h1 : j < req.items.length
        · simpa using hfv j h1
        · by_cases h2 : j = req.items.length
          · rw [h2]; exact hn
          · have := hcf (j - (req.items.length + 1)) (by omega)
            rwa [show req.items.length + 1 + (j - (req.items.length + 1)) = j by omega] at this
/-! ## The seed prices as binary64 values -/

/-- Rounding a value that is already a 53-bit significand times a power of two, to
binary64, gives it back. -/
theorem roundToDouble_of_double (n e : ℤ) (hlo : 2 ^ 52 ≤ n) (hhi : n < 2 ^ 53) :
    roundToDouble (n * 2 ^ e) = n * 2 ^ e := by
  have hpow : (0 : ℚ) < 2 ^ e := by positivity
  apply roundToDouble_of_binade
  · rw [zpow_add₀ (by norm_num : (2 : ℚ) ≠ 0), mul_comm]
    apply mul_le_mul_of_nonneg_right _ hpow.le
    exact_mod_cast hlo
  · rw [zpow_add₀ (by norm_num : (2 : ℚ) ≠ 0), mul_comm ((2 : ℚ) ^ e)]
    apply mul_lt_mul_of_pos_right _ hpow
    exact_mod_cast hhi
  · apply roundHalfEven_of_near
    rw [mul_div_assoc, div_self (ne_of_gt hpow)]
    norm_num

/-- The binary64 value of the literal `39.99`. -/
theorem double_39_99 : roundToDouble 39.99 = 5628092159329567 / 2 ^ 47 := by
  have h := roundToDouble_of_binade 39.99 (-47) 5628092159329567 (by norm_num) (by norm_num)
    (roundHalfEven_of_near _ _ (by norm_num [abs_lt]))
  rw [h]
  norm_num

/-- The binary64 value of the literal `2.99`. -/
theorem double_2_99 : roundToDouble 2.99 = 1683220360729723 / 2 ^ 49 := by
  have h := roundToDouble_of_binade 2.99 (-51) 6732881442918892 (by norm_num) (by norm_num)
    (roundHalfEven_of_near _ _ (by norm_num [abs_lt]))
  rw [h]
  norm_num

/-- The binary64 value of the literal `79.99`. -/
theorem double_79_99 : roundToDouble 79.99 = 5628795846771343 / 2 ^ 46 := by
  have h := roundToDouble_of_binade 79.99 (-46) 5628795846771343 (by norm_num) (by norm_num)
    (roundHalfEven_of_near _ _ (by norm_num [abs_lt]))
  rw [h]
  norm_num

/-- The binary64 value of the literal `42.98`. -/
theorem double_42_98 : roundToDouble 42.98 = 6048897249511997 / 2 ^ 47 := by
  have h := roundToDouble_of_binade 42.98 (-47) 6048897249511997 (by norm_num) (by norm_num)
    (roundHalfEven_of_near _ _ (by norm_num [abs_lt]))
  rw [h]
  norm_num

/-- The binary64 value of the literal `239.97`. -/
theorem double_239_97 : roundToDouble 239.97 = 8443193770157015 / 2 ^ 45 := by
  have h := roundToDouble_of_binade 239.97 (-45) 8443193770157015 (by norm_num) (by norm_num)
    (roundHalfEven_of_near _ _ (by norm_num [abs_lt]))
  rw [h]
  norm_num

/-- In binary64, `39.99 + 2.99` is `42.980000000000004`, one unit in the last place above
the binary64 value of `42.98`. -/
theorem double_sum_39_99_2_99 :
    roundToDouble (5628092159329567 / 2 ^ 47 + 1683220360729723 / 2 ^ 49)
      = 6048897249511998 / 2 ^ 47 := by
  have h := roundToDouble_of_binade (5628092159329567 / 2 ^ 47 + 1683220360729723 / 2 ^ 49)
    (-47) 6048897249511998 (by norm_num) (by norm_num)
    (roundHalfEven_of_near _ _ (by norm_num [abs_lt]))
  rw [h]
  norm_num

/-- In binary64, `79.99 * 3` is `239.96999999999997`: the exact product lies half way
between two binary64 values and goes to the even one, below the binary64 value of
`239.97`. -/
theorem double_product_79_99_3 :
    roundToDouble (5628795846771343 / 2 ^ 46 * 3) = 8443193770157014 / 2 ^ 45 := by
  have h := roundToDouble_of_binade (5628795846771343 / 2 ^ 46 * 3) (-45) 8443193770157014
    (by norm_num) (by norm_num)
    (roundHalfEven_of_tie_even _ _ (by norm_num) (by norm_num))
  rw [h]
  norm_num

/-- A binary64 value is unchanged by `* 1` and by `0 +`. -/
theorem double_unit_ops (n : ℤ) (k : ℕ) (hlo : 2 ^ 52 ≤ n) (hhi : n < 2 ^ 53) :
    roundToDouble ((n : ℚ) / 2 ^ k * 1) = (n : ℚ) / 2 ^ k ∧
      roundToDouble (0 + (n : ℚ) / 2 ^ k) = (n : ℚ) / 2 ^ k := by
  have h := roundToDouble_of_double n (-(k : ℤ)) hlo hhi
  have e : (n : ℚ) * 2 ^ (-(k : ℤ)) = (n : ℚ) / 2 ^ k := by
    rw [zpow_neg, zpow_natCast, div_eq_mul_inv]
  rw [e] at h
  exact ⟨by rw [mul_one]; exact h, by rw [zero_add]; exact h⟩
/-! ## C1 and C10 in the arithmetic of the runtime -/

/-- The prices of products 6, 7 and 8 in the store of binary64 prices. -/
theorem doublePriceStore_prices :
    doublePriceStore.getProduct 7
        = some ⟨7, "Programming Book", some "Learn JavaScript", roundToDouble 39.99, 30,
            some 4, some "BOOK001"⟩ ∧
      doublePriceStore.getProduct 6
        = some ⟨6, "Energy Drink", some "Energy boost drink", roundToDouble 2.99, 150,
            some 3, some "ENERGY001"⟩ ∧
      doublePriceStore.getProduct 8
        = some ⟨8, "Garden Tools", some "Basic garden tool set", roundToDouble 79.99, 20,
            some 5, some "TOOLS001"⟩ := by
  refine ⟨?_, ?_, ?_⟩ <;> rfl

/-- C1, counterexample. On the seeded products with their prices as binary64 values, the
valid request `[(7, 1), (6, 1)]` is answered 201 with `total_amount` the binary64 value
`42.980000000000004`. That is neither the sum of `unit_price * quantity` over the returned
lines nor `42.98`, nor the binary64 value of `42.98`. -/
theorem createSaleWith_double_total :
    (∀ item ∈ (requestOf [⟨7, 1⟩, ⟨6, 1⟩]).items, 0 < item.quantity) ∧
      stockCovers doublePriceStore (requestOf [⟨7, 1⟩, ⟨6, 1⟩]).items ∧
      (createSaleWith doubleArith noFault doublePriceStore (requestOf [⟨7, 1⟩, ⟨6, 1⟩])).1
        = ⟨201, .sale 1 (6048897249511998 / 2 ^ 47) "cash"
            [⟨7, 1, 5628092159329567 / 2 ^ 47, 5628092159329567 / 2 ^ 47⟩,
             ⟨6, 1, 1683220360729723 / 2 ^ 49, 1683220360729723 / 2 ^ 49⟩]⟩ ∧
      (6048897249511998 / 2 ^ 47 : ℚ)
        ≠ 5628092159329567 / 2 ^ 47 * 1 + 1683220360729723 / 2 ^ 49 * 1 ∧
      (6048897249511998 / 2 ^ 47 : ℚ) ≠ 42.98 ∧
      (6048897249511998 / 2 ^ 47 : ℚ) ≠ roundToDouble 42.98 := by
  obtain ⟨h7, h6, _⟩ := doublePriceStore_prices
  have hvalid : ∀ item ∈ (requestOf [⟨7, 1⟩, ⟨6, 1⟩]).items,
      0 < item.quantity ∧ lineValid doublePriceStore item := by
    intro item hm
    simp only [requestOf, List.mem_cons, List.mem_singleton, List.not_mem_nil, or_false] at hm
    rcases hm with rfl | rfl
    · exact ⟨by decide, _, h7, by decide⟩
    · exact ⟨by decide, _, h6, by decide⟩
  have hp7 : doublePriceStore.priceOf 7 = 5628092159329567 / 2 ^ 47 := by
    simp only [Store.priceOf, h7, double_39_99]
  have hp6 : doublePriceStore.priceOf 6 = 1683220360729723 / 2 ^ 49 := by
    simp only [Store.priceOf, h6, double_2_99]
  have u7 := double_unit_ops 5628092159329567 47 (by norm_num) (by norm_num)
  have u6 := double_unit_ops 6732881442918892 51 (by norm_num) (by norm_num)
  have e6 : ((6732881442918892 : ℤ) : ℚ) / 2 ^ 51 = 1683220360729723 / 2 ^ 49 := by norm_num
  rw [e6] at u6
  push_cast at u7 u6
  have hcover : stockCovers doublePriceStore (requestOf [⟨7, 1⟩, ⟨6, 1⟩]).items := by
    intro item hm
    simp only [requestOf, List.mem_cons, List.mem_singleton, List.not_mem_nil, or_false] at hm
    rcases hm with rfl | rfl
    · exact ⟨_, h7, by decide⟩
    · exact ⟨_, h6, by decide⟩
  refine ⟨fun item hm => (hvalid item hm).1, hcover, ?_, by norm_num, by norm_num,
    by rw [double_42_98]; norm_num⟩
  rw [createSaleWith_of_valid doubleArith doublePriceStore _ noFault
    (fun item hm => (hvalid item hm).2) (fun _ _ => rfl)]
  simp only [requestOf, runningTotal, saleLineWith, doubleArith, List.foldl_cons,
    List.foldl_nil, List.map_cons, List.map_nil, hp7, hp6, Int.cast_one, u7.1, u7.2, u6.1,
    double_sum_39_99_2_99, Option.getD_none]
  rfl

/-- With positive quantities, what a request asks of the product of one of its lines is at
least the quantity of that line. -/
theorem quantity_le_requestedQuantity (items : List SaleRequestItem)
    (hpos : ∀ item ∈ items, 0 < item.quantity) (id : Nat) :
    0 ≤ requestedQuantity items id ∧
      ∀ x ∈ items, x.product_id = id → x.quantity ≤ requestedQuantity items id := by
  induction items with
  | nil => exact ⟨by simp [requestedQuantity], by simp⟩
  | cons y rest ih =>
    obtain ⟨h0, hle⟩ := ih (fun item hm => hpos item (List.mem_cons_of_mem _ hm))
    have hy : 0 < y.quantity := hpos y (List.mem_cons_self _ _)
    unfold requestedQuantity at h0 hle ⊢
    by_cases hid : y.product_id = id
    · have hb : (y.product_id == id) = true := by simpa using hid
      rw [List.filter_cons, hb]
      simp only [if_true, List.map_cons, List.sum_cons]
      refine ⟨by omega, ?_⟩
      intro x hx hxid
      rcases List.mem_cons.mp hx with rfl | hx
      · omega
      · have := hle x hx hxid
        omega
    · have hb : (y.product_id == id) = false := by simpa using hid
      rw [List.filter_cons, hb]
      simp only [Bool.false_eq_true, if_false]
      refine ⟨h0, ?_⟩
      intro x hx hxid
      rcases List.mem_cons.mp hx with rfl | hx
      · exact absurd hxid hid
      · exact hle x hx hxid

/-- A request with positive quantities whose products cover what the whole request asks of
them passes the validation loop line by line. -/
theorem lineValid_of_stockCovers (db : Store) (items : List SaleRequestItem)
    (hpos : ∀ item ∈ items, 0 < item.quantity) (hcover : stockCovers db items) :
    ∀ item ∈ items, lineValid db item := by
  intro item hm
  obtain ⟨p, hp, hle⟩ := hcover item hm
  exact ⟨p, hp,
    le_trans ((quantity_le_requestedQuantity items hpos item.product_id).2 item hm rfl) hle⟩

/-- C1, amended. For a request with a non-empty item list in which every line has a positive
quantity and names an existing product whose stock is at least the quantity the whole
request asks of that product, `createSale` (no storage failure) answers 201. The returned
and stored `total_amount` is the running total of the handler in its own arithmetic:
starting from 0, line by line, the product of price and quantity is added, each operation
rounding to binary64 in the runtime; in exact arithmetic that is the sum of
`unit_price * quantity` over the lines. The stock of every product is lowered by exactly
the quantity requested of it and stays at least 0 where it was covered, and every product
outside the request keeps its stock. -/
theorem createSaleWith_valid_request (arith : Arith) (db : Store) (req : SaleRequest)
    (_hne : req.items ≠ []) (hpos : ∀ item ∈ req.items, 0 < item.quantity)
    (hcover : stockCovers db req.items) :
    (createSaleWith arith noFault db req).1
        = ⟨201, .sale (db.sales_seq + 1) (runningTotal arith db 0 req.items)
            (req.payment_method.getD "cash") (req.items.map (saleLineWith arith db))⟩ ∧
      (createSaleWith arith noFault db req).2.sales
        = db.sales ++ [⟨db.sales_seq + 1, runningTotal arith db 0 req.items,
            req.payment_method.getD "cash", req.user_id, db.clock⟩] ∧
      runningTotal exactArith db 0 req.items
        = (req.items.map (fun item => db.priceOf item.product_id * item.quantity)).sum ∧
      runningTotal doubleArith db 0 req.items
        = req.items.foldl (fun total item =>
            roundToDouble (total + roundToDouble (db.priceOf item.product_id * item.quantity)))
            0 ∧
      (createSaleWith arith noFault db req).2.products
        = db.products.map
            (fun p => { p with stock := p.stock - requestedQuantity req.items p.id }) ∧
      (∀ item ∈ req.items, ∃ p, db.getProduct item.product_id = some p ∧
        (createSaleWith arith noFault db req).2.stockOf item.product_id
          = some (p.stock - requestedQuantity req.items item.product_id) ∧
        0 ≤ p.stock - requestedQuantity req.items item.product_id) ∧
      (∀ id, (∀ item ∈ req.items, item.product_id ≠ id) →
        (createSaleWith arith noFault db req).2.stockOf id = db.stockOf id) := by
  have h := createSaleWith_of_valid arith db req noFault
    (lineValid_of_stockCovers db req.items hpos hcover) (fun _ _ => rfl)
  rw [h]
  refine ⟨rfl, rfl, ?_, rfl, ?_, ?_, ?_⟩
  · rw [runningTotal_exact, zero_add, requestTotal]
  · simp only [Store.afterLines, Store.insertSale, lineQuantity_saleLineWith]
  · intro item hm
    obtain ⟨p, hp, hle⟩ := hcover item hm
    refine ⟨p, hp, ?_, by omega⟩
    rw [stockOf_afterLines, lineQuantity_saleLineWith]
    have hs : (db.insertSale (runningTotal arith db 0 req.items)
        (req.payment_method.getD "cash") req.user_id).1.stockOf item.product_id
        = some p.stock := by
      have : (db.insertSale (runningTotal arith db 0 req.items)
          (req.payment_method.getD "cash") req.user_id).1.getProduct item.product_id
          = db.getProduct item.product_id := rfl
      simp only [Store.stockOf, this, hp, Option.map_some']
    rw [hs]
    rfl
  · intro id hid
    rw [stockOf_afterLines, lineQuantity_saleLineWith, requestedQuantity_absent _ _ hid]
    simp only [Store.stockOf, Store.getProduct, Store.insertSale, sub_zero, Option.map_map]
    rfl

/-- Witness of the amended C1: the request `[(7, 1), (6, 1)]` on the binary64 prices, in
the arithmetic of the runtime. -/
theorem createSaleWith_valid_request_witness :
    (createSaleWith doubleArith noFault doublePriceStore (requestOf [⟨7, 1⟩, ⟨6, 1⟩])).1
        = ⟨201, .sale (doublePriceStore.sales_seq + 1)
            (runningTotal doubleArith doublePriceStore 0 (requestOf [⟨7, 1⟩, ⟨6, 1⟩]).items)
            ((requestOf [⟨7, 1⟩, ⟨6, 1⟩]).payment_method.getD "cash")
            ((requestOf [⟨7, 1⟩, ⟨6, 1⟩]).items.map
              (saleLineWith doubleArith doublePriceStore))⟩ ∧
      (createSaleWith doubleArith noFault doublePriceStore
          (requestOf [⟨7, 1⟩, ⟨6, 1⟩])).2.sales
        = doublePriceStore.sales ++ [⟨doublePriceStore.sales_seq + 1,
            runningTotal doubleArith doublePriceStore 0 (requestOf [⟨7, 1⟩, ⟨6, 1⟩]).items,
            (requestOf [⟨7, 1⟩, ⟨6, 1⟩]).payment_method.getD "cash",
            (requestOf [⟨7, 1⟩, ⟨6, 1⟩]).user_id, doublePriceStore.clock⟩] ∧
      runningTotal exactArith doublePriceStore 0 (requestOf [⟨7, 1⟩, ⟨6, 1⟩]).items
        = ((requestOf [⟨7, 1⟩, ⟨6, 1⟩]).items.map
            (fun item => doublePriceStore.priceOf item.product_id * item.quantity)).sum ∧
      runningTotal doubleArith doublePriceStore 0 (requestOf [⟨7, 1⟩, ⟨6, 1⟩]).items
        = (requestOf [⟨7, 1⟩, ⟨6, 1⟩]).items.foldl (fun total item =>
            roundToDouble (total
              + roundToDouble (doublePriceStore.priceOf item.product_id * item.quantity)))
            0 ∧
      (createSaleWith doubleArith noFault doublePriceStore
          (requestOf [⟨7, 1⟩, ⟨6, 1⟩])).2.products
        = doublePriceStore.products.map
            (fun p => { p with
              stock := p.stock - requestedQuantity (requestOf [⟨7, 1⟩, ⟨6, 1⟩]).items p.id }) ∧
      (∀ item ∈ (requestOf [⟨7, 1⟩, ⟨6, 1⟩]).items, ∃ p,
        doublePriceStore.getProduct item.product_id = some p ∧
        (createSaleWith doubleArith noFault doublePriceStore
            (requestOf [⟨7, 1⟩, ⟨6, 1⟩])).2.stockOf item.product_id
          = some (p.stock
              - requestedQuantity (requestOf [⟨7, 1⟩, ⟨6, 1⟩]).items item.product_id) ∧
        0 ≤ p.stock - requestedQuantity (requestOf [⟨7, 1⟩, ⟨6, 1⟩]).items item.product_id) ∧
      (∀ id, (∀ item ∈ (requestOf [⟨7, 1⟩, ⟨6, 1⟩]).items, item.product_id ≠ id) →
        (createSaleWith doubleArith noFault doublePriceStore
            (requestOf [⟨7, 1⟩, ⟨6, 1⟩])).2.stockOf id
          = doublePriceStore.stockOf id) :=
  createSaleWith_valid_request doubleArith doublePriceStore (requestOf [⟨7, 1⟩, ⟨6, 1⟩])
    (by simp [requestOf])
    (by
      intro item hm
      simp only [requestOf, List.mem_cons, List.mem_singleton, List.not_mem_nil,
        or_false] at hm
      rcases hm with rfl | rfl <;> decide)
    (by
      intro item hm
      simp only [requestOf, List.mem_cons, List.mem_singleton, List.not_mem_nil,
        or_false] at hm
      rcases hm with rfl | rfl
      · exact ⟨_, doublePriceStore_prices.1, by decide⟩
      · exact ⟨_, doublePriceStore_prices.2.1, by decide⟩)

/-- C10, counterexample. On the seeded products with their prices as binary64 values, the
request `[(8, 3)]` is answered 201 with a line item whose `unit_price` is the binary64 value
of `79.99` and whose `total_price` is the binary64 value `239.96999999999997`: that is not
`quantity * unit_price`, nor `239.97`, nor the binary64 value of `239.97`. -/
theorem createSaleWith_double_line_total :
    (createSaleWith doubleArith noFault doublePriceStore (requestOf [⟨8, 3⟩])).1
        = ⟨201, .sale 1 (8443193770157014 / 2 ^ 45) "cash"
            [⟨8, 3, 5628795846771343 / 2 ^ 46, 8443193770157014 / 2 ^ 45⟩]⟩ ∧
      (8443193770157014 / 2 ^ 45 : ℚ) ≠ ((3 : ℤ) : ℚ) * (5628795846771343 / 2 ^ 46) ∧
      (8443193770157014 / 2 ^ 45 : ℚ) ≠ 239.97 ∧
      (8443193770157014 / 2 ^ 45 : ℚ) ≠ roundToDouble 239.97 := by
  obtain ⟨_, _, h8⟩ := doublePriceStore_prices
  have hvalid : ∀ item ∈ (requestOf [⟨8, 3⟩]).items, lineValid doublePriceStore item := by
    intro item hm
    simp only [requestOf, List.mem_singleton] at hm
    subst hm
    exact ⟨_, h8, by decide⟩
  have hp8 : doublePriceStore.priceOf 8 = 5628795846771343 / 2 ^ 46 := by
    simp only [Store.priceOf, h8, double_79_99]
  have u8 := double_unit_ops 8443193770157014 45 (by norm_num) (by norm_num)
  push_cast at u8
  have h3 : ((3 : ℤ) : ℚ) = 3 := by norm_num
  refine ⟨?_, by norm_num, by norm_num, by rw [double_239_97]; norm_num⟩
  rw [createSaleWith_of_valid doubleArith doublePriceStore _ noFault hvalid (fun _ _ => rfl)]
  simp only [requestOf, runningTotal, saleLineWith, doubleArith, List.foldl_cons,
    List.foldl_nil, List.map_cons, List.map_nil, hp8, h3, double_product_79_99_3, u8.2,
    Option.getD_none]
  rfl

/-- The line item of a valid request line carries the price of its product and, as line
total, the product of price and quantity in the arithmetic of the handler. -/
theorem saleLineWith_snapshot (arith : Arith) (db : Store) (items : List SaleRequestItem)
    (hvalid : ∀ item ∈ items, lineValid db item) :
    ∀ l ∈ items.map (saleLineWith arith db), ∃ p, db.getProduct l.product_id = some p ∧
      l.unit_price = p.price ∧ l.total_price = arith.mul l.unit_price l.quantity := by
  intro l hl
  obtain ⟨item, hitem, rfl⟩ := List.mem_map.mp hl
  obtain ⟨p, hp, _⟩ := hvalid item hitem
  exact ⟨p, hp, by simp [saleLineWith, Store.priceOf, hp], rfl⟩

/-- C10, amended. Whenever `createSale` answers 201 (under any pattern of storage failures),
the returned items are the request lines in order, each with `unit_price` the price of its
product as the lookup on the store read it and `total_price` the product of that price and
the quantity as the handler computes it in its own arithmetic (the exact product
`quantity * unit_price` in exact arithmetic, its rounding to binary64 in the runtime); the
`sale_items` rows appended to the store carry the same values. -/
theorem createSaleWith_line_snapshot (arith : Arith) (db : Store) (req : SaleRequest)
    (fault : Nat → Bool) (hok : (createSaleWith arith fault db req).1.status = 201) :
    (createSaleWith arith fault db req).1.body
        = .sale (db.sales_seq + 1) (runningTotal arith db 0 req.items)
            (req.payment_method.getD "cash") (req.items.map (saleLineWith arith db)) ∧
      (createSaleWith arith fault db req).2.sale_items
        = db.sale_items ++ saleItemRows (db.sales_seq + 1) db.sale_items_seq
            (req.items.map (saleLineWith arith db)) ∧
      (∀ l ∈ req.items.map (saleLineWith arith db), ∃ p,
        db.getProduct l.product_id = some p ∧ l.unit_price = p.price ∧
          l.total_price = arith.mul l.unit_price l.quantity) ∧
      (∀ row ∈ saleItemRows (db.sales_seq + 1) db.sale_items_seq
          (req.items.map (saleLineWith arith db)),
        ∃ p, db.getProduct row.product_id = some p ∧ row.unit_price = p.price ∧
          row.total_price = arith.mul row.unit_price row.quantity) ∧
      (∀ a b, exactArith.mul a b = a * b) ∧
      (∀ a b, doubleArith.mul a b = roundToDouble (a * b)) := by
  obtain ⟨hvalid, hfault⟩ := createSaleWith_success_inv arith db req fault hok
  rw [createSaleWith_of_valid arith db req fault hvalid hfault]
  refine ⟨rfl, rfl, saleLineWith_snapshot arith db req.items hvalid, ?_, fun _ _ => rfl,
    fun _ _ => rfl⟩
  intro row hrow
  obtain ⟨l, hl, h1, h2, h3, h4⟩ := saleItemRows_forall _ _ _ row hrow
  obtain ⟨p, hp, hu, ht⟩ := saleLineWith_snapshot arith db req.items hvalid l hl
  exact ⟨p, h1 ▸ hp, h3 ▸ hu, by rw [h4, h2, h3]; exact ht⟩

/-- Witness of the amended C10: the request `[(8, 3)]` on the binary64 prices, in the
arithmetic of the runtime, is answered 201. -/
theorem createSaleWith_line_snapshot_witness :
    (createSaleWith doubleArith noFault doublePriceStore (requestOf [⟨8, 3⟩])).1.body
        = .sale (doublePriceStore.sales_seq + 1)
            (runningTotal doubleArith doublePriceStore 0 (requestOf [⟨8, 3⟩]).items)
            ((requestOf [⟨8, 3⟩]).payment_method.getD "cash")
            ((requestOf [⟨8, 3⟩]).items.map (saleLineWith doubleArith doublePriceStore)) ∧
      (createSaleWith doubleArith noFault doublePriceStore (requestOf [⟨8, 3⟩])).2.sale_items
        = doublePriceStore.sale_items ++ saleItemRows (doublePriceStore.sales_seq + 1)
            doublePriceStore.sale_items_seq
            ((requestOf [⟨8, 3⟩]).items.map (saleLineWith doubleArith doublePriceStore)) ∧
      (∀ l ∈ (requestOf [⟨8, 3⟩]).items.map (saleLineWith doubleArith doublePriceStore),
        ∃ p, doublePriceStore.getProduct l.product_id = some p ∧ l.unit_price = p.price ∧
          l.total_price = doubleArith.mul l.unit_price l.quantity) ∧
      (∀ row ∈ saleItemRows (doublePriceStore.sales_seq + 1) doublePriceStore.sale_items_seq
          ((requestOf [⟨8, 3⟩]).items.map (saleLineWith doubleArith doublePriceStore)),
        ∃ p, doublePriceStore.getProduct row.product_id = some p ∧
          row.unit_price = p.price ∧
          row.total_price = doubleArith.mul row.unit_price row.quantity) ∧
      (∀ a b, exactArith.mul a b = a * b) ∧
      (∀ a b, doubleArith.mul a b = roundToDouble (a * b)) :=
  createSaleWith_line_snapshot doubleArith doublePriceStore (requestOf [⟨8, 3⟩]) noFault
    (by
      rw [createSaleWith_of_valid doubleArith doublePriceStore (requestOf [⟨8, 3⟩]) noFault
        (by
          intro item hm
          simp only [requestOf, List.mem_singleton] at hm
          subst hm
          exact ⟨_, doublePriceStore_prices.2.2, by decide⟩)
        (fun _ _ => rfl)])

end POS
